import Mathlib

/-!
# mx3100drv: settings codec and section transfers of `src/mx.c`

A shallow embedding of the driver's command functions.  Byte buffers are lists of
naturals, C `int` values are integers, the USB primitives declared in `usb.h` are a
parameter of every function, and the constants of `mx.h` are the fields of `Consts`.
-/

namespace MX

/-- A C string: the characters that precede the terminating NUL. -/
abbrev CStr := List Char

/-- The constants and tables that `mx.c` takes from `mx.h`.  Array offsets, byte
sentinels, flags and lengths are naturals; the bounds of user values are C `int`s. -/
structure Consts where
  SECTION_LEN : Nat
  DATA_LINE_LEN : Nat
  CMD_MSG_LEN : Nat
  FULL_BUF : Nat
  NUM_MACROS : Nat
  CONFIGS_ADDR : Nat
  BUTTONS_ADDR : Nat
  MACRO_ADDR_START : Nat
  SETTINGS_ADDR_MAX : Nat
  SETTINGS_ADDR_PARITY : Nat
  MACRO_MEM_FLAG : Nat
  MACRO_ADDR_PARITY : Nat
  ADDR_READ : Nat
  ANGLE_SNAP_ADDR : Nat
  ANGLE_SNAP_ENABLED : Nat
  ANGLE_SNAP_DISABLED : Nat
  ANGLE_CORRECT_ADDR : Nat
  ANGLE_CORRECT_NEG2 : Nat
  ANGLE_CORRECT_NEG1 : Nat
  ANGLE_CORRECT_ZERO : Nat
  ANGLE_CORRECT_POS1 : Nat
  ANGLE_CORRECT_POS2 : Nat
  LED_MODE_ADDR : Nat
  LED_MODE_OFF : Nat
  LED_MODE_STD : Nat
  LED_MODE_BREATHE : Nat
  LED_MODE_NEON : Nat
  LED_CFG_ADDR : Nat
  LED_BRIGHT_MIN : Int
  LED_BRIGHT_MAX : Int
  LED_SPEED_MIN : Int
  LED_SPEED_MAX : Int
  SENSITIVITY_X_ADDR : Nat
  SENSITIVITY_Y_ADDR : Nat
  SENSITIVITY_MIN : Int
  SENSITIVITY_MAX : Int
  SENSITIVITY_STEP : Int
  DPI_PROFILE_MIN : Int
  DPI_PROFILE_MAX : Int
  DPI_ENABLE_ADDR : Nat
  DPI_COLOR_ADDR_START : Nat
  DPI_COLOR_ADDR_STEP : Nat
  DPI_VALUE_ADDR_X : Nat
  DPI_VALUE_ADDR_Y : Nat
  DPI_VALUE_MIN : Int
  DPI_VALUE_MAX : Int
  factory_config : List Nat
  factory_buttons : List Nat

/-- The four transfer primitives of `usb.h` over a device state `σ`.  Each returns the
C status (0 for success); the two reads also return the bytes they put in the caller's
buffer. -/
structure Usb (σ : Type) where
  send_ctl : List Nat → σ → Int × σ
  read_ctl : σ → Int × List Nat × σ
  send_data : List Nat → σ → Int × σ
  read_data : σ → Int × List Nat × σ

/-- One call of a transfer primitive, with the bytes handed to it. -/
inductive Call where
  | send_ctl (cmd : List Nat)
  | read_ctl
  | send_data (line : List Nat)
  | read_data
  deriving DecidableEq

/-- The transport `U` with a record of every call made to it, oldest first. -/
def Usb.logged {σ : Type} (U : Usb σ) : Usb (σ × List Call) where
  send_ctl := fun cmd s => ((U.send_ctl cmd s.1).1, (U.send_ctl cmd s.1).2, s.2 ++ [Call.send_ctl cmd])
  read_ctl := fun s =>
    ((U.read_ctl s.1).1, (U.read_ctl s.1).2.1, (U.read_ctl s.1).2.2, s.2 ++ [Call.read_ctl])
  send_data := fun d s => ((U.send_data d s.1).1, (U.send_data d s.1).2, s.2 ++ [Call.send_data d])
  read_data := fun s =>
    ((U.read_data s.1).1, (U.read_data s.1).2.1, (U.read_data s.1).2.2, s.2 ++ [Call.read_data])

/-- Conversion of a C `int` to `unsigned char`. -/
def u8 (x : Int) : Nat := (x % 256).toNat

/-- An automatic `unsigned char` array of `n` bytes before anything is stored in it.
C leaves its contents indeterminate; every use in `mx.c` fills it by a read first. -/
def uninit (n : Nat) : List Nat := List.replicate n 0

/-- The array `buf` after a primitive has put the bytes `d` at `buf[off .. off+n)`;
positions the primitive did not supply keep their contents. -/
def put_bytes (buf : List Nat) (off n : Nat) (d : List Nat) : List Nat :=
  (List.range buf.length).map fun i =>
    if off ≤ i ∧ i < off + n then d.getD (i - off) (buf.getD i 0) % 256 else buf.getD i 0

/-- The `n` bytes a primitive is given when it is passed the pointer `buf + off`. -/
def get_bytes (buf : List Nat) (off n : Nat) : List Nat := (buf.drop off).take n

/-- An array initialiser `{b0, ..}` for `unsigned char cmd[CMD_MSG_LEN]`: elements
without an initialiser are zero. -/
def cmd_init (K : Consts) (bs : List Nat) : List Nat :=
  bs.map (· % 256) ++ List.replicate (K.CMD_MSG_LEN - bs.length) 0

/-- The command frame `read_section` sends for `addr` (mx.c:481-490).  The low eight
bits of `cmd[0] |= e` are the OR of the low eight bits of both sides. -/
def read_cmd (K : Consts) (addr : Nat) : List Nat :=
  let cmd := cmd_init K [K.ADDR_READ, 0, 0, 0, 0, 0, 0, addr]
  if addr = K.CONFIGS_ADDR ∨ addr = K.BUTTONS_ADDR then
    cmd.set 0 (cmd.getD 0 0 ||| u8 ((K.SETTINGS_ADDR_MAX : Int) - addr + K.SETTINGS_ADDR_PARITY))
  else
    (cmd.set 0 (cmd.getD 0 0 ||| K.MACRO_MEM_FLAG % 256)).set 1 (u8 ((K.MACRO_ADDR_PARITY : Int) - addr))

/-- The command frame `write_section` sends for `addr` (mx.c:514-522). -/
def write_cmd (K : Consts) (addr : Nat) : List Nat :=
  let cmd := cmd_init K [0, 0, K.SECTION_LEN, 0, 0, 0, 0, addr]
  if addr = K.CONFIGS_ADDR ∨ addr = K.BUTTONS_ADDR then
    cmd.set 0 (u8 ((K.SETTINGS_ADDR_MAX : Int) - addr + K.SETTINGS_ADDR_PARITY))
  else
    (cmd.set 0 (K.MACRO_MEM_FLAG % 256)).set 1 (u8 ((K.MACRO_ADDR_PARITY : Int) - addr))

/-- Embedding of `read_section(addr, buf + off)` (mx.c:480-511): status, the caller's
array afterwards, device state.  The acknowledgement is only compared for a diagnostic;
the status of the first data read is overwritten by the second. -/
def read_section {σ : Type} (K : Consts) (U : Usb σ) (addr : Nat) (buf : List Nat) (off : Nat)
    (s : σ) : Int × List Nat × σ :=
  let cmd := read_cmd K addr
  let r1 := U.send_ctl cmd s
  if r1.1 ≠ 0 then (r1.1, buf, r1.2)
  else
    let r2 := U.read_ctl r1.2
    if r2.1 ≠ 0 then (r2.1, buf, r2.2.2)
    else
      let r3 := U.read_data r2.2.2
      let buf1 := put_bytes buf off K.DATA_LINE_LEN r3.2.1
      let r4 := U.read_data r3.2.2
      let buf2 := put_bytes buf1 (off + K.DATA_LINE_LEN) K.DATA_LINE_LEN r4.2.1
      (r4.1, buf2, r4.2.2)

/-- Embedding of `write_section(addr, buf + off)` (mx.c:513-533): status and device
state.  The status of the first data send is overwritten by the second. -/
def write_section {σ : Type} (K : Consts) (U : Usb σ) (addr : Nat) (buf : List Nat) (off : Nat)
    (s : σ) : Int × σ :=
  let cmd := write_cmd K addr
  let r1 := U.send_ctl cmd s
  if r1.1 ≠ 0 then (r1.1, r1.2)
  else
    let r2 := U.send_data (get_bytes buf off K.DATA_LINE_LEN) r1.2
    let r3 := U.send_data (get_bytes buf (off + K.DATA_LINE_LEN) K.DATA_LINE_LEN) r2.2
    (r3.1, r3.2)

/-- Embedding of `read_settings` (mx.c:459-472): status, `config`, `buttons`, device. -/
def read_settings {σ : Type} (K : Consts) (U : Usb σ) (config buttons : List Nat) (s : σ) :
    Int × List Nat × List Nat × σ :=
  let r1 := read_section K U (K.CONFIGS_ADDR % 256) config 0 s
  if r1.1 ≠ 0 then (-2, r1.2.1, buttons, r1.2.2)
  else
    let r2 := read_section K U (K.BUTTONS_ADDR % 256) buttons 0 r1.2.2
    if r2.1 ≠ 0 then (-2, r1.2.1, r2.2.1, r2.2.2)
    else (0, r1.2.1, r2.2.1, r2.2.2)

/-- Embedding of `write_settings` (mx.c:473-478). -/
def write_settings {σ : Type} (K : Consts) (U : Usb σ) (config buttons : List Nat) (s : σ) :
    Int × σ :=
  let r1 := write_section K U (K.CONFIGS_ADDR % 256) config 0 s
  if r1.1 ≠ 0 then r1
  else write_section K U (K.BUTTONS_ADDR % 256) buttons 0 r1.2

/-! ## C library functions used by the commands -/

/-- The terminating NUL of a C string. -/
def NUL : Char := Char.ofNat 0

/-- The C expression `s[i]`: a character of the string, or the NUL after its last one. -/
def cget (s : CStr) (i : Nat) : Char := s.getD i NUL

/-- The C function `isspace` in the "C" locale: space and the controls 9 to 13. -/
def isspace (c : Char) : Bool := c = ' ' || (9 ≤ c.toNat && c.toNat ≤ 13)

/-- The leading decimal digits of a string, accumulated onto `acc`. -/
def dec_digits : List Char → Nat → Nat
  | [], acc => acc
  | c :: t, acc => if c.isDigit then dec_digits t (acc * 10 + (c.toNat - 48)) else acc

/-- The integer `atoi` reads: blanks, an optional sign, decimal digits; no digits give 0. -/
def atoi_value (s : CStr) : Int :=
  match s.dropWhile isspace with
  | '-' :: t => - (dec_digits t 0 : Int)
  | '+' :: t => (dec_digits t 0 : Int)
  | t => (dec_digits t 0 : Int)

/-- The C function `atoi` with a 32-bit `int`; C leaves the result undefined when the
value is not representable, which is `none` here. -/
def atoi (s : CStr) : Option Int :=
  if -2147483648 ≤ atoi_value s ∧ atoi_value s ≤ 2147483647 then some (atoi_value s) else none

/-- The value of a hexadecimal digit. -/
def hex_val (c : Char) : Option Nat :=
  if '0'.toNat ≤ c.toNat ∧ c.toNat ≤ '9'.toNat then some (c.toNat - 48)
  else if 'a'.toNat ≤ c.toNat ∧ c.toNat ≤ 'f'.toNat then some (c.toNat - 87)
  else if 'A'.toNat ≤ c.toNat ∧ c.toNat ≤ 'F'.toNat then some (c.toNat - 55)
  else none

/-- The leading hexadecimal digits of a string accumulated onto `acc`, and the rest. -/
def hex_digits : List Char → Nat → Nat × List Char
  | [], acc => (acc, [])
  | c :: t, acc =>
    match hex_val c with
    | some d => hex_digits t (acc * 16 + d)
    | none => (acc, c :: t)

/-- The C call `strtoul(s, &end, 16)` with a 64-bit `unsigned long`: the value and the
string `end` points to.  Blanks, a sign and a `0x` before a digit are skipped; without a
digit the value is 0 and `end` is `s`; too large a value gives `ULONG_MAX`. -/
def strtoul16 (s : CStr) : Nat × CStr :=
  let s1 := s.dropWhile isspace
  let neg := (cget s1 0 == '-')
  let s2 := if cget s1 0 == '-' || cget s1 0 == '+' then s1.drop 1 else s1
  let s3 := if cget s2 0 == '0' && (cget s2 1 == 'x' || cget s2 1 == 'X')
      && (hex_val (cget s2 2)).isSome then s2.drop 2 else s2
  if (hex_val (cget s3 0)).isSome then
    let r := hex_digits s3 0
    if r.1 > 18446744073709551615 then (18446744073709551615, r.2)
    else if neg then ((18446744073709551616 - r.1) % 18446744073709551616, r.2)
    else (r.1, r.2)
  else (0, s)

/-- The C call `strspn(s, accept)`: the length of the longest initial part of `s` made
of characters of `accept`. -/
def strspn (s accept : CStr) : Nat := (s.takeWhile (fun c => decide (c ∈ accept))).length

/-- Embedding of `valid_hex` (mx.c:535). -/
def valid_hex (s : CStr) : Bool :=
  s.length == 6 && strspn s "0123456789abcdefABCDEF".toList == 6

/-- Embedding of `on` (mx.c:536). -/
def «on» (s : CStr) : Bool := cget s 1 == 'n'

/-- Embedding of `is_on_off` (mx.c:538-549). -/
def is_on_off (s : CStr) : Bool :=
  let len := s.length
  if len < 2 ∨ len > 3 ∨ (cget s 0 ≠ 'o' ∧ cget s 0 ≠ 'O') then false
  else if (cget s 1 = 'n' ∨ cget s 1 = 'N') ∧ cget s 2 = NUL then true
  else if (cget s 1 = 'f' ∨ cget s 1 = 'F') ∧ (cget s 2 = 'f' ∨ cget s 2 = 'F') then true
  else false

/-- The text `printf("%d", x)` writes. -/
def fmt_d (x : Int) : String := toString x

/-- The text `printf("%02x", b)` writes for `b ≥ 0`: lower-case hexadecimal, padded with
zeros to two digits. -/
def fmt_02x (b : Nat) : List Char :=
  List.replicate (2 - (Nat.toDigits 16 b).length) '0' ++ Nat.toDigits 16 b

/-- The text the `default:` branches print for a byte that is no known sentinel. -/
def fmt_unknown (b : Nat) : String := "unknown value: 0x" ++ String.mk (fmt_02x b) ++ "\n"

/-- The C expression `1 << n` on a 32-bit `int`; undefined outside `0 ≤ n < 31`. -/
def shl1 (n : Int) : Option Nat := if 0 ≤ n ∧ n < 31 then some (1 <<< n.toNat) else none

/-- An array subscript computed in `int`. -/
def idx (i : Int) : Nat := i.toNat

/-- What a command leaves behind: its return status, the text it wrote to standard
output, and the device state. -/
structure Ret (σ : Type) where
  status : Int
  out : String
  dev : σ

/-! ## The commands of `mx.c` -/

/-- Embedding of `angle_snap` (mx.c:41-67). -/
def angle_snap {σ : Type} (K : Consts) (U : Usb σ) (argv : List CStr) (s : σ) : Option (Ret σ) :=
  let r := read_settings K U (uninit K.SECTION_LEN) (uninit K.SECTION_LEN) s
  if r.1 ≠ 0 then some ⟨r.1, "", r.2.2.2⟩
  else
    match argv with
    | [] =>
      if r.2.1.getD K.ANGLE_SNAP_ADDR 0 = K.ANGLE_SNAP_ENABLED then some ⟨0, "on\n", r.2.2.2⟩
      else some ⟨0, "off\n", r.2.2.2⟩
    | a0 :: _ =>
      if is_on_off a0 = false then some ⟨-2, "", r.2.2.2⟩
      else
        let settings :=
          if MX.on a0 then r.2.1.set K.ANGLE_SNAP_ADDR (K.ANGLE_SNAP_ENABLED % 256)
          else r.2.1.set K.ANGLE_SNAP_ADDR (K.ANGLE_SNAP_DISABLED % 256)
        let w := write_settings K U settings r.2.2.1 r.2.2.2
        some ⟨w.1, "", w.2⟩

/-- The text `angle_correct` prints for the stored byte `b` (mx.c:77-86). -/
def angle_correct_text (K : Consts) (b : Nat) : String :=
  if b = K.ANGLE_CORRECT_NEG2 then "-2\n"
  else if b = K.ANGLE_CORRECT_NEG1 then "-1\n"
  else if b = K.ANGLE_CORRECT_ZERO then "0\n"
  else if b = K.ANGLE_CORRECT_POS1 then "1\n"
  else if b = K.ANGLE_CORRECT_POS2 then "2\n"
  else fmt_unknown b

/-- Embedding of `angle_correct` (mx.c:69-106). -/
def angle_correct {σ : Type} (K : Consts) (U : Usb σ) (argv : List CStr) (s : σ) :
    Option (Ret σ) :=
  let r := read_settings K U (uninit K.SECTION_LEN) (uninit K.SECTION_LEN) s
  if r.1 ≠ 0 then some ⟨r.1, "", r.2.2.2⟩
  else
    match argv with
    | [] => some ⟨0, angle_correct_text K (r.2.1.getD K.ANGLE_CORRECT_ADDR 0), r.2.2.2⟩
    | a0 :: _ =>
      match atoi a0 with
      | none => none
      | some angle =>
        let stored : Option Nat :=
          if angle = -2 then some K.ANGLE_CORRECT_NEG2
          else if angle = -1 then some K.ANGLE_CORRECT_NEG1
          else if angle = 0 then some K.ANGLE_CORRECT_ZERO
          else if angle = 1 then some K.ANGLE_CORRECT_POS1
          else if angle = 2 then some K.ANGLE_CORRECT_POS2
          else none
        match stored with
        | none => some ⟨-2, "", r.2.2.2⟩
        | some b =>
          let settings := r.2.1.set K.ANGLE_CORRECT_ADDR (b % 256)
          let w := write_settings K U settings r.2.2.1 r.2.2.2
          some ⟨w.1, "", w.2⟩

/-- The text `led_mode` prints for the stored byte `b` (mx.c:116-122). -/
def led_mode_text (K : Consts) (b : Nat) : String :=
  if b = K.LED_MODE_OFF then "off\n"
  else if b = K.LED_MODE_STD then "standard\n"
  else if b = K.LED_MODE_BREATHE then "breathe\n"
  else if b = K.LED_MODE_NEON then "neon\n"
  else fmt_unknown b

/-- Embedding of `led_mode` (mx.c:108-146). -/
def led_mode {σ : Type} (K : Consts) (U : Usb σ) (argv : List CStr) (s : σ) : Option (Ret σ) :=
  let r := read_settings K U (uninit K.SECTION_LEN) (uninit K.SECTION_LEN) s
  if r.1 ≠ 0 then some ⟨r.1, "", r.2.2.2⟩
  else
    match argv with
    | [] => some ⟨0, led_mode_text K (r.2.1.getD K.LED_MODE_ADDR 0), r.2.2.2⟩
    | a0 :: _ =>
      let settings : Option (List Nat) :=
        if a0 = "off".toList then
          some (r.2.1.set K.LED_MODE_ADDR (K.LED_MODE_OFF % 256))
        else if a0 = "standard".toList then
          some ((r.2.1.set K.LED_MODE_ADDR (K.LED_MODE_STD % 256)).set K.LED_CFG_ADDR
            (u8 K.LED_BRIGHT_MAX))
        else if a0 = "breathe".toList then
          some ((r.2.1.set K.LED_MODE_ADDR (K.LED_MODE_BREATHE % 256)).set K.LED_CFG_ADDR
            (u8 K.LED_SPEED_MIN))
        else if a0 = "neon".toList then
          some ((r.2.1.set K.LED_MODE_ADDR (K.LED_MODE_NEON % 256)).set K.LED_CFG_ADDR
            (u8 K.LED_SPEED_MIN))
        else none
      match settings with
      | none => some ⟨-2, "", r.2.2.2⟩
      | some settings =>
        let w := write_settings K U settings r.2.2.1 r.2.2.2
        some ⟨w.1, "", w.2⟩

/-- Embedding of `led_brightness` (mx.c:150-179). -/
def led_brightness {σ : Type} (K : Consts) (U : Usb σ) (argv : List CStr) (s : σ) :
    Option (Ret σ) :=
  let r := read_settings K U (uninit K.SECTION_LEN) (uninit K.SECTION_LEN) s
  if r.1 ≠ 0 then some ⟨r.1, "", r.2.2.2⟩
  else if r.2.1.getD K.LED_MODE_ADDR 0 ≠ K.LED_MODE_STD then some ⟨-2, "", r.2.2.2⟩
  else
    match argv with
    | [] => some ⟨0, fmt_d (r.2.1.getD K.LED_CFG_ADDR 0) ++ "\n", r.2.2.2⟩
    | a0 :: _ =>
      match atoi a0 with
      | none => none
      | some value =>
        if value < K.LED_BRIGHT_MIN ∨ value > K.LED_BRIGHT_MAX then some ⟨-2, "", r.2.2.2⟩
        else
          let settings := r.2.1.set K.LED_CFG_ADDR (u8 value)
          let w := write_settings K U settings r.2.2.1 r.2.2.2
          some ⟨w.1, "", w.2⟩

/-- Embedding of `led_speed` (mx.c:181-206). -/
def led_speed {σ : Type} (K : Consts) (U : Usb σ) (argv : List CStr) (s : σ) : Option (Ret σ) :=
  let r := read_settings K U (uninit K.SECTION_LEN) (uninit K.SECTION_LEN) s
  if r.1 ≠ 0 then some ⟨r.1, "", r.2.2.2⟩
  else if r.2.1.getD K.LED_MODE_ADDR 0 ≠ K.LED_MODE_NEON
      ∧ r.2.1.getD K.LED_MODE_ADDR 0 ≠ K.LED_MODE_BREATHE then some ⟨-2, "", r.2.2.2⟩
  else
    match argv with
    | [] => some ⟨0, fmt_d (r.2.1.getD K.LED_CFG_ADDR 0) ++ "\n", r.2.2.2⟩
    | a0 :: _ =>
      match atoi a0 with
      | none => none
      | some value =>
        if value < K.LED_SPEED_MIN ∨ value > K.LED_SPEED_MAX then some ⟨-2, "", r.2.2.2⟩
        else
          let settings := r.2.1.set K.LED_CFG_ADDR (u8 value)
          let w := write_settings K U settings r.2.2.1 r.2.2.2
          some ⟨w.1, "", w.2⟩

/-- The axis test of `sensitivity` (mx.c:221-228): the offset of the byte of the axis
that `argv[0]` names, if it names one. -/
def sensitivity_addr (K : Consts) (a0 : CStr) : Option Nat :=
  if (cget a0 0 = 'x' ∨ cget a0 0 = 'X') ∧ cget a0 1 = NUL then some K.SENSITIVITY_X_ADDR
  else if (cget a0 0 = 'y' ∨ cget a0 0 = 'Y') ∧ cget a0 1 = NUL then some K.SENSITIVITY_Y_ADDR
  else none

/-- Embedding of `sensitivity` (mx.c:208-247).  Division by a zero `SENSITIVITY_STEP`
is undefined in C. -/
def sensitivity {σ : Type} (K : Consts) (U : Usb σ) (argv : List CStr) (s : σ) :
    Option (Ret σ) :=
  let r := read_settings K U (uninit K.SECTION_LEN) (uninit K.SECTION_LEN) s
  if r.1 ≠ 0 then some ⟨r.1, "", r.2.2.2⟩
  else
    match argv with
    | [] => some ⟨-2, "", r.2.2.2⟩
    | a0 :: rest =>
      match sensitivity_addr K a0 with
      | none => some ⟨-2, "", r.2.2.2⟩
      | some addr =>
        match rest with
        | [] =>
          if K.SENSITIVITY_STEP = 0 then none
          else some ⟨0, fmt_d (Int.tdiv (r.2.1.getD addr 0) K.SENSITIVITY_STEP) ++ "\n", r.2.2.2⟩
        | a1 :: _ =>
          match atoi a1 with
          | none => none
          | some value =>
            if value < K.SENSITIVITY_MIN ∨ value > K.SENSITIVITY_MAX then
              some ⟨-2, "", r.2.2.2⟩
            else
              let settings := r.2.1.set addr (u8 (value * K.SENSITIVITY_STEP))
              let w := write_settings K U settings r.2.2.1 r.2.2.2
              some ⟨w.1, "", w.2⟩

/-- Embedding of `dpi_enable` (mx.c:249-283).  `argv[0]` is read whatever `argc` is. -/
def dpi_enable {σ : Type} (K : Consts) (U : Usb σ) (argv : List CStr) (s : σ) :
    Option (Ret σ) :=
  let r := read_settings K U (uninit K.SECTION_LEN) (uninit K.SECTION_LEN) s
  if r.1 ≠ 0 then some ⟨r.1, "", r.2.2.2⟩
  else
    match argv with
    | [] => none
    | a0 :: rest =>
      match atoi a0 with
      | none => none
      | some profile =>
        if profile < K.DPI_PROFILE_MIN ∨ profile > K.DPI_PROFILE_MAX then some ⟨-2, "", r.2.2.2⟩
        else
          match shl1 (profile - 1) with
          | none => none
          | some bit =>
            match rest with
            | [] =>
              if r.2.1.getD K.DPI_ENABLE_ADDR 0 &&& bit ≠ 0 then some ⟨0, "on\n", r.2.2.2⟩
              else some ⟨0, "off\n", r.2.2.2⟩
            | a1 :: _ =>
              let flags := r.2.1.getD K.DPI_ENABLE_ADDR 0
              let settings :=
                if a1 = "on".toList then r.2.1.set K.DPI_ENABLE_ADDR ((flags ||| bit) % 256)
                else r.2.1.set K.DPI_ENABLE_ADDR ((flags &&& (4294967295 - bit)) % 256)
              let w := write_settings K U settings r.2.2.1 r.2.2.2
              some ⟨w.1, "", w.2⟩

/-- The subscript `DPI_COLOR_ADDR_START+profile*DPI_COLOR_ADDR_STEP` of `dpi_color`,
for the decremented profile number. -/
def dpi_color_addr (K : Consts) (profile : Int) : Nat :=
  idx ((K.DPI_COLOR_ADDR_START : Int) + profile * K.DPI_COLOR_ADDR_STEP)

/-- Embedding of `dpi_color` (mx.c:285-327).  The get form is `argc == 2`; the set form
reads `argv[2]`. -/
def dpi_color {σ : Type} (K : Consts) (U : Usb σ) (argv : List CStr) (s : σ) :
    Option (Ret σ) :=
  let r := read_settings K U (uninit K.SECTION_LEN) (uninit K.SECTION_LEN) s
  if r.1 ≠ 0 then some ⟨r.1, "", r.2.2.2⟩
  else
    match argv with
    | [] => none
    | a0 :: rest =>
      match atoi a0 with
      | none => none
      | some profile =>
        if profile < K.DPI_PROFILE_MIN ∨ profile > K.DPI_PROFILE_MAX then some ⟨-2, "", r.2.2.2⟩
        else
          let a := dpi_color_addr K (profile - 1)
          match rest with
          | [] => none
          | [_] =>
            some ⟨0, String.mk (fmt_02x (r.2.1.getD a 0) ++ fmt_02x (r.2.1.getD (a + 1) 0)
              ++ fmt_02x (r.2.1.getD (a + 2) 0)) ++ "\n", r.2.2.2⟩
          | _ :: a2 :: _ =>
            if valid_hex a2 = false then some ⟨-2, "", r.2.2.2⟩
            else
              let new_color := (strtoul16 a2).1
              if cget (strtoul16 a2).2 0 ≠ NUL then some ⟨-2, "", r.2.2.2⟩
              else
                let settings :=
                  ((r.2.1.set a (((new_color &&& 0xff0000) >>> 16) % 256)).set (a + 1)
                    (((new_color &&& 0x00ff00) >>> 8) % 256)).set (a + 2)
                    ((new_color &&& 0x0000ff) % 256)
                let w := write_settings K U settings r.2.2.1 r.2.2.2
                some ⟨w.1, "", w.2⟩

/-- Embedding of `dpi_value` (mx.c:329-365).  The get form is `argc == 2`; the set form
reads `argv[2]`. -/
def dpi_value {σ : Type} (K : Consts) (U : Usb σ) (argv : List CStr) (s : σ) :
    Option (Ret σ) :=
  let r := read_settings K U (uninit K.SECTION_LEN) (uninit K.SECTION_LEN) s
  if r.1 ≠ 0 then some ⟨r.1, "", r.2.2.2⟩
  else
    match argv with
    | [] => none
    | a0 :: rest =>
      match atoi a0 with
      | none => none
      | some profile =>
        if profile < K.DPI_PROFILE_MIN ∨ profile > K.DPI_PROFILE_MAX then some ⟨-2, "", r.2.2.2⟩
        else
          let x := idx ((K.DPI_VALUE_ADDR_X : Int) + (profile - 1))
          let y := idx ((K.DPI_VALUE_ADDR_Y : Int) + (profile - 1))
          match rest with
          | [] => none
          | [_] => some ⟨0, fmt_d (((r.2.1.getD x 0 : Nat) + 1) * 100) ++ "\n", r.2.2.2⟩
          | _ :: a2 :: _ =>
            match atoi a2 with
            | none => none
            | some value =>
              if value < K.DPI_VALUE_MIN ∨ value > K.DPI_VALUE_MAX then some ⟨-2, "", r.2.2.2⟩
              else if Int.tmod value 100 ≠ 0 then some ⟨-2, "", r.2.2.2⟩
              else
                let value := Int.tdiv value 100 - 1
                let settings := (r.2.1.set x (u8 value)).set y (u8 value)
                let w := write_settings K U settings r.2.2.1 r.2.2.2
                some ⟨w.1, "", w.2⟩

/-- The loop of `write_full_memory` (mx.c:451-455) with `n` rounds left: macro section
`i` is written from `buf + off`; the first failing write ends the function. -/
def write_macros {σ : Type} (K : Consts) (U : Usb σ) (buf : List Nat) :
    Nat → Nat → Nat → Int → σ → Int × σ
  | 0, _, _, err, s => (err, s)
  | n + 1, i, off, _, s =>
    let r := write_section K U (u8 ((K.MACRO_ADDR_START : Int) - i)) buf off s
    if r.1 ≠ 0 then r
    else write_macros K U buf n (i + 1) (off + K.SECTION_LEN) r.1 r.2

/-- Embedding of `write_full_memory` (mx.c:436-457).  The status of the leading read of
the configs section is overwritten by the first write. -/
def write_full_memory {σ : Type} (K : Consts) (U : Usb σ) (buf : List Nat) (s : σ) : Int × σ :=
  let r0 := read_section K U (K.CONFIGS_ADDR % 256) (uninit K.SECTION_LEN) 0 s
  let r1 := write_section K U (K.CONFIGS_ADDR % 256) buf 0 r0.2.2
  if r1.1 ≠ 0 then r1
  else
    let r2 := write_section K U (K.BUTTONS_ADDR % 256) buf K.SECTION_LEN r1.2
    if r2.1 ≠ 0 then r2
    else write_macros K U buf K.NUM_MACROS 0 (K.SECTION_LEN + K.SECTION_LEN) r2.1 r2.2

/-- The buffer `factory_reset` builds (mx.c:369-374): zeros, then the two tables. -/
def factory_settings (K : Consts) : List Nat :=
  put_bytes (put_bytes (List.replicate K.FULL_BUF 0) 0 K.SECTION_LEN K.factory_config)
    K.SECTION_LEN K.SECTION_LEN K.factory_buttons

/-- Embedding of `factory_reset` (mx.c:368-377); the arguments are not looked at. -/
def factory_reset {σ : Type} (K : Consts) (U : Usb σ) (_argv : List CStr) (s : σ) :
    Option (Ret σ) :=
  let w := write_full_memory K U (factory_settings K) s
  some ⟨w.1, "", w.2⟩

/-- The loop of `save_info` (mx.c:404-408) with `n` rounds left: macro section `i` is
read into `buf + off`; the first failing read ends the function. -/
def read_macros {σ : Type} (K : Consts) (U : Usb σ) :
    Nat → Nat → List Nat → Nat → Int → σ → Int × List Nat × σ × Bool
  | 0, _, buf, _, err, s => (err, buf, s, true)
  | n + 1, i, buf, off, _, s =>
    let r := read_section K U (u8 ((K.MACRO_ADDR_START : Int) - i)) buf off s
    if r.1 ≠ 0 then (r.1, r.2.1, r.2.2, false)
    else read_macros K U n (i + 1) r.2.1 (off + K.SECTION_LEN) r.1 r.2.2

/-- What `save_info` leaves behind: its status, the bytes handed to `fwrite` (if it got
that far), and the device state. -/
structure DumpRet (σ : Type) where
  status : Int
  dump : Option (List Nat)
  dev : σ

/-- Embedding of `save_info` (mx.c:379-423).  `fopen_ok` tells whether `fopen` succeeds
when a file name is given. -/
def save_info {σ : Type} (K : Consts) (U : Usb σ) (fopen_ok : Bool) (argv : List CStr) (s : σ) :
    DumpRet σ :=
  let to_stdout : Bool :=
    match argv with
    | [] => true
    | a0 :: _ => cget a0 0 == '-' && cget a0 1 == NUL
  if to_stdout = false ∧ fopen_ok = false then ⟨-1, none, s⟩
  else
    let r1 := read_section K U (K.CONFIGS_ADDR % 256) (uninit K.FULL_BUF) 0 s
    if r1.1 ≠ 0 then ⟨r1.1, none, r1.2.2⟩
    else
      let r2 := read_section K U (K.BUTTONS_ADDR % 256) r1.2.1 K.SECTION_LEN r1.2.2
      if r2.1 ≠ 0 then ⟨r2.1, none, r2.2.2⟩
      else
        let r3 := read_macros K U K.NUM_MACROS 0 r2.2.1 (K.SECTION_LEN + K.SECTION_LEN) r2.1 r2.2.2
        if r3.2.2.2 = false then ⟨r3.1, none, r3.2.2.1⟩
        else ⟨r3.1, some (get_bytes r3.2.1 0 K.FULL_BUF), r3.2.2.1⟩

/-- Embedding of `send_startup_cmds` (mx.c:426-434): both frames are sent and the status
of the second is returned. -/
def send_startup_cmds {σ : Type} (K : Consts) (U : Usb σ) (s : σ) : Int × σ :=
  let r1 := U.send_ctl (cmd_init K [0x02, 0x00, 0x00, 0x00, 0x00, 0x00, 0x00, 0xfd]) s
  U.send_ctl (cmd_init K [0x03, 0x00, 0x02, 0x00, 0x00, 0x00, 0x00, 0xfa]) r1.2

/-! ## Reading the settings: what every command starts from -/

/-- The result of the `read_settings` call that opens every settings command: status,
the `settings` array, the `buttons` array, and the device state. -/
def loaded {σ : Type} (K : Consts) (U : Usb σ) (s : σ) : Int × List Nat × List Nat × σ :=
  read_settings K U (uninit K.SECTION_LEN) (uninit K.SECTION_LEN) s

/-- A record of calls without a write: no data line was sent and no control frame is a
frame of `write_section`. -/
def no_write (K : Consts) (tr : List Call) : Prop :=
  ∀ c ∈ tr, (∀ d, c ≠ Call.send_data d) ∧ (∀ a, c ≠ Call.send_ctl (write_cmd K a))

/-- The calls `read_section` makes: a read frame, a control read, a data read. -/
def is_read_call (K : Consts) (c : Call) : Prop :=
  c = Call.read_ctl ∨ c = Call.read_data ∨ ∃ a, c = Call.send_ctl (read_cmd K a)

/-- A run of a command on the recording transport, started with an empty record, that
ended in a rejection: status -2, nothing printed, no write among the calls it made, and
the device in the state `read_settings` left it in. -/
def rejected {σ : Type} (K : Consts) (U : Usb σ) (s : σ) (res : Option (Ret (σ × List Call))) :
    Prop :=
  ∃ r, res = some r ∧ r.status = -2 ∧ r.out = "" ∧ no_write K r.dev.2
    ∧ r.dev.1 = (loaded K U s).2.2.2

/-! ## A device to run the commands on -/

/-- A device that keeps one section per address: the sections written so far (latest
first), the last command frame it received, and the number of data lines moved since. -/
structure Dev where
  mem : List (Nat × List Nat)
  frame : List Nat
  line : Nat
  deriving DecidableEq

/-- The section the device holds at address `a`; zeros where nothing was written. -/
def Dev.sect (K : Consts) (d : Dev) (a : Nat) : List Nat :=
  match d.mem.lookup a with
  | some sec => sec
  | none => List.replicate K.SECTION_LEN 0

/-- The transfer primitives of the device `Dev`: a command frame selects the section
named by its byte 7 and is echoed as acknowledgement; the data lines that follow move
the halves of that section in order.  Every transfer succeeds. -/
def Dev.usb (K : Consts) : Usb Dev where
  send_ctl := fun cmd d => (0, { d with frame := cmd, line := 0 })
  read_ctl := fun d => (0, d.frame, d)
  send_data := fun l d =>
    (0, { d with
          mem := (d.frame.getD 7 0,
            put_bytes (d.sect K (d.frame.getD 7 0)) (d.line * K.DATA_LINE_LEN) K.DATA_LINE_LEN l)
              :: d.mem
          line := d.line + 1 })
  read_data := fun d =>
    (0, get_bytes (d.sect K (d.frame.getD 7 0)) (d.line * K.DATA_LINE_LEN) K.DATA_LINE_LEN,
      { d with line := d.line + 1 })

/-- The device with nothing written to it. -/
def Dev.blank : Dev := ⟨[], [], 0⟩

/-- A sample `mx.h` for running the embedding on concrete inputs: the lengths and the
ranges of the DPI settings are those the specification names, the other values are
samples. -/
def demo : Consts where
  SECTION_LEN := 64
  DATA_LINE_LEN := 32
  CMD_MSG_LEN := 8
  FULL_BUF := 256
  NUM_MACROS := 2
  CONFIGS_ADDR := 0x72
  BUTTONS_ADDR := 0x73
  MACRO_ADDR_START := 0x6f
  SETTINGS_ADDR_MAX := 0x7f
  SETTINGS_ADDR_PARITY := 0x01
  MACRO_MEM_FLAG := 0x10
  MACRO_ADDR_PARITY := 0xff
  ADDR_READ := 0x80
  ANGLE_SNAP_ADDR := 0x04
  ANGLE_SNAP_ENABLED := 0x01
  ANGLE_SNAP_DISABLED := 0x02
  ANGLE_CORRECT_ADDR := 0x05
  ANGLE_CORRECT_NEG2 := 0xfe
  ANGLE_CORRECT_NEG1 := 0xff
  ANGLE_CORRECT_ZERO := 0x00
  ANGLE_CORRECT_POS1 := 0x01
  ANGLE_CORRECT_POS2 := 0x02
  LED_MODE_ADDR := 0x06
  LED_MODE_OFF := 0x00
  LED_MODE_STD := 0x01
  LED_MODE_BREATHE := 0x02
  LED_MODE_NEON := 0x03
  LED_CFG_ADDR := 0x07
  LED_BRIGHT_MIN := 0
  LED_BRIGHT_MAX := 10
  LED_SPEED_MIN := 0
  LED_SPEED_MAX := 15
  SENSITIVITY_X_ADDR := 0x08
  SENSITIVITY_Y_ADDR := 0x09
  SENSITIVITY_MIN := 1
  SENSITIVITY_MAX := 10
  SENSITIVITY_STEP := 25
  DPI_PROFILE_MIN := 1
  DPI_PROFILE_MAX := 7
  DPI_ENABLE_ADDR := 0x0a
  DPI_COLOR_ADDR_START := 0x10
  DPI_COLOR_ADDR_STEP := 3
  DPI_VALUE_ADDR_X := 0x28
  DPI_VALUE_ADDR_Y := 0x30
  DPI_VALUE_MIN := 100
  DPI_VALUE_MAX := 12000
  factory_config := List.replicate 64 1
  factory_buttons := List.replicate 64 2

/-- The device a run on `Dev` leaves behind. -/
def after (res : Option (Ret Dev)) : Dev :=
  match res with
  | some r => r.dev
  | none => Dev.blank

/-- The characters `valid_hex` accepts. -/
def HEX : List Char := "0123456789abcdefABCDEF".toList

/-- A transport whose first data transfer fails with -1 while every other transfer
succeeds; the state counts the data transfers made. -/
def flaky : Usb Nat where
  send_ctl := fun _ n => (0, n)
  read_ctl := fun n => (0, List.replicate 8 0, n)
  send_data := fun _ n => (if n = 0 then -1 else 0, n + 1)
  read_data := fun n => (if n = 0 then -1 else 0, List.replicate 32 0, n + 1)

/-- Whether `read_section` prints its "weird ACK" diagnostic (mx.c:501-505): the frame
was sent, the acknowledgement was read, and its byte 0 is not byte 0 of the frame. -/
def read_section_warns {σ : Type} (K : Consts) (U : Usb σ) (addr : Nat) (s : σ) : Bool :=
  let cmd := read_cmd K addr
  let r1 := U.send_ctl cmd s
  if r1.1 ≠ 0 then false
  else
    let r2 := U.read_ctl r1.2
    if r2.1 ≠ 0 then false
    else r2.2.1.getD 0 0 != cmd.getD 0 0

/-- A device like `Dev.usb` that acknowledges every frame with eight zero bytes. -/
def Dev.mute (K : Consts) : Usb Dev :=
  { Dev.usb K with read_ctl := fun d => (0, List.replicate 8 0, d) }

/-- The nine settings commands of `mx.c`. -/
inductive Setting where
  | angle_snap
  | angle_correct
  | led_mode
  | led_brightness
  | led_speed
  | sensitivity
  | dpi_enable
  | dpi_color
  | dpi_value
  deriving DecidableEq

/-- The command function of each setting. -/
def Setting.run {σ : Type} (K : Consts) (U : Usb σ) : Setting → List CStr → σ → Option (Ret σ)
  | .angle_snap => MX.angle_snap K U
  | .angle_correct => MX.angle_correct K U
  | .led_mode => MX.led_mode K U
  | .led_brightness => MX.led_brightness K U
  | .led_speed => MX.led_speed K U
  | .sensitivity => MX.sensitivity K U
  | .dpi_enable => MX.dpi_enable K U
  | .dpi_color => MX.dpi_color K U
  | .dpi_value => MX.dpi_value K U

/-- The get form of a settings command: the argument count at which the code prints the
setting instead of storing one (mx.c:48, 76, 115, 162, 193, 230, 265, 300, 342). -/
def Setting.is_get : Setting → List CStr → Bool
  | .sensitivity, argv => argv.length == 1
  | .dpi_enable, argv => argv.length == 1
  | .dpi_color, argv => argv.length == 2
  | .dpi_value, argv => argv.length == 2
  | _, argv => argv.length == 0

/-- The arguments a settings command refuses with -2 once `settings` has been read: the
validation tests of the nine command functions, in the order of `Setting`. -/
def Setting.invalid (K : Consts) (settings : List Nat) : Setting → List CStr → Prop
  | .angle_snap, a0 :: _ => is_on_off a0 = false
  | .angle_correct, a0 :: _ => ∃ v, atoi a0 = some v ∧ (v < -2 ∨ 2 < v)
  | .led_mode, a0 :: _ =>
    a0 ∉ ["off".toList, "standard".toList, "breathe".toList, "neon".toList]
  | .led_brightness, argv =>
    settings.getD K.LED_MODE_ADDR 0 ≠ K.LED_MODE_STD
    ∨ ∃ a0 rest v, argv = a0 :: rest ∧ atoi a0 = some v
        ∧ (v < K.LED_BRIGHT_MIN ∨ K.LED_BRIGHT_MAX < v)
  | .led_speed, argv =>
    (settings.getD K.LED_MODE_ADDR 0 ≠ K.LED_MODE_NEON
      ∧ settings.getD K.LED_MODE_ADDR 0 ≠ K.LED_MODE_BREATHE)
    ∨ ∃ a0 rest v, argv = a0 :: rest ∧ atoi a0 = some v
        ∧ (v < K.LED_SPEED_MIN ∨ K.LED_SPEED_MAX < v)
  | .sensitivity, [] => True
  | .sensitivity, a0 :: rest =>
    sensitivity_addr K a0 = none
    ∨ ∃ a1 more v, rest = a1 :: more ∧ atoi a1 = some v
        ∧ (v < K.SENSITIVITY_MIN ∨ K.SENSITIVITY_MAX < v)
  | .dpi_enable, a0 :: _ =>
    ∃ p, atoi a0 = some p ∧ (p < K.DPI_PROFILE_MIN ∨ K.DPI_PROFILE_MAX < p)
  | .dpi_color, a0 :: rest =>
    ∃ p, atoi a0 = some p ∧ ((p < K.DPI_PROFILE_MIN ∨ K.DPI_PROFILE_MAX < p)
      ∨ ∃ a1 a2 more, rest = a1 :: a2 :: more ∧ valid_hex a2 = false)
  | .dpi_value, a0 :: rest =>
    ∃ p, atoi a0 = some p ∧ ((p < K.DPI_PROFILE_MIN ∨ K.DPI_PROFILE_MAX < p)
      ∨ ∃ a1 a2 more v, rest = a1 :: a2 :: more ∧ atoi a2 = some v
          ∧ (v < K.DPI_VALUE_MIN ∨ K.DPI_VALUE_MAX < v ∨ Int.tmod v 100 ≠ 0))
  | _, _ => False

/-- A result that is the return of `write_settings`, called with some settings array of
full length and with the buttons array as `read_settings` delivered it. -/
def wrote {σ : Type} (K : Consts) (W : Usb σ) (t : σ) (r : Ret σ) : Prop :=
  ∃ cfg : List Nat, cfg.length = K.SECTION_LEN
    ∧ r = ⟨(write_settings K W cfg (loaded K W t).2.2.1 (loaded K W t).2.2.2).1, "",
           (write_settings K W cfg (loaded K W t).2.2.1 (loaded K W t).2.2.2).2⟩

/-- The three ways a settings command ends: -2 when `read_settings` failed, -2 when the
arguments are refused, and otherwise 0 from the get form or the return of
`write_settings` from the set form; in the first three the device is left as
`read_settings` left it. -/
def Setting.ends {σ : Type} (K : Consts) (W : Usb σ) (t : σ) (c : Setting) (argv : List CStr) :
    Prop :=
  ((loaded K W t).1 ≠ 0 → c.run K W argv t = some ⟨-2, "", (loaded K W t).2.2.2⟩)
  ∧ ((loaded K W t).1 = 0 → c.invalid K (loaded K W t).2.1 argv →
      c.run K W argv t = some ⟨-2, "", (loaded K W t).2.2.2⟩)
  ∧ ((loaded K W t).1 = 0 → ¬ c.invalid K (loaded K W t).2.1 argv →
      ∀ r, c.run K W argv t = some r →
        (c.is_get argv = true ∧ r.status = 0 ∧ r.dev = (loaded K W t).2.2.2)
        ∨ (c.is_get argv = false ∧ wrote K W t r))

/-- A transport on which every transfer fails with -1. -/
def unplugged : Usb Unit where
  send_ctl := fun _ s => (-1, s)
  read_ctl := fun s => (-1, [], s)
  send_data := fun _ s => (-1, s)
  read_data := fun s => (-1, [], s)

/-- A transport on which every transfer reports success. -/
def Usb.succeeds {σ : Type} (U : Usb σ) : Prop :=
  (∀ c s, (U.send_ctl c s).1 = 0) ∧ (∀ s, (U.read_ctl s).1 = 0)
    ∧ (∀ d s, (U.send_data d s).1 = 0) ∧ (∀ s, (U.read_data s).1 = 0)

/-- The invariant of the device `Dev`: at every address it holds one section of
`SECTION_LEN` bytes. -/
def Dev.wf (K : Consts) (d : Dev) : Prop :=
  ∀ a, (d.sect K a).length = K.SECTION_LEN ∧ ∀ i, (d.sect K a).getD i 0 < 256

/-- The address of section `k` of the full memory image, as `save_info` reads it and
`write_full_memory` writes it: configs, buttons, then the macro sections downwards from
`MACRO_ADDR_START`. -/
def section_addr (K : Consts) : Nat → Nat
  | 0 => K.CONFIGS_ADDR % 256
  | 1 => K.BUTTONS_ADDR % 256
  | k + 2 => u8 ((K.MACRO_ADDR_START : Int) - k)

/-- The section a factory reset destines for the address `x`: the configs table, the
buttons table, zeros for a macro section. -/
def factory_sect (K : Consts) (x : Nat) : List Nat :=
  if x = K.CONFIGS_ADDR % 256 then K.factory_config
  else if x = K.BUTTONS_ADDR % 256 then K.factory_buttons
  else List.replicate K.SECTION_LEN 0

/-- A device that holds data in its configs section and in its first macro section. -/
def Dev.sample : Dev := ⟨[(0x72, List.range 64), (0x6f, List.replicate 64 7)], [], 0⟩

/-! ## Buffers and transfers -/

theorem put_bytes_length (buf : List Nat) (off n : Nat) (d : List Nat) :
    (put_bytes buf off n d).length = buf.length := by
  simp [put_bytes]

theorem read_section_length {σ : Type} (K : Consts) (U : Usb σ) (addr : Nat) (buf : List Nat)
    (off : Nat) (s : σ) : (read_section K U addr buf off s).2.1.length = buf.length := by
  unfold read_section
  simp only []
  split_ifs <;> simp [put_bytes_length]

theorem loaded_settings_length {σ : Type} (K : Consts) (U : Usb σ) (s : σ) :
    (loaded K U s).2.1.length = K.SECTION_LEN := by
  unfold loaded read_settings
  simp only []
  split_ifs <;> simp [read_section_length, uninit]

theorem loaded_buttons_length {σ : Type} (K : Consts) (U : Usb σ) (s : σ) :
    (loaded K U s).2.2.1.length = K.SECTION_LEN := by
  unfold loaded read_settings
  simp only []
  split_ifs <;> simp [read_section_length, uninit]

theorem getD_set_self (l : List Nat) (i v : Nat) (h : i < l.length) : (l.set i v).getD i 0 = v := by
  simp [List.getD_eq_getElem?_getD, List.getElem?_set, h]

theorem getD_set_ne (l : List Nat) (i j v : Nat) (h : i ≠ j) : (l.set i v).getD j 0 = l.getD j 0 := by
  simp [List.getD_eq_getElem?_getD, List.getElem?_set, h]

/-! ## The recording transport -/

theorem write_cmd_getD_two (K : Consts) (a : Nat) : (write_cmd K a).getD 2 0 = K.SECTION_LEN % 256 := by
  unfold write_cmd cmd_init
  split_ifs <;> simp

theorem read_cmd_getD_two (K : Consts) (a : Nat) : (read_cmd K a).getD 2 0 = 0 := by
  unfold read_cmd cmd_init
  split_ifs <;> simp

theorem read_cmd_ne_write_cmd (K : Consts) (h : K.SECTION_LEN % 256 ≠ 0) (a b : Nat) :
    read_cmd K a ≠ write_cmd K b := by
  intro e
  have := congrArg (fun l => l.getD 2 0) e
  simp only [write_cmd_getD_two, read_cmd_getD_two] at this
  exact h this.symm

/-- The recording transport changes nothing but the record, and `read_section` adds
only read calls to it. -/
theorem read_section_logged {σ : Type} (K : Consts) (U : Usb σ) (addr : Nat) (buf : List Nat)
    (off : Nat) (s : σ) (tr : List Call) :
    (read_section K U.logged addr buf off (s, tr)).1 = (read_section K U addr buf off s).1
    ∧ (read_section K U.logged addr buf off (s, tr)).2.1 = (read_section K U addr buf off s).2.1
    ∧ (read_section K U.logged addr buf off (s, tr)).2.2.1 = (read_section K U addr buf off s).2.2
    ∧ ((∀ c ∈ tr, is_read_call K c) →
        ∀ c ∈ (read_section K U.logged addr buf off (s, tr)).2.2.2, is_read_call K c) := by
  have hframe : is_read_call K (Call.send_ctl (read_cmd K addr)) := Or.inr (Or.inr ⟨addr, rfl⟩)
  have hctl : is_read_call K Call.read_ctl := Or.inl rfl
  have hdata : is_read_call K Call.read_data := Or.inr (Or.inl rfl)
  unfold read_section
  simp only [Usb.logged]
  split_ifs <;>
    simp only [true_and, and_self, List.forall_mem_append, List.forall_mem_singleton] <;>
    intro h <;> simp only [hframe, hctl, hdata, and_true] <;> exact h

theorem loaded_logged {σ : Type} (K : Consts) (U : Usb σ) (s : σ) :
    (loaded K U.logged (s, [])).1 = (loaded K U s).1
    ∧ (loaded K U.logged (s, [])).2.1 = (loaded K U s).2.1
    ∧ (loaded K U.logged (s, [])).2.2.1 = (loaded K U s).2.2.1
    ∧ (loaded K U.logged (s, [])).2.2.2.1 = (loaded K U s).2.2.2
    ∧ ∀ c ∈ (loaded K U.logged (s, [])).2.2.2.2, is_read_call K c := by
  unfold loaded read_settings
  simp only []
  obtain ⟨h1, h2, h3, h4⟩ := read_section_logged K U (K.CONFIGS_ADDR % 256)
    (uninit K.SECTION_LEN) 0 s []
  have h4 := h4 (by simp)
  generalize read_section K U.logged (K.CONFIGS_ADDR % 256) (uninit K.SECTION_LEN) 0 (s, []) = x
    at h1 h2 h3 h4
  obtain ⟨e, b, t, tr⟩ := x
  simp only at h1 h2 h3 h4
  subst h1 h2 h3
  obtain ⟨g1, g2, g3, g4⟩ := read_section_logged K U (K.BUTTONS_ADDR % 256)
    (uninit K.SECTION_LEN) 0 (read_section K U (K.CONFIGS_ADDR % 256) (uninit K.SECTION_LEN) 0 s).2.2 tr
  have g4 := g4 h4
  split_ifs <;> simp_all

theorem no_write_of_read_calls (K : Consts) (h : K.SECTION_LEN % 256 ≠ 0) (tr : List Call)
    (htr : ∀ c ∈ tr, is_read_call K c) : no_write K tr := by
  intro c hc
  rcases htr c hc with e | e | ⟨a, e⟩ <;> subst e
  · exact ⟨fun d => by simp, fun a => by simp⟩
  · exact ⟨fun d => by simp, fun a => by simp⟩
  · refine ⟨fun d => by simp, fun b => ?_⟩
    intro e
    exact read_cmd_ne_write_cmd K h a b (Call.send_ctl.inj e)

/-- A command that returns -2 right after `read_settings`, printing nothing, is a
rejection in the sense of `rejected`. -/
theorem rejected_of_eq {σ : Type} (K : Consts) (U : Usb σ) (s : σ)
    (h : K.SECTION_LEN % 256 ≠ 0) (res : Option (Ret (σ × List Call)))
    (hres : res = some ⟨-2, "", (loaded K U.logged (s, [])).2.2.2⟩) : rejected K U s res := by
  obtain ⟨_, _, _, h4, h5⟩ := loaded_logged K U s
  exact ⟨_, hres, rfl, rfl, no_write_of_read_calls K h _ h5, h4⟩

theorem write_section_logged_mem {σ : Type} (K : Consts) (U : Usb σ) (addr : Nat) (buf : List Nat)
    (off : Nat) (s : σ) (tr : List Call) (c : Call)
    (hc : c ∈ tr ∨ c = Call.send_ctl (write_cmd K addr)) :
    c ∈ (write_section K U.logged addr buf off (s, tr)).2.2 := by
  unfold write_section
  simp only [Usb.logged]
  split_ifs <;> simp <;> tauto

theorem write_settings_logged_mem {σ : Type} (K : Consts) (U : Usb σ) (cfg btn : List Nat)
    (st : σ × List Call) :
    Call.send_ctl (write_cmd K (K.CONFIGS_ADDR % 256)) ∈ (write_settings K U.logged cfg btn st).2.2 := by
  unfold write_settings
  simp only []
  split_ifs
  · exact write_section_logged_mem K U _ _ _ st.1 st.2 _ (Or.inr rfl)
  · exact write_section_logged_mem K U _ _ _ _ _ _
      (Or.inl (write_section_logged_mem K U _ _ _ st.1 st.2 _ (Or.inr rfl)))

theorem not_no_write_write_settings {σ : Type} (K : Consts) (U : Usb σ) (cfg btn : List Nat)
    (st : σ × List Call) : ¬ no_write K (write_settings K U.logged cfg btn st).2.2 := by
  intro h
  exact (h _ (write_settings_logged_mem K U cfg btn st)).2 _ rfl

/-! ## `dpi_value` (C1, C2) -/

/-- The set form of `dpi_value` after a successful read and a profile in range: the two
value checks, then `write_settings` on the array with both bytes stored. -/
theorem dpi_value_set_eq {σ : Type} (K : Consts) (W : Usb σ) (t : σ) (a0 a1 a2 : CStr)
    (rest : List CStr) (p v : Int) (hread : (loaded K W t).1 = 0)
    (hp : atoi a0 = some p) (hpr : K.DPI_PROFILE_MIN ≤ p ∧ p ≤ K.DPI_PROFILE_MAX)
    (hv : atoi a2 = some v) :
    dpi_value K W (a0 :: a1 :: a2 :: rest) t =
      if v < K.DPI_VALUE_MIN ∨ v > K.DPI_VALUE_MAX ∨ Int.tmod v 100 ≠ 0 then
        some ⟨-2, "", (loaded K W t).2.2.2⟩
      else
        some ⟨(write_settings K W
                (((loaded K W t).2.1.set (idx ((K.DPI_VALUE_ADDR_X : Int) + (p - 1)))
                  (u8 (Int.tdiv v 100 - 1))).set (idx ((K.DPI_VALUE_ADDR_Y : Int) + (p - 1)))
                  (u8 (Int.tdiv v 100 - 1)))
                (loaded K W t).2.2.1 (loaded K W t).2.2.2).1, "",
              (write_settings K W
                (((loaded K W t).2.1.set (idx ((K.DPI_VALUE_ADDR_X : Int) + (p - 1)))
                  (u8 (Int.tdiv v 100 - 1))).set (idx ((K.DPI_VALUE_ADDR_Y : Int) + (p - 1)))
                  (u8 (Int.tdiv v 100 - 1)))
                (loaded K W t).2.2.1 (loaded K W t).2.2.2).2⟩ := by
  unfold dpi_value
  have hr : (read_settings K W (uninit K.SECTION_LEN) (uninit K.SECTION_LEN) t) = loaded K W t := rfl
  have h1 : ¬ (p < K.DPI_PROFILE_MIN ∨ p > K.DPI_PROFILE_MAX) := by omega
  simp only [hr, hread, hp, hv, h1]
  by_cases c1 : v < K.DPI_VALUE_MIN ∨ v > K.DPI_VALUE_MAX
  · have : v < K.DPI_VALUE_MIN ∨ v > K.DPI_VALUE_MAX ∨ Int.tmod v 100 ≠ 0 := by tauto
    simp [c1, this]
  · by_cases c2 : Int.tmod v 100 ≠ 0
    · have : v < K.DPI_VALUE_MIN ∨ v > K.DPI_VALUE_MAX ∨ Int.tmod v 100 ≠ 0 := by tauto
      simp [c1, c2, this]
    · have : ¬ (v < K.DPI_VALUE_MIN ∨ v > K.DPI_VALUE_MAX ∨ Int.tmod v 100 ≠ 0) := by tauto
      simp [c1, c2, this]

/-- The get form of `dpi_value` after a successful read and a profile in range. -/
theorem dpi_value_get_eq {σ : Type} (K : Consts) (W : Usb σ) (t : σ) (a0 a1 : CStr)
    (p : Int) (hread : (loaded K W t).1 = 0)
    (hp : atoi a0 = some p) (hpr : K.DPI_PROFILE_MIN ≤ p ∧ p ≤ K.DPI_PROFILE_MAX) :
    dpi_value K W [a0, a1] t =
      some ⟨0, fmt_d ((((loaded K W t).2.1.getD (idx ((K.DPI_VALUE_ADDR_X : Int) + (p - 1))) 0 : Nat) + 1)
        * 100) ++ "\n", (loaded K W t).2.2.2⟩ := by
  unfold dpi_value
  have hr : (read_settings K W (uninit K.SECTION_LEN) (uninit K.SECTION_LEN) t) = loaded K W t := rfl
  have h1 : ¬ (p < K.DPI_PROFILE_MIN ∨ p > K.DPI_PROFILE_MAX) := by omega
  simp only [hr, hread, hp, h1]
  simp

/-- C1. For a profile `p` in [1,7] and a multiple `v` of 100 in [100,12000], after a
successful read of the settings, `dpi_value` set hands `write_settings` the settings
section `cfg` in which the bytes at `DPI_VALUE_ADDR_X+p-1` and `DPI_VALUE_ADDR_Y+p-1`
both hold `v/100-1`, and `dpi_value` get for `p` on a device that returns `cfg` as its
settings section prints `v`. -/
theorem dpi_value_set_get {σ τ : Type} (K : Consts) (U : Usb σ) (s : σ) (V : Usb τ) (t : τ)
    (a0 a1 a2 b1 : CStr) (rest : List CStr) (p v : Nat) (cfg : List Nat)
    (hmin : K.DPI_PROFILE_MIN = 1) (hmax : K.DPI_PROFILE_MAX = 7)
    (hvmin : K.DPI_VALUE_MIN = 100) (hvmax : K.DPI_VALUE_MAX = 12000)
    (hx : K.DPI_VALUE_ADDR_X + 7 ≤ K.SECTION_LEN) (hy : K.DPI_VALUE_ADDR_Y + 7 ≤ K.SECTION_LEN)
    (hp : atoi a0 = some (p : Int)) (hp1 : 1 ≤ p) (hp7 : p ≤ 7)
    (hv : atoi a2 = some (v : Int)) (hv1 : 100 ≤ v) (hv2 : v ≤ 12000) (hv3 : v % 100 = 0)
    (hread : (loaded K U s).1 = 0)
    (hcfg : cfg = ((loaded K U s).2.1.set (K.DPI_VALUE_ADDR_X + p - 1) (v / 100 - 1)).set
      (K.DPI_VALUE_ADDR_Y + p - 1) (v / 100 - 1)) :
    dpi_value K U (a0 :: a1 :: a2 :: rest) s
        = some ⟨(write_settings K U cfg (loaded K U s).2.2.1 (loaded K U s).2.2.2).1, "",
                (write_settings K U cfg (loaded K U s).2.2.1 (loaded K U s).2.2.2).2⟩
      ∧ cfg.getD (K.DPI_VALUE_ADDR_X + p - 1) 0 = v / 100 - 1
      ∧ cfg.getD (K.DPI_VALUE_ADDR_Y + p - 1) 0 = v / 100 - 1
      ∧ ((loaded K V t).1 = 0 → (loaded K V t).2.1 = cfg →
          dpi_value K V [a0, b1] t = some ⟨0, fmt_d v ++ "\n", (loaded K V t).2.2.2⟩) := by
  have hlen := loaded_settings_length K U s
  have hidx : ∀ A : Nat, idx ((A : Int) + ((p : Int) - 1)) = A + p - 1 := by
    intro A; unfold idx; omega
  have htd : Int.tdiv (v : Int) 100 - 1 = ((v / 100 - 1 : Nat) : Int) := by
    rw [Int.tdiv_eq_ediv (by omega) (by omega)]; omega
  have hu8 : u8 (Int.tdiv (v : Int) 100 - 1) = v / 100 - 1 := by
    rw [htd]; unfold u8; omega
  have hX : cfg.getD (K.DPI_VALUE_ADDR_X + p - 1) 0 = v / 100 - 1 := by
    rw [hcfg]
    by_cases hxy : K.DPI_VALUE_ADDR_Y + p - 1 = K.DPI_VALUE_ADDR_X + p - 1
    · rw [hxy, getD_set_self]; simp; omega
    · rw [getD_set_ne _ _ _ _ hxy, getD_set_self]; omega
  have hpr : K.DPI_PROFILE_MIN ≤ (p : Int) ∧ (p : Int) ≤ K.DPI_PROFILE_MAX := by omega
  have hok : ¬ ((v : Int) < K.DPI_VALUE_MIN ∨ (v : Int) > K.DPI_VALUE_MAX
      ∨ Int.tmod (v : Int) 100 ≠ 0) := by
    rw [Int.tmod_eq_emod (by omega) (by omega)]; omega
  refine ⟨?_, hX, ?_, ?_⟩
  · rw [dpi_value_set_eq K U s a0 a1 a2 rest p v hread hp hpr hv, if_neg hok, hidx, hidx, hu8,
      hcfg]
  · rw [hcfg, getD_set_self]; simp; omega
  · intro hV hVcfg
    rw [dpi_value_get_eq K V t a0 b1 p hV hp hpr, hidx, hVcfg, hX]
    have h4 : (((v / 100 - 1 : Nat) : Int) + 1) * 100 = (v : Int) := by omega
    rw [h4]

/-- Witness of C1 on the sample device: profile 3 is set to 800 and read back. -/
theorem dpi_value_set_get_witness :
    dpi_value demo (Dev.usb demo) ["3".toList, "value".toList]
        (after (dpi_value demo (Dev.usb demo) ["3".toList, "value".toList, "800".toList]
          Dev.blank))
      = some ⟨0, "800\n", (loaded demo (Dev.usb demo)
          (after (dpi_value demo (Dev.usb demo) ["3".toList, "value".toList, "800".toList]
            Dev.blank))).2.2.2⟩ :=
  (dpi_value_set_get demo (Dev.usb demo) Dev.blank (Dev.usb demo)
    (after (dpi_value demo (Dev.usb demo) ["3".toList, "value".toList, "800".toList] Dev.blank))
    "3".toList "value".toList "800".toList "value".toList [] 3 800 _
    rfl rfl rfl rfl (by decide) (by decide) (by decide) (by decide) (by decide)
    (by decide) (by decide) (by decide) (by decide) (by decide) rfl).2.2.2
    (by decide) (by decide)

/-- C2. For a valid profile and any integer `v`, after a successful read of the
settings, `dpi_value` set is rejected (status -2, no write among the calls it makes, the
device left as `read_settings` left it) exactly when `v < 100`, `v > 12000` or `v` is no
multiple of 100. -/
theorem dpi_value_rejected_iff {σ : Type} (K : Consts) (U : Usb σ) (s : σ)
    (a0 a1 a2 : CStr) (rest : List CStr) (p v : Int)
    (hsec : K.SECTION_LEN % 256 ≠ 0)
    (hmin : K.DPI_PROFILE_MIN = 1) (hmax : K.DPI_PROFILE_MAX = 7)
    (hvmin : K.DPI_VALUE_MIN = 100) (hvmax : K.DPI_VALUE_MAX = 12000)
    (hread : (loaded K U s).1 = 0)
    (hp : atoi a0 = some p) (hp1 : 1 ≤ p) (hp7 : p ≤ 7) (hv : atoi a2 = some v) :
    rejected K U s (dpi_value K U.logged (a0 :: a1 :: a2 :: rest) (s, []))
      ↔ (v < 100 ∨ 12000 < v ∨ v % 100 ≠ 0) := by
  have hread2 : (loaded K U.logged (s, [])).1 = 0 := by rw [(loaded_logged K U s).1, hread]
  have hpr : K.DPI_PROFILE_MIN ≤ p ∧ p ≤ K.DPI_PROFILE_MAX := by omega
  rw [dpi_value_set_eq K U.logged (s, []) a0 a1 a2 rest p v hread2 hp hpr hv, hvmin, hvmax]
  by_cases hbad : v < 100 ∨ v > 12000 ∨ Int.tmod v 100 ≠ 0
  · rw [if_pos hbad]
    have : v < 100 ∨ 12000 < v ∨ v % 100 ≠ 0 := by
      rcases hbad with h | h | h
      · omega
      · omega
      · by_cases h0 : 0 ≤ v
        · rw [Int.tmod_eq_emod h0 (by omega)] at h; omega
        · omega
    simp only [this, iff_true]
    exact rejected_of_eq K U s hsec _ rfl
  · rw [if_neg hbad]
    have : ¬ (v < 100 ∨ 12000 < v ∨ v % 100 ≠ 0) := by
      intro h
      apply hbad
      rcases h with h | h | h
      · omega
      · omega
      · by_cases h0 : 0 ≤ v
        · right; right; rw [Int.tmod_eq_emod h0 (by omega)]; exact h
        · omega
    simp only [this, iff_false]
    rintro ⟨r, hr, _, _, hnw, _⟩
    cases hr
    exact not_no_write_write_settings K U _ _ _ hnw

/-- Witness of C2 on the sample device: 150 is no multiple of 100. -/
theorem dpi_value_rejected_iff_witness :
    rejected demo (Dev.usb demo) Dev.blank
      (dpi_value demo (Dev.usb demo).logged ["3".toList, "value".toList, "150".toList]
        (Dev.blank, [])) :=
  (dpi_value_rejected_iff demo (Dev.usb demo) Dev.blank "3".toList "value".toList "150".toList
    [] 3 150 (by decide) rfl rfl rfl rfl (by decide) (by decide) (by decide) (by decide)
    (by decide)).mpr (by decide)

/-! ## `dpi_enable` (C3) -/

theorem land_two_pow_ne_zero (g k : Nat) : g &&& 2 ^ k ≠ 0 ↔ g.testBit k = true := by
  constructor
  · intro h
    by_contra hb
    apply h
    apply Nat.eq_of_testBit_eq
    intro i
    simp only [Nat.testBit_land, Nat.testBit_two_pow, Nat.zero_testBit]
    by_cases e : k = i
    · subst e; simp [hb]
    · simp [e]
  · intro hb h
    have := congrArg (fun x => x.testBit k) h
    simp [Nat.testBit_land, Nat.testBit_two_pow, hb] at this

theorem byte_testBit_high (f j : Nat) (hf : f < 256) (hj : 8 ≤ j) : f.testBit j = false := by
  apply Nat.testBit_lt_two_pow
  calc f < 2 ^ 8 := hf
    _ ≤ 2 ^ j := Nat.pow_le_pow_right (by decide) hj

theorem set_bit_byte (f k : Nat) (hf : f < 256) (hk : k < 7) :
    ((f ||| 2 ^ k) % 256).testBit k = true
    ∧ ∀ j, j ≠ k → ((f ||| 2 ^ k) % 256).testBit j = f.testBit j := by
  have e : (256 : Nat) = 2 ^ 8 := by norm_num
  rw [e]
  constructor
  · simp only [Nat.testBit_mod_two_pow, Nat.testBit_lor, Nat.testBit_two_pow]
    simp; omega
  · intro j hj
    simp only [Nat.testBit_mod_two_pow, Nat.testBit_lor, Nat.testBit_two_pow]
    by_cases h8 : j < 8
    · simp [h8, Ne.symm hj]
    · simp [h8, byte_testBit_high f j hf (by omega)]

theorem clear_bit_byte (f k : Nat) (hf : f < 256) (hk : k < 7) :
    ((f &&& (4294967295 - 2 ^ k)) % 256).testBit k = false
    ∧ ∀ j, j ≠ k → ((f &&& (4294967295 - 2 ^ k)) % 256).testBit j = f.testBit j := by
  have e : (256 : Nat) = 2 ^ 8 := by norm_num
  have m : 4294967295 - 2 ^ k = (2 ^ 32 - 1) ^^^ 2 ^ k := by
    interval_cases k <;> rfl
  rw [e, m]
  constructor
  · simp only [Nat.testBit_mod_two_pow, Nat.testBit_land, Nat.testBit_xor,
      Nat.testBit_two_pow_sub_one, Nat.testBit_two_pow]
    simp; omega
  · intro j hj
    simp only [Nat.testBit_mod_two_pow, Nat.testBit_land, Nat.testBit_xor,
      Nat.testBit_two_pow_sub_one, Nat.testBit_two_pow]
    by_cases h8 : j < 8
    · have : j < 32 := by omega
      simp [h8, this, Ne.symm hj]
    · simp [h8, byte_testBit_high f j hf (by omega)]

theorem put_bytes_lt (buf : List Nat) (off n : Nat) (d : List Nat)
    (h : ∀ i, buf.getD i 0 < 256) (i : Nat) : (put_bytes buf off n d).getD i 0 < 256 := by
  unfold put_bytes
  by_cases hi : i < buf.length
  · rw [List.getD_eq_getElem _ _ (by simpa using hi)]
    simp only [List.getElem_map, List.getElem_range]
    split_ifs
    · exact Nat.mod_lt _ (by decide)
    · exact h i
  · rw [List.getD_eq_default _ _ (by simpa using hi)]; decide

theorem read_section_lt {σ : Type} (K : Consts) (U : Usb σ) (addr : Nat) (buf : List Nat)
    (off : Nat) (s : σ) (h : ∀ i, buf.getD i 0 < 256) (i : Nat) :
    (read_section K U addr buf off s).2.1.getD i 0 < 256 := by
  unfold read_section
  simp only []
  split_ifs
  · exact h i
  · exact h i
  · exact put_bytes_lt _ _ _ _ (put_bytes_lt _ _ _ _ h) i

theorem uninit_lt (n i : Nat) : (uninit n).getD i 0 < 256 := by
  unfold uninit
  by_cases hi : i < n
  · rw [List.getD_eq_getElem _ _ (by simpa using hi)]; simp
  · rw [List.getD_eq_default _ _ (by simpa using hi)]; decide

theorem loaded_settings_lt {σ : Type} (K : Consts) (U : Usb σ) (s : σ) (i : Nat) :
    (loaded K U s).2.1.getD i 0 < 256 := by
  unfold loaded read_settings
  simp only []
  split_ifs <;> exact read_section_lt K U _ _ _ _ (uninit_lt _) i

theorem shl1_eq (k : Int) (h0 : 0 ≤ k) (h1 : k < 31) : shl1 k = some (2 ^ k.toNat) := by
  unfold shl1
  rw [if_pos ⟨h0, h1⟩, Nat.one_shiftLeft]

/-- A rejection of the profile number: `argv[0]` outside the profile range. -/
theorem dpi_enable_profile_eq {σ : Type} (K : Consts) (W : Usb σ) (t : σ) (a0 : CStr)
    (more : List CStr) (p : Int) (hread : (loaded K W t).1 = 0) (hp : atoi a0 = some p)
    (hbad : p < K.DPI_PROFILE_MIN ∨ p > K.DPI_PROFILE_MAX) :
    dpi_enable K W (a0 :: more) t = some ⟨-2, "", (loaded K W t).2.2.2⟩ := by
  unfold dpi_enable
  have hr : (read_settings K W (uninit K.SECTION_LEN) (uninit K.SECTION_LEN) t) = loaded K W t := rfl
  simp only [hr, hread, hp, hbad]
  simp

/-- The get form of `dpi_enable` after a successful read and a profile in [1,7]. -/
theorem dpi_enable_get_eq {σ : Type} (K : Consts) (W : Usb σ) (t : σ) (a0 : CStr) (p : Int)
    (hmin : K.DPI_PROFILE_MIN = 1) (hmax : K.DPI_PROFILE_MAX = 7)
    (hread : (loaded K W t).1 = 0) (hp : atoi a0 = some p) (hp1 : 1 ≤ p) (hp7 : p ≤ 7) :
    dpi_enable K W [a0] t =
      some ⟨0, if ((loaded K W t).2.1.getD K.DPI_ENABLE_ADDR 0).testBit (p - 1).toNat = true
        then "on\n" else "off\n", (loaded K W t).2.2.2⟩ := by
  unfold dpi_enable
  have hr : (read_settings K W (uninit K.SECTION_LEN) (uninit K.SECTION_LEN) t) = loaded K W t := rfl
  have h1 : ¬ (p < K.DPI_PROFILE_MIN ∨ p > K.DPI_PROFILE_MAX) := by omega
  simp only [hr, hread, hp, h1, shl1_eq (p - 1) (by omega) (by omega), land_two_pow_ne_zero]
  simp only [ne_eq, not_true_eq_false, ↓reduceIte]
  split_ifs <;> rfl

/-- The set form of `dpi_enable` after a successful read and a profile in [1,7]. -/
theorem dpi_enable_set_eq {σ : Type} (K : Consts) (W : Usb σ) (t : σ) (a0 a1 : CStr)
    (rest : List CStr) (p : Int)
    (hmin : K.DPI_PROFILE_MIN = 1) (hmax : K.DPI_PROFILE_MAX = 7)
    (hread : (loaded K W t).1 = 0) (hp : atoi a0 = some p) (hp1 : 1 ≤ p) (hp7 : p ≤ 7) :
    dpi_enable K W (a0 :: a1 :: rest) t =
      some ⟨(write_settings K W ((loaded K W t).2.1.set K.DPI_ENABLE_ADDR
              (if a1 = "on".toList then
                ((loaded K W t).2.1.getD K.DPI_ENABLE_ADDR 0 ||| 2 ^ (p - 1).toNat) % 256
               else ((loaded K W t).2.1.getD K.DPI_ENABLE_ADDR 0
                &&& (4294967295 - 2 ^ (p - 1).toNat)) % 256))
              (loaded K W t).2.2.1 (loaded K W t).2.2.2).1, "",
            (write_settings K W ((loaded K W t).2.1.set K.DPI_ENABLE_ADDR
              (if a1 = "on".toList then
                ((loaded K W t).2.1.getD K.DPI_ENABLE_ADDR 0 ||| 2 ^ (p - 1).toNat) % 256
               else ((loaded K W t).2.1.getD K.DPI_ENABLE_ADDR 0
                &&& (4294967295 - 2 ^ (p - 1).toNat)) % 256))
              (loaded K W t).2.2.1 (loaded K W t).2.2.2).2⟩ := by
  unfold dpi_enable
  have hr : (read_settings K W (uninit K.SECTION_LEN) (uninit K.SECTION_LEN) t) = loaded K W t := rfl
  have h1 : ¬ (p < K.DPI_PROFILE_MIN ∨ p > K.DPI_PROFILE_MAX) := by omega
  simp only [hr, hread, hp, h1, shl1_eq (p - 1) (by omega) (by omega)]
  simp only [ne_eq, not_true_eq_false, ↓reduceIte]
  split_ifs <;> rfl

/-- The flags byte `dpi_enable` stores has bit `k` as asked and the other bits of `f`;
a byte with that property is that byte. -/
theorem dpi_enable_flags_unique (f k g : Nat) (b : Bool) (hf : f < 256) (hk : k < 7)
    (hg : g < 256) (hgk : g.testBit k = b)
    (hgj : ∀ j < 8, j ≠ k → g.testBit j = f.testBit j) :
    (if b = true then (f ||| 2 ^ k) % 256 else (f &&& (4294967295 - 2 ^ k)) % 256) = g := by
  apply Nat.eq_of_testBit_eq
  intro j
  by_cases hj8 : j < 8
  · by_cases hjk : j = k
    · subst hjk
      cases b
      · simp only [Bool.false_eq_true, ↓reduceIte]; rw [(clear_bit_byte f j hf hk).1, hgk]
      · simp only [↓reduceIte]; rw [(set_bit_byte f j hf hk).1, hgk]
    · rw [hgj j hj8 hjk]
      cases b
      · simp only [Bool.false_eq_true, ↓reduceIte]; exact (clear_bit_byte f k hf hk).2 j hjk
      · simp only [↓reduceIte]; exact (set_bit_byte f k hf hk).2 j hjk
  · rw [byte_testBit_high g j hg (by omega)]
    apply byte_testBit_high _ j _ (by omega)
    split_ifs <;> exact Nat.mod_lt _ (by decide)

/-- C3. After a successful read of the settings with flags byte `f`: for a profile `p`
in [1,7], `dpi_enable` set hands `write_settings` the settings with the flags byte
replaced by the byte `g` whose bit `p-1` is the requested boolean and whose other bits
are those of `f`; on a device returning that section, get for `p` prints the requested
boolean and get for any other profile prints what it printed before.  A profile outside
[1,7] is rejected with -2 and nothing is written. -/
theorem dpi_enable_set_get {σ τ : Type} (K : Consts) (U : Usb σ) (s : σ) (V : Usb τ) (t : τ)
    (a0 a1 : CStr) (rest more : List CStr) (p : Int)
    (hsec : K.SECTION_LEN % 256 ≠ 0)
    (hmin : K.DPI_PROFILE_MIN = 1) (hmax : K.DPI_PROFILE_MAX = 7)
    (haddr : K.DPI_ENABLE_ADDR < K.SECTION_LEN)
    (hp : atoi a0 = some p) (hread : (loaded K U s).1 = 0) :
    (1 ≤ p ∧ p ≤ 7 →
      (∃ g : Nat, g < 256 ∧ g.testBit (p - 1).toNat = decide (a1 = "on".toList)
        ∧ ∀ j < 8, j ≠ (p - 1).toNat →
            g.testBit j = ((loaded K U s).2.1.getD K.DPI_ENABLE_ADDR 0).testBit j)
      ∧ ∀ g : Nat, g < 256 → g.testBit (p - 1).toNat = decide (a1 = "on".toList) →
        (∀ j < 8, j ≠ (p - 1).toNat →
            g.testBit j = ((loaded K U s).2.1.getD K.DPI_ENABLE_ADDR 0).testBit j) →
        dpi_enable K U (a0 :: a1 :: rest) s
          = some ⟨(write_settings K U ((loaded K U s).2.1.set K.DPI_ENABLE_ADDR g)
                    (loaded K U s).2.2.1 (loaded K U s).2.2.2).1, "",
                  (write_settings K U ((loaded K U s).2.1.set K.DPI_ENABLE_ADDR g)
                    (loaded K U s).2.2.1 (loaded K U s).2.2.2).2⟩
        ∧ ((loaded K V t).1 = 0 →
            (loaded K V t).2.1 = (loaded K U s).2.1.set K.DPI_ENABLE_ADDR g →
            dpi_enable K V [a0] t
              = some ⟨0, if a1 = "on".toList then "on\n" else "off\n", (loaded K V t).2.2.2⟩
            ∧ ∀ (bq : CStr) (q : Int), atoi bq = some q → 1 ≤ q → q ≤ 7 → q ≠ p →
                (dpi_enable K V [bq] t).map (·.out) = (dpi_enable K U [bq] s).map (·.out)))
    ∧ (p < 1 ∨ 7 < p → rejected K U s (dpi_enable K U.logged (a0 :: more) (s, []))) := by
  have hf := loaded_settings_lt K U s K.DPI_ENABLE_ADDR
  have hlen := loaded_settings_length K U s
  constructor
  · rintro ⟨hp1, hp7⟩
    have hk : (p - 1).toNat < 7 := by omega
    constructor
    · by_cases hb : a1 = "on".toList
      · refine ⟨_, Nat.mod_lt _ (by decide), ?_, fun j _ hj => (set_bit_byte _ _ hf hk).2 j hj⟩
        rw [(set_bit_byte _ _ hf hk).1]; exact (decide_eq_true hb).symm
      · refine ⟨_, Nat.mod_lt _ (by decide), ?_, fun j _ hj => (clear_bit_byte _ _ hf hk).2 j hj⟩
        rw [(clear_bit_byte _ _ hf hk).1]; exact (decide_eq_false hb).symm
    · intro g hg hgk hgj
      have huniq := dpi_enable_flags_unique _ _ g (decide (a1 = "on".toList)) hf hk hg hgk hgj
      simp only [decide_eq_true_eq] at huniq
      constructor
      · rw [dpi_enable_set_eq K U s a0 a1 rest p hmin hmax hread hp hp1 hp7, huniq]
      · intro hV hVcfg
        constructor
        · rw [dpi_enable_get_eq K V t a0 p hmin hmax hV hp hp1 hp7, hVcfg,
            getD_set_self _ _ _ (by omega), hgk]
          simp
        · intro bq q hq hq1 hq7 hqp
          rw [dpi_enable_get_eq K V t bq q hmin hmax hV hq hq1 hq7,
            dpi_enable_get_eq K U s bq q hmin hmax hread hq hq1 hq7, hVcfg,
            getD_set_self _ _ _ (by omega), hgj (q - 1).toNat (by omega) (by omega)]
          rfl
  · intro hbad
    have hread2 : (loaded K U.logged (s, [])).1 = 0 := by rw [(loaded_logged K U s).1, hread]
    exact rejected_of_eq K U s hsec _
      (dpi_enable_profile_eq K U.logged (s, []) a0 more p hread2 hp (by omega))

/-- Witness of C3 on the sample device: with flags byte 0, profile 3 is switched on (the
byte becomes 4) and read back; profile 9 is rejected. -/
theorem dpi_enable_set_get_witness :
    dpi_enable demo (Dev.usb demo) ["3".toList]
        (after (dpi_enable demo (Dev.usb demo) ["3".toList, "on".toList] Dev.blank))
      = some ⟨0, "on\n", (loaded demo (Dev.usb demo)
          (after (dpi_enable demo (Dev.usb demo) ["3".toList, "on".toList] Dev.blank))).2.2.2⟩
    ∧ rejected demo (Dev.usb demo) Dev.blank
        (dpi_enable demo (Dev.usb demo).logged ["9".toList, "on".toList] (Dev.blank, [])) :=
  ⟨((((dpi_enable_set_get demo (Dev.usb demo) Dev.blank (Dev.usb demo)
      (after (dpi_enable demo (Dev.usb demo) ["3".toList, "on".toList] Dev.blank))
      "3".toList "on".toList [] [] 3 (by decide) rfl rfl (by decide) (by decide) (by decide)).1
      (by decide)).2 4 (by decide) (by decide) (by decide)).2 (by decide) (by decide)).1,
   (dpi_enable_set_get demo (Dev.usb demo) Dev.blank (Dev.usb demo) Dev.blank
      "9".toList "on".toList [] ["on".toList] 9 (by decide) rfl rfl (by decide) (by decide)
      (by decide)).2 (by decide)⟩

/-! ## `dpi_color` (C4) -/

theorem fmt_02x_byte :
    ∀ b < 256, fmt_02x b = [Nat.digitChar (b / 16), Nat.digitChar (b % 16)] := by
  set_option maxRecDepth 100000 in decide

theorem hex_char_facts (c : Char) (h : c ∈ HEX) :
    (hex_val c).getD 0 < 16 ∧ hex_val c = some ((hex_val c).getD 0) ∧ isspace c = false
      ∧ c ≠ '-' ∧ c ≠ '+' ∧ c ≠ 'x' ∧ c ≠ 'X' ∧ c ≠ NUL
      ∧ Nat.digitChar ((hex_val c).getD 0) = c.toLower := by
  have h2 : c ∈ "0123456789abcdefABCDEF".toList := h
  simp only [String.toList, List.mem_cons, List.mem_singleton, List.not_mem_nil, or_false] at h2
  rcases h2 with e | e | e | e | e | e | e | e | e | e | e | e | e | e | e | e | e | e | e | e
    | e | e <;> subst e <;> decide

theorem mask_shift (n k : Nat) : (n &&& ((2 ^ 8 - 1) <<< k)) >>> k = (n >>> k) % 2 ^ 8 := by
  apply Nat.eq_of_testBit_eq
  intro j
  simp only [Nat.testBit_shiftRight, Nat.testBit_land, Nat.testBit_shiftLeft,
    Nat.testBit_mod_two_pow, Nat.testBit_two_pow_sub_one]
  by_cases h : j < 8 <;> simp [h]

theorem color_bytes (d0 d1 d2 d3 d4 d5 : Nat) (h0 : d0 < 16) (h1 : d1 < 16) (h2 : d2 < 16)
    (h3 : d3 < 16) (h4 : d4 < 16) (h5 : d5 < 16) (n : Nat)
    (hn : n = ((((d0 * 16 + d1) * 16 + d2) * 16 + d3) * 16 + d4) * 16 + d5) :
    ((n &&& 0xff0000) >>> 16) % 256 = 16 * d0 + d1
    ∧ ((n &&& 0x00ff00) >>> 8) % 256 = 16 * d2 + d3
    ∧ (n &&& 0x0000ff) % 256 = 16 * d4 + d5 := by
  have e1 : (0xff0000 : Nat) = (2 ^ 8 - 1) <<< 16 := by decide
  have e2 : (0x00ff00 : Nat) = (2 ^ 8 - 1) <<< 8 := by decide
  have e3 : (0x0000ff : Nat) = 2 ^ 8 - 1 := by decide
  rw [e1, e2, e3, mask_shift, mask_shift, Nat.and_pow_two_sub_one_eq_mod,
    Nat.shiftRight_eq_div_pow, Nat.shiftRight_eq_div_pow]
  norm_num
  omega

theorem valid_hex_iff (s : CStr) : valid_hex s = true ↔ s.length = 6 ∧ ∀ c ∈ s, c ∈ HEX := by
  unfold valid_hex strspn
  simp only [Bool.and_eq_true, beq_iff_eq]
  constructor
  · rintro ⟨h1, h2⟩
    refine ⟨h1, ?_⟩
    have : List.takeWhile (fun c => decide (c ∈ "0123456789abcdefABCDEF".toList)) s = s := by
      apply List.IsPrefix.eq_of_length (List.takeWhile_prefix _)
      rw [h1, h2]
    intro c hc
    exact of_decide_eq_true ((List.takeWhile_eq_self_iff.mp this) c hc)
  · rintro ⟨h1, h2⟩
    refine ⟨h1, ?_⟩
    have : List.takeWhile (fun c => decide (c ∈ "0123456789abcdefABCDEF".toList)) s = s := by
      apply List.takeWhile_eq_self_iff.mpr
      intro c hc
      exact decide_eq_true (h2 c hc)
    rw [this, h1]

theorem strtoul16_hex6 (c0 c1 c2 c3 c4 c5 : Char) (d0 d1 d2 d3 d4 d5 : Nat)
    (h0 : c0 ∈ HEX) (h1 : c1 ∈ HEX)
    (e0 : hex_val c0 = some d0) (e1 : hex_val c1 = some d1) (e2 : hex_val c2 = some d2)
    (e3 : hex_val c3 = some d3) (e4 : hex_val c4 = some d4) (e5 : hex_val c5 = some d5)
    (b0 : d0 < 16) (b1 : d1 < 16) (b2 : d2 < 16) (b3 : d3 < 16) (b4 : d4 < 16) (b5 : d5 < 16) :
    strtoul16 [c0, c1, c2, c3, c4, c5]
      = (((((d0 * 16 + d1) * 16 + d2) * 16 + d3) * 16 + d4) * 16 + d5, []) := by
  obtain ⟨_, _, hs, hm, hpl, _, _, _, _⟩ := hex_char_facts c0 h0
  obtain ⟨_, _, _, _, _, hx, hX, _, _⟩ := hex_char_facts c1 h1
  unfold strtoul16
  have hd : List.dropWhile isspace [c0, c1, c2, c3, c4, c5] = [c0, c1, c2, c3, c4, c5] := by
    simp [List.dropWhile, hs]
  have f1 : (c0 == '-') = false := beq_false_of_ne hm
  have f2 : (c0 == '+') = false := beq_false_of_ne hpl
  have f3 : (c1 == 'x') = false := beq_false_of_ne hx
  have f4 : (c1 == 'X') = false := beq_false_of_ne hX
  simp only [hd, cget, f1, f2, Bool.or_self, Bool.false_eq_true, ↓reduceIte,
    List.getD_cons_zero, List.getD_cons_succ, f3, f4, Bool.and_false, Bool.false_and, e0,
    Option.isSome_some, hex_digits, e1, e2, e3, e4, e5, zero_mul, zero_add]
  rw [if_neg (by omega)]

/-- The set form of `dpi_color` after a successful read and a profile in range. -/
theorem dpi_color_set_eq {σ : Type} (K : Consts) (W : Usb σ) (t : σ) (a0 a1 a2 : CStr)
    (rest : List CStr) (p : Int) (hread : (loaded K W t).1 = 0)
    (hp : atoi a0 = some p) (hpr : K.DPI_PROFILE_MIN ≤ p ∧ p ≤ K.DPI_PROFILE_MAX) :
    dpi_color K W (a0 :: a1 :: a2 :: rest) t =
      if valid_hex a2 = false ∨ cget (strtoul16 a2).2 0 ≠ NUL then
        some ⟨-2, "", (loaded K W t).2.2.2⟩
      else
        some ⟨(write_settings K W
                ((((loaded K W t).2.1.set (dpi_color_addr K (p - 1))
                    ((((strtoul16 a2).1 &&& 0xff0000) >>> 16) % 256)).set
                    (dpi_color_addr K (p - 1) + 1) ((((strtoul16 a2).1 &&& 0x00ff00) >>> 8) % 256)).set
                    (dpi_color_addr K (p - 1) + 2) (((strtoul16 a2).1 &&& 0x0000ff) % 256))
                (loaded K W t).2.2.1 (loaded K W t).2.2.2).1, "",
              (write_settings K W
                ((((loaded K W t).2.1.set (dpi_color_addr K (p - 1))
                    ((((strtoul16 a2).1 &&& 0xff0000) >>> 16) % 256)).set
                    (dpi_color_addr K (p - 1) + 1) ((((strtoul16 a2).1 &&& 0x00ff00) >>> 8) % 256)).set
                    (dpi_color_addr K (p - 1) + 2) (((strtoul16 a2).1 &&& 0x0000ff) % 256))
                (loaded K W t).2.2.1 (loaded K W t).2.2.2).2⟩ := by
  unfold dpi_color
  have hr : (read_settings K W (uninit K.SECTION_LEN) (uninit K.SECTION_LEN) t) = loaded K W t := rfl
  have h1 : ¬ (p < K.DPI_PROFILE_MIN ∨ p > K.DPI_PROFILE_MAX) := by omega
  simp only [hr, hread, hp, h1]
  by_cases c1 : valid_hex a2 = false
  · simp [c1]
  · by_cases c2 : cget (strtoul16 a2).2 0 ≠ NUL
    · simp [c1, c2]
    · simp [c1, c2]

/-- The get form of `dpi_color` after a successful read and a profile in range. -/
theorem dpi_color_get_eq {σ : Type} (K : Consts) (W : Usb σ) (t : σ) (a0 a1 : CStr)
    (p : Int) (hread : (loaded K W t).1 = 0)
    (hp : atoi a0 = some p) (hpr : K.DPI_PROFILE_MIN ≤ p ∧ p ≤ K.DPI_PROFILE_MAX) :
    dpi_color K W [a0, a1] t =
      some ⟨0, String.mk (fmt_02x ((loaded K W t).2.1.getD (dpi_color_addr K (p - 1)) 0)
        ++ fmt_02x ((loaded K W t).2.1.getD (dpi_color_addr K (p - 1) + 1) 0)
        ++ fmt_02x ((loaded K W t).2.1.getD (dpi_color_addr K (p - 1) + 2) 0)) ++ "\n",
        (loaded K W t).2.2.2⟩ := by
  unfold dpi_color
  have hr : (read_settings K W (uninit K.SECTION_LEN) (uninit K.SECTION_LEN) t) = loaded K W t := rfl
  have h1 : ¬ (p < K.DPI_PROFILE_MIN ∨ p > K.DPI_PROFILE_MAX) := by omega
  simp only [hr, hread, hp, h1]
  simp

/-- On six hexadecimal digits `strtoul` reads all of them, and the three bytes
`dpi_color` cuts out of the number are the values of the three digit pairs; printed with
`%02x` they give the digits back in lower case. -/
theorem color_of_hex6 (c0 c1 c2 c3 c4 c5 : Char)
    (hhex : ∀ c ∈ [c0, c1, c2, c3, c4, c5], c ∈ HEX) :
    (strtoul16 [c0, c1, c2, c3, c4, c5]).2 = []
    ∧ (((strtoul16 [c0, c1, c2, c3, c4, c5]).1 &&& 0xff0000) >>> 16) % 256
        = (hex_digits [c0, c1] 0).1
    ∧ (((strtoul16 [c0, c1, c2, c3, c4, c5]).1 &&& 0x00ff00) >>> 8) % 256
        = (hex_digits [c2, c3] 0).1
    ∧ ((strtoul16 [c0, c1, c2, c3, c4, c5]).1 &&& 0x0000ff) % 256 = (hex_digits [c4, c5] 0).1
    ∧ fmt_02x (hex_digits [c0, c1] 0).1 ++ fmt_02x (hex_digits [c2, c3] 0).1
        ++ fmt_02x (hex_digits [c4, c5] 0).1 = [c0, c1, c2, c3, c4, c5].map Char.toLower := by
  have ex : ∀ c ∈ [c0, c1, c2, c3, c4, c5],
      ∃ d, d < 16 ∧ hex_val c = some d ∧ Nat.digitChar d = c.toLower := fun c hc =>
    ⟨_, (hex_char_facts c (hhex c hc)).1, (hex_char_facts c (hhex c hc)).2.1,
      (hex_char_facts c (hhex c hc)).2.2.2.2.2.2.2.2⟩
  obtain ⟨d0, b0, e0, l0⟩ := ex c0 (by simp)
  obtain ⟨d1, b1, e1, l1⟩ := ex c1 (by simp)
  obtain ⟨d2, b2, e2, l2⟩ := ex c2 (by simp)
  obtain ⟨d3, b3, e3, l3⟩ := ex c3 (by simp)
  obtain ⟨d4, b4, e4, l4⟩ := ex c4 (by simp)
  obtain ⟨d5, b5, e5, l5⟩ := ex c5 (by simp)
  have hs := strtoul16_hex6 c0 c1 c2 c3 c4 c5 _ _ _ _ _ _ (hhex c0 (by simp)) (hhex c1 (by simp))
    e0 e1 e2 e3 e4 e5 b0 b1 b2 b3 b4 b5
  have hb := color_bytes _ _ _ _ _ _ b0 b1 b2 b3 b4 b5 _ rfl
  have p01 : (hex_digits [c0, c1] 0).1 = 16 * d0 + d1 := by
    simp only [hex_digits, e0, e1]; omega
  have p23 : (hex_digits [c2, c3] 0).1 = 16 * d2 + d3 := by
    simp only [hex_digits, e2, e3]; omega
  have p45 : (hex_digits [c4, c5] 0).1 = 16 * d4 + d5 := by
    simp only [hex_digits, e4, e5]; omega
  have q : ∀ x y : Nat, x < 16 → y < 16 →
      fmt_02x (16 * x + y) = [Nat.digitChar x, Nat.digitChar y] := by
    intro x y hx hy
    have e1 : (16 * x + y) / 16 = x := by omega
    have e2 : (16 * x + y) % 16 = y := by omega
    rw [fmt_02x_byte (16 * x + y) (by omega), e1, e2]
  rw [hs, p01, p23, p45, q _ _ b0 b1, q _ _ b2 b3, q _ _ b4 b5, l0, l1, l2, l3, l4, l5]
  exact ⟨rfl, hb.1, hb.2.1, hb.2.2, rfl⟩

theorem dpi_color_addr_eq (K : Consts) (p : Nat) (hp1 : 1 ≤ p) :
    dpi_color_addr K ((p : Int) - 1) = K.DPI_COLOR_ADDR_START + (p - 1) * K.DPI_COLOR_ADDR_STEP := by
  unfold dpi_color_addr idx
  have e : (p : Int) - 1 = ((p - 1 : Nat) : Int) := by omega
  rw [e, ← Int.natCast_mul, ← Int.natCast_add, Int.toNat_natCast]

/-- C4. After a successful read of the settings and for a profile `p` in [1,7]: for a
string of six hexadecimal digits (either case), `dpi_color` set hands `write_settings`
the settings with the values of the three digit pairs stored at
`DPI_COLOR_ADDR_START+(p-1)*DPI_COLOR_ADDR_STEP+0,1,2`, and `dpi_color` get for `p` on a
device returning that section prints the string in lower case; every other string is
rejected with -2 and nothing is written. -/
theorem dpi_color_set_get {σ τ : Type} (K : Consts) (U : Usb σ) (s : σ) (V : Usb τ) (t : τ)
    (a0 a1 a2 b1 : CStr) (rest : List CStr) (p : Nat)
    (hsec : K.SECTION_LEN % 256 ≠ 0)
    (hmin : K.DPI_PROFILE_MIN = 1) (hmax : K.DPI_PROFILE_MAX = 7)
    (hb : K.DPI_COLOR_ADDR_START + 6 * K.DPI_COLOR_ADDR_STEP + 3 ≤ K.SECTION_LEN)
    (hp : atoi a0 = some (p : Int)) (hp1 : 1 ≤ p) (hp7 : p ≤ 7)
    (hread : (loaded K U s).1 = 0) :
    (∀ (c0 c1 c2 c3 c4 c5 : Char) (cfg : List Nat), a2 = [c0, c1, c2, c3, c4, c5] →
      (∀ c ∈ a2, c ∈ HEX) →
      cfg = (((loaded K U s).2.1.set
          (K.DPI_COLOR_ADDR_START + (p - 1) * K.DPI_COLOR_ADDR_STEP) (hex_digits [c0, c1] 0).1).set
          (K.DPI_COLOR_ADDR_START + (p - 1) * K.DPI_COLOR_ADDR_STEP + 1)
            (hex_digits [c2, c3] 0).1).set
          (K.DPI_COLOR_ADDR_START + (p - 1) * K.DPI_COLOR_ADDR_STEP + 2)
            (hex_digits [c4, c5] 0).1 →
      dpi_color K U (a0 :: a1 :: a2 :: rest) s
        = some ⟨(write_settings K U cfg (loaded K U s).2.2.1 (loaded K U s).2.2.2).1, "",
                (write_settings K U cfg (loaded K U s).2.2.1 (loaded K U s).2.2.2).2⟩
      ∧ ((loaded K V t).1 = 0 → (loaded K V t).2.1 = cfg →
          dpi_color K V [a0, b1] t
            = some ⟨0, String.mk (a2.map Char.toLower) ++ "\n", (loaded K V t).2.2.2⟩))
    ∧ (¬ (a2.length = 6 ∧ ∀ c ∈ a2, c ∈ HEX) →
        rejected K U s (dpi_color K U.logged (a0 :: a1 :: a2 :: rest) (s, []))) := by
  have hpr : K.DPI_PROFILE_MIN ≤ (p : Int) ∧ (p : Int) ≤ K.DPI_PROFILE_MAX := by omega
  have hlen := loaded_settings_length K U s
  have hA : (p - 1) * K.DPI_COLOR_ADDR_STEP ≤ 6 * K.DPI_COLOR_ADDR_STEP :=
    Nat.mul_le_mul_right _ (by omega)
  constructor
  · intro c0 c1 c2 c3 c4 c5 cfg ha2 hhex hcfg
    subst ha2
    obtain ⟨k1, k2, k3, k4, k5⟩ := color_of_hex6 c0 c1 c2 c3 c4 c5 hhex
    have hvalid : valid_hex [c0, c1, c2, c3, c4, c5] = true :=
      (valid_hex_iff _).mpr ⟨rfl, hhex⟩
    constructor
    · rw [dpi_color_set_eq K U s a0 a1 _ rest p hread hp hpr, k1, k2, k3, k4,
        dpi_color_addr_eq K p hp1, ← hcfg, if_neg]
      rw [hvalid]
      simp [cget]
    · intro hV hVcfg
      rw [dpi_color_get_eq K V t a0 b1 p hV hp hpr, dpi_color_addr_eq K p hp1, hVcfg, hcfg,
        getD_set_ne _ _ _ _ (by omega), getD_set_ne _ _ _ _ (by omega),
        getD_set_self _ _ _ (by omega), getD_set_ne _ _ _ _ (by omega),
        getD_set_self _ _ _ (by simp; omega), getD_set_self _ _ _ (by simp; omega), k5]
  · intro hbad
    have hread2 : (loaded K U.logged (s, [])).1 = 0 := by rw [(loaded_logged K U s).1, hread]
    have hinv : valid_hex a2 = false := by
      cases h : valid_hex a2
      · rfl
      · exact absurd ((valid_hex_iff a2).mp h) hbad
    apply rejected_of_eq K U s hsec
    rw [dpi_color_set_eq K U.logged (s, []) a0 a1 a2 rest p hread2 hp hpr, if_pos (Or.inl hinv)]

/-- Witness of C4 on the sample device: profile 2 is given the colour `00fF1a` and
prints `00ff1a`; `12345` is rejected. -/
theorem dpi_color_set_get_witness :
    dpi_color demo (Dev.usb demo) ["2".toList, "color".toList]
        (after (dpi_color demo (Dev.usb demo) ["2".toList, "color".toList, "00fF1a".toList]
          Dev.blank))
      = some ⟨0, "00ff1a\n", (loaded demo (Dev.usb demo)
          (after (dpi_color demo (Dev.usb demo) ["2".toList, "color".toList, "00fF1a".toList]
            Dev.blank))).2.2.2⟩
    ∧ rejected demo (Dev.usb demo) Dev.blank
        (dpi_color demo (Dev.usb demo).logged ["2".toList, "color".toList, "12345".toList]
          (Dev.blank, [])) :=
  ⟨(((dpi_color_set_get demo (Dev.usb demo) Dev.blank (Dev.usb demo)
      (after (dpi_color demo (Dev.usb demo) ["2".toList, "color".toList, "00fF1a".toList]
        Dev.blank))
      "2".toList "color".toList "00fF1a".toList "color".toList [] 2 (by decide) rfl rfl
      (by decide) (by decide) (by decide) (by decide) (by decide)).1
      '0' '0' 'f' 'F' '1' 'a' _ rfl (by decide) rfl).2 (by decide) (by decide)),
   (dpi_color_set_get demo (Dev.usb demo) Dev.blank (Dev.usb demo) Dev.blank
      "2".toList "color".toList "12345".toList "color".toList [] 2 (by decide) rfl rfl
      (by decide) (by decide) (by decide) (by decide) (by decide)).2 (by decide)⟩

/-! ## `angle_correct` (C5) -/

/-- The set form of `angle_correct` after a successful read: the switch on the angle. -/
theorem angle_correct_set_eq {σ : Type} (K : Consts) (W : Usb σ) (t : σ) (a0 : CStr)
    (rest : List CStr) (v : Int) (hread : (loaded K W t).1 = 0) (hv : atoi a0 = some v) :
    angle_correct K W (a0 :: rest) t =
      if v < -2 ∨ 2 < v then some ⟨-2, "", (loaded K W t).2.2.2⟩
      else
        some ⟨(write_settings K W ((loaded K W t).2.1.set K.ANGLE_CORRECT_ADDR
                ([K.ANGLE_CORRECT_NEG2, K.ANGLE_CORRECT_NEG1, K.ANGLE_CORRECT_ZERO,
                  K.ANGLE_CORRECT_POS1, K.ANGLE_CORRECT_POS2].getD (v + 2).toNat 0 % 256))
                (loaded K W t).2.2.1 (loaded K W t).2.2.2).1, "",
              (write_settings K W ((loaded K W t).2.1.set K.ANGLE_CORRECT_ADDR
                ([K.ANGLE_CORRECT_NEG2, K.ANGLE_CORRECT_NEG1, K.ANGLE_CORRECT_ZERO,
                  K.ANGLE_CORRECT_POS1, K.ANGLE_CORRECT_POS2].getD (v + 2).toNat 0 % 256))
                (loaded K W t).2.2.1 (loaded K W t).2.2.2).2⟩ := by
  unfold angle_correct
  have hr : (read_settings K W (uninit K.SECTION_LEN) (uninit K.SECTION_LEN) t) = loaded K W t := rfl
  simp only [hr, hread, hv]
  by_cases hbad : v < -2 ∨ 2 < v
  · rw [if_pos hbad]
    have n1 : v ≠ -2 := by omega
    have n2 : v ≠ -1 := by omega
    have n3 : v ≠ 0 := by omega
    have n4 : v ≠ 1 := by omega
    have n5 : v ≠ 2 := by omega
    simp [n1, n2, n3, n4, n5]
  · rw [if_neg hbad]
    have h1 : -2 ≤ v := by omega
    have h2 : v ≤ 2 := by omega
    interval_cases v <;> simp

/-- The get form of `angle_correct` after a successful read. -/
theorem angle_correct_get_eq {σ : Type} (K : Consts) (W : Usb σ) (t : σ)
    (hread : (loaded K W t).1 = 0) :
    angle_correct K W [] t =
      some ⟨0, angle_correct_text K ((loaded K W t).2.1.getD K.ANGLE_CORRECT_ADDR 0),
        (loaded K W t).2.2.2⟩ := by
  unfold angle_correct
  have hr : (read_settings K W (uninit K.SECTION_LEN) (uninit K.SECTION_LEN) t) = loaded K W t := rfl
  simp only [hr, hread]
  simp

/-- C5. After a successful read of the settings, with five distinct one-byte sentinels:
for `v` in [-2,2], `angle_correct` set hands `write_settings` the settings with the
sentinel of `v` stored at `ANGLE_CORRECT_ADDR`, and `angle_correct` get on a device
returning that section prints `v`; any other integer is rejected with -2 and nothing is
written. -/
theorem angle_correct_set_get {σ τ : Type} (K : Consts) (U : Usb σ) (s : σ) (V : Usb τ) (t : τ)
    (a0 : CStr) (rest : List CStr) (v : Int)
    (hsec : K.SECTION_LEN % 256 ≠ 0)
    (haddr : K.ANGLE_CORRECT_ADDR < K.SECTION_LEN)
    (hbyte : ∀ b ∈ [K.ANGLE_CORRECT_NEG2, K.ANGLE_CORRECT_NEG1, K.ANGLE_CORRECT_ZERO,
      K.ANGLE_CORRECT_POS1, K.ANGLE_CORRECT_POS2], b < 256)
    (hdist : [K.ANGLE_CORRECT_NEG2, K.ANGLE_CORRECT_NEG1, K.ANGLE_CORRECT_ZERO,
      K.ANGLE_CORRECT_POS1, K.ANGLE_CORRECT_POS2].Nodup)
    (hv : atoi a0 = some v) (hread : (loaded K U s).1 = 0) :
    (-2 ≤ v ∧ v ≤ 2 →
      ∀ cfg : List Nat,
        cfg = (loaded K U s).2.1.set K.ANGLE_CORRECT_ADDR
          ([K.ANGLE_CORRECT_NEG2, K.ANGLE_CORRECT_NEG1, K.ANGLE_CORRECT_ZERO,
            K.ANGLE_CORRECT_POS1, K.ANGLE_CORRECT_POS2].getD (v + 2).toNat 0) →
        angle_correct K U (a0 :: rest) s
          = some ⟨(write_settings K U cfg (loaded K U s).2.2.1 (loaded K U s).2.2.2).1, "",
                  (write_settings K U cfg (loaded K U s).2.2.1 (loaded K U s).2.2.2).2⟩
        ∧ ((loaded K V t).1 = 0 → (loaded K V t).2.1 = cfg →
            angle_correct K V [] t = some ⟨0, fmt_d v ++ "\n", (loaded K V t).2.2.2⟩))
    ∧ (v < -2 ∨ 2 < v → rejected K U s (angle_correct K U.logged (a0 :: rest) (s, []))) := by
  have hlen := loaded_settings_length K U s
  have hread2 : (loaded K U.logged (s, [])).1 = 0 := by rw [(loaded_logged K U s).1, hread]
  simp only [List.mem_cons, List.mem_singleton, List.not_mem_nil, or_false, forall_eq_or_imp,
    forall_eq] at hbyte
  simp only [List.nodup_cons, List.mem_cons, List.mem_singleton, List.not_mem_nil, or_false,
    not_or, List.nodup_nil, and_true, not_false_eq_true] at hdist
  obtain ⟨b1, b2, b3, b4, b5⟩ := hbyte
  obtain ⟨⟨d12, d13, d14, d15⟩, ⟨d23, d24, d25⟩, ⟨d34, d35⟩, d45⟩ := hdist
  constructor
  · rintro ⟨h1, h2⟩ cfg hcfg
    have hgood : ¬ (v < -2 ∨ 2 < v) := by omega
    constructor
    · rw [angle_correct_set_eq K U s a0 rest v hread hv, if_neg hgood, hcfg]
      interval_cases v <;> simp [Nat.mod_eq_of_lt, *]
    · intro hV hVcfg
      rw [angle_correct_get_eq K V t hV, hVcfg, hcfg, getD_set_self _ _ _ (by omega)]
      unfold angle_correct_text
      interval_cases v
      · simp; decide
      · simp [Ne.symm d12]; decide
      · simp [Ne.symm d13, Ne.symm d23]; decide
      · simp [Ne.symm d14, Ne.symm d24, Ne.symm d34]; decide
      · simp [Ne.symm d15, Ne.symm d25, Ne.symm d35, Ne.symm d45]; decide
  · intro hbad
    apply rejected_of_eq K U s hsec
    rw [angle_correct_set_eq K U.logged (s, []) a0 rest v hread2 hv, if_pos hbad]

/-- Witness of C5 on the sample device: the angle -1 is stored and read back; 3 is
rejected. -/
theorem angle_correct_set_get_witness :
    angle_correct demo (Dev.usb demo) []
        (after (angle_correct demo (Dev.usb demo) ["-1".toList] Dev.blank))
      = some ⟨0, "-1\n", (loaded demo (Dev.usb demo)
          (after (angle_correct demo (Dev.usb demo) ["-1".toList] Dev.blank))).2.2.2⟩
    ∧ rejected demo (Dev.usb demo) Dev.blank
        (angle_correct demo (Dev.usb demo).logged ["3".toList] (Dev.blank, [])) := by
  have e : fmt_d (-1) ++ "\n" = "-1\n" := by decide
  rw [← e]
  exact ⟨((angle_correct_set_get demo (Dev.usb demo) Dev.blank (Dev.usb demo)
      (after (angle_correct demo (Dev.usb demo) ["-1".toList] Dev.blank))
      "-1".toList [] (-1) (by decide) (by decide) (by decide) (by decide) (by decide)
      (by decide)).1 (by decide) _ rfl).2 (by decide) (by decide),
   (angle_correct_set_get demo (Dev.usb demo) Dev.blank (Dev.usb demo) Dev.blank
      "3".toList [] 3 (by decide) (by decide) (by decide) (by decide) (by decide)
      (by decide)).2 (by decide)⟩

/-! ## `angle_snap` (C6) -/

/-- The set form of `angle_snap` after a successful read. -/
theorem angle_snap_set_eq {σ : Type} (K : Consts) (W : Usb σ) (t : σ) (a0 : CStr)
    (rest : List CStr) (hread : (loaded K W t).1 = 0) :
    angle_snap K W (a0 :: rest) t =
      if is_on_off a0 = false then some ⟨-2, "", (loaded K W t).2.2.2⟩
      else
        some ⟨(write_settings K W ((loaded K W t).2.1.set K.ANGLE_SNAP_ADDR
                ((if MX.on a0 = true then K.ANGLE_SNAP_ENABLED else K.ANGLE_SNAP_DISABLED) % 256))
                (loaded K W t).2.2.1 (loaded K W t).2.2.2).1, "",
              (write_settings K W ((loaded K W t).2.1.set K.ANGLE_SNAP_ADDR
                ((if MX.on a0 = true then K.ANGLE_SNAP_ENABLED else K.ANGLE_SNAP_DISABLED) % 256))
                (loaded K W t).2.2.1 (loaded K W t).2.2.2).2⟩ := by
  unfold angle_snap
  have hr : (read_settings K W (uninit K.SECTION_LEN) (uninit K.SECTION_LEN) t) = loaded K W t := rfl
  simp only [hr, hread]
  by_cases h1 : is_on_off a0 = false
  · simp [h1]
  · by_cases h2 : MX.on a0 = true <;> simp [h1, h2]

/-- C6 (the code departs from the claim). After a successful read of the settings,
`angle_snap` accepts the spelling `ON` and hands `write_settings` the settings with
`ANGLE_SNAP_DISABLED`, not `ANGLE_SNAP_ENABLED`, stored at `ANGLE_SNAP_ADDR`: `is_on_off`
accepts `N` but `on` compares with `n` only. -/
theorem angle_snap_upper_case_on {σ : Type} (K : Consts) (U : Usb σ) (s : σ)
    (rest : List CStr) (hread : (loaded K U s).1 = 0) :
    is_on_off "ON".toList = true
    ∧ angle_snap K U ("ON".toList :: rest) s
      = some ⟨(write_settings K U ((loaded K U s).2.1.set K.ANGLE_SNAP_ADDR
                (K.ANGLE_SNAP_DISABLED % 256)) (loaded K U s).2.2.1 (loaded K U s).2.2.2).1, "",
              (write_settings K U ((loaded K U s).2.1.set K.ANGLE_SNAP_ADDR
                (K.ANGLE_SNAP_DISABLED % 256)) (loaded K U s).2.2.1 (loaded K U s).2.2.2).2⟩ := by
  refine ⟨by decide, ?_⟩
  rw [angle_snap_set_eq K U s _ rest hread,
    if_neg (by decide : ¬ is_on_off "ON".toList = false),
    if_neg (by decide : ¬ MX.on "ON".toList = true)]

/-- Witness of C6 on the sample device: after `angle_snap ON` the get form prints `off`,
after `angle_snap on` it prints `on`. -/
theorem angle_snap_upper_case_on_witness :
    (angle_snap demo (Dev.usb demo) ["ON".toList] Dev.blank
      = some ⟨(write_settings demo (Dev.usb demo)
                ((loaded demo (Dev.usb demo) Dev.blank).2.1.set demo.ANGLE_SNAP_ADDR
                  (demo.ANGLE_SNAP_DISABLED % 256)) (loaded demo (Dev.usb demo) Dev.blank).2.2.1
                (loaded demo (Dev.usb demo) Dev.blank).2.2.2).1, "",
              (write_settings demo (Dev.usb demo)
                ((loaded demo (Dev.usb demo) Dev.blank).2.1.set demo.ANGLE_SNAP_ADDR
                  (demo.ANGLE_SNAP_DISABLED % 256)) (loaded demo (Dev.usb demo) Dev.blank).2.2.1
                (loaded demo (Dev.usb demo) Dev.blank).2.2.2).2⟩)
    ∧ (angle_snap demo (Dev.usb demo) []
        (after (angle_snap demo (Dev.usb demo) ["ON".toList] Dev.blank))).map (·.out)
        = some "off\n"
    ∧ (angle_snap demo (Dev.usb demo) []
        (after (angle_snap demo (Dev.usb demo) ["on".toList] Dev.blank))).map (·.out)
        = some "on\n" :=
  ⟨(angle_snap_upper_case_on demo (Dev.usb demo) Dev.blank [] (by decide)).2, by decide,
    by decide⟩

/-! ## `led_mode`, `led_brightness`, `led_speed` (C7, C8) -/

/-- The set form of `led_mode` after a successful read: the chain of `strcmp` tests. -/
theorem led_mode_set_eq {σ : Type} (K : Consts) (W : Usb σ) (t : σ) (a0 : CStr)
    (rest : List CStr) (hread : (loaded K W t).1 = 0) :
    led_mode K W (a0 :: rest) t =
      if a0 = "off".toList then
        some ⟨(write_settings K W ((loaded K W t).2.1.set K.LED_MODE_ADDR (K.LED_MODE_OFF % 256))
                (loaded K W t).2.2.1 (loaded K W t).2.2.2).1, "",
              (write_settings K W ((loaded K W t).2.1.set K.LED_MODE_ADDR (K.LED_MODE_OFF % 256))
                (loaded K W t).2.2.1 (loaded K W t).2.2.2).2⟩
      else if a0 = "standard".toList then
        some ⟨(write_settings K W (((loaded K W t).2.1.set K.LED_MODE_ADDR
                (K.LED_MODE_STD % 256)).set K.LED_CFG_ADDR (u8 K.LED_BRIGHT_MAX))
                (loaded K W t).2.2.1 (loaded K W t).2.2.2).1, "",
              (write_settings K W (((loaded K W t).2.1.set K.LED_MODE_ADDR
                (K.LED_MODE_STD % 256)).set K.LED_CFG_ADDR (u8 K.LED_BRIGHT_MAX))
                (loaded K W t).2.2.1 (loaded K W t).2.2.2).2⟩
      else if a0 = "breathe".toList then
        some ⟨(write_settings K W (((loaded K W t).2.1.set K.LED_MODE_ADDR
                (K.LED_MODE_BREATHE % 256)).set K.LED_CFG_ADDR (u8 K.LED_SPEED_MIN))
                (loaded K W t).2.2.1 (loaded K W t).2.2.2).1, "",
              (write_settings K W (((loaded K W t).2.1.set K.LED_MODE_ADDR
                (K.LED_MODE_BREATHE % 256)).set K.LED_CFG_ADDR (u8 K.LED_SPEED_MIN))
                (loaded K W t).2.2.1 (loaded K W t).2.2.2).2⟩
      else if a0 = "neon".toList then
        some ⟨(write_settings K W (((loaded K W t).2.1.set K.LED_MODE_ADDR
                (K.LED_MODE_NEON % 256)).set K.LED_CFG_ADDR (u8 K.LED_SPEED_MIN))
                (loaded K W t).2.2.1 (loaded K W t).2.2.2).1, "",
              (write_settings K W (((loaded K W t).2.1.set K.LED_MODE_ADDR
                (K.LED_MODE_NEON % 256)).set K.LED_CFG_ADDR (u8 K.LED_SPEED_MIN))
                (loaded K W t).2.2.1 (loaded K W t).2.2.2).2⟩
      else some ⟨-2, "", (loaded K W t).2.2.2⟩ := by
  unfold led_mode
  have hr : (read_settings K W (uninit K.SECTION_LEN) (uninit K.SECTION_LEN) t) = loaded K W t := rfl
  simp only [hr, hread, ne_eq, not_true_eq_false, ↓reduceIte]
  split_ifs <;> rfl

/-- Unfolding of `led_brightness` after a successful read: the test of the mode, then get or
the range check. -/
theorem led_brightness_eq {σ : Type} (K : Consts) (W : Usb σ) (t : σ) (argv : List CStr)
    (hread : (loaded K W t).1 = 0) :
    led_brightness K W argv t =
      if (loaded K W t).2.1.getD K.LED_MODE_ADDR 0 ≠ K.LED_MODE_STD then
        some ⟨-2, "", (loaded K W t).2.2.2⟩
      else
        match argv with
        | [] => some ⟨0, fmt_d ((loaded K W t).2.1.getD K.LED_CFG_ADDR 0) ++ "\n",
            (loaded K W t).2.2.2⟩
        | a0 :: _ =>
          match atoi a0 with
          | none => none
          | some value =>
            if value < K.LED_BRIGHT_MIN ∨ value > K.LED_BRIGHT_MAX then
              some ⟨-2, "", (loaded K W t).2.2.2⟩
            else
              some ⟨(write_settings K W ((loaded K W t).2.1.set K.LED_CFG_ADDR (u8 value))
                      (loaded K W t).2.2.1 (loaded K W t).2.2.2).1, "",
                    (write_settings K W ((loaded K W t).2.1.set K.LED_CFG_ADDR (u8 value))
                      (loaded K W t).2.2.1 (loaded K W t).2.2.2).2⟩ := by
  unfold led_brightness
  have hr : (read_settings K W (uninit K.SECTION_LEN) (uninit K.SECTION_LEN) t) = loaded K W t := rfl
  simp only [hr, hread, ne_eq, not_true_eq_false, ↓reduceIte]

/-- Unfolding of `led_speed` after a successful read: the test of the mode, then get or the
range check. -/
theorem led_speed_eq {σ : Type} (K : Consts) (W : Usb σ) (t : σ) (argv : List CStr)
    (hread : (loaded K W t).1 = 0) :
    led_speed K W argv t =
      if (loaded K W t).2.1.getD K.LED_MODE_ADDR 0 ≠ K.LED_MODE_NEON
          ∧ (loaded K W t).2.1.getD K.LED_MODE_ADDR 0 ≠ K.LED_MODE_BREATHE then
        some ⟨-2, "", (loaded K W t).2.2.2⟩
      else
        match argv with
        | [] => some ⟨0, fmt_d ((loaded K W t).2.1.getD K.LED_CFG_ADDR 0) ++ "\n",
            (loaded K W t).2.2.2⟩
        | a0 :: _ =>
          match atoi a0 with
          | none => none
          | some value =>
            if value < K.LED_SPEED_MIN ∨ value > K.LED_SPEED_MAX then
              some ⟨-2, "", (loaded K W t).2.2.2⟩
            else
              some ⟨(write_settings K W ((loaded K W t).2.1.set K.LED_CFG_ADDR (u8 value))
                      (loaded K W t).2.2.1 (loaded K W t).2.2.2).1, "",
                    (write_settings K W ((loaded K W t).2.1.set K.LED_CFG_ADDR (u8 value))
                      (loaded K W t).2.2.1 (loaded K W t).2.2.2).2⟩ := by
  unfold led_speed
  have hr : (read_settings K W (uninit K.SECTION_LEN) (uninit K.SECTION_LEN) t) = loaded K W t := rfl
  simp only [hr, hread, ne_eq, not_true_eq_false, ↓reduceIte]

/-- C7. After a successful read of the settings, with the mode byte and the LED
configuration byte at different offsets and one-byte constants: `led_mode standard`
hands `write_settings` the settings with `LED_MODE_STD` as mode and `LED_BRIGHT_MAX` as
configuration byte, and `led_brightness` get on a device returning that section prints
`LED_BRIGHT_MAX`; `breathe` and `neon` store their sentinel and `LED_SPEED_MIN`, and
`led_speed` get then prints `LED_SPEED_MIN`; an argument other than `off`, `standard`,
`breathe`, `neon` is rejected with -2 and nothing is written. -/
theorem led_mode_set_get {σ τ : Type} (K : Consts) (U : Usb σ) (s : σ) (V : Usb τ) (t : τ)
    (a0 : CStr) (rest : List CStr)
    (hsec : K.SECTION_LEN % 256 ≠ 0)
    (hmode : K.LED_MODE_ADDR < K.SECTION_LEN) (hcfga : K.LED_CFG_ADDR < K.SECTION_LEN)
    (hne : K.LED_MODE_ADDR ≠ K.LED_CFG_ADDR)
    (hstd : K.LED_MODE_STD < 256) (hbre : K.LED_MODE_BREATHE < 256)
    (hneo : K.LED_MODE_NEON < 256)
    (hmax : 0 ≤ K.LED_BRIGHT_MAX ∧ K.LED_BRIGHT_MAX < 256)
    (hmin : 0 ≤ K.LED_SPEED_MIN ∧ K.LED_SPEED_MIN < 256)
    (hread : (loaded K U s).1 = 0) :
    (a0 = "standard".toList → ∀ cfg : List Nat,
      cfg = ((loaded K U s).2.1.set K.LED_MODE_ADDR K.LED_MODE_STD).set K.LED_CFG_ADDR
        K.LED_BRIGHT_MAX.toNat →
      led_mode K U (a0 :: rest) s
        = some ⟨(write_settings K U cfg (loaded K U s).2.2.1 (loaded K U s).2.2.2).1, "",
                (write_settings K U cfg (loaded K U s).2.2.1 (loaded K U s).2.2.2).2⟩
      ∧ ((loaded K V t).1 = 0 → (loaded K V t).2.1 = cfg →
          led_brightness K V [] t
            = some ⟨0, fmt_d K.LED_BRIGHT_MAX ++ "\n", (loaded K V t).2.2.2⟩))
    ∧ (∀ mode : Nat, (a0 = "breathe".toList ∧ mode = K.LED_MODE_BREATHE)
          ∨ (a0 = "neon".toList ∧ mode = K.LED_MODE_NEON) →
      ∀ cfg : List Nat,
      cfg = ((loaded K U s).2.1.set K.LED_MODE_ADDR mode).set K.LED_CFG_ADDR
        K.LED_SPEED_MIN.toNat →
      led_mode K U (a0 :: rest) s
        = some ⟨(write_settings K U cfg (loaded K U s).2.2.1 (loaded K U s).2.2.2).1, "",
                (write_settings K U cfg (loaded K U s).2.2.1 (loaded K U s).2.2.2).2⟩
      ∧ ((loaded K V t).1 = 0 → (loaded K V t).2.1 = cfg →
          led_speed K V [] t
            = some ⟨0, fmt_d K.LED_SPEED_MIN ++ "\n", (loaded K V t).2.2.2⟩))
    ∧ (a0 ∉ ["off".toList, "standard".toList, "breathe".toList, "neon".toList] →
        rejected K U s (led_mode K U.logged (a0 :: rest) (s, []))) := by
  have hlen := loaded_settings_length K U s
  have hread2 : (loaded K U.logged (s, [])).1 = 0 := by rw [(loaded_logged K U s).1, hread]
  have umax : u8 K.LED_BRIGHT_MAX = K.LED_BRIGHT_MAX.toNat := by unfold u8; omega
  have umin : u8 K.LED_SPEED_MIN = K.LED_SPEED_MIN.toNat := by unfold u8; omega
  have cmax : ((K.LED_BRIGHT_MAX.toNat : Nat) : Int) = K.LED_BRIGHT_MAX := by omega
  have cmin : ((K.LED_SPEED_MIN.toNat : Nat) : Int) = K.LED_SPEED_MIN := by omega
  refine ⟨?_, ?_, ?_⟩
  · intro ha cfg hcfg
    subst ha
    constructor
    · rw [led_mode_set_eq K U s _ rest hread, if_neg (by decide), if_pos rfl,
        Nat.mod_eq_of_lt hstd, umax, hcfg]
    · intro hV hVcfg
      rw [led_brightness_eq K V t [] hV, hVcfg, hcfg, getD_set_ne _ _ _ _ (Ne.symm hne),
        getD_set_self _ _ _ (by omega), if_neg (by simp), getD_set_self _ _ _ (by simp; omega),
        cmax]
  · rintro mode (⟨ha, hm⟩ | ⟨ha, hm⟩) cfg hcfg <;> subst ha <;> subst hm
    · constructor
      · rw [led_mode_set_eq K U s _ rest hread, if_neg (by decide), if_neg (by decide),
          if_pos rfl, Nat.mod_eq_of_lt hbre, umin, hcfg]
      · intro hV hVcfg
        rw [led_speed_eq K V t [] hV, hVcfg, hcfg, getD_set_ne _ _ _ _ (Ne.symm hne),
          getD_set_self _ _ _ (by omega), if_neg (by simp),
          getD_set_self _ _ _ (by simp; omega), cmin]
    · constructor
      · rw [led_mode_set_eq K U s _ rest hread, if_neg (by decide), if_neg (by decide),
          if_neg (by decide), if_pos rfl, Nat.mod_eq_of_lt hneo, umin, hcfg]
      · intro hV hVcfg
        rw [led_speed_eq K V t [] hV, hVcfg, hcfg, getD_set_ne _ _ _ _ (Ne.symm hne),
          getD_set_self _ _ _ (by omega), if_neg (by simp),
          getD_set_self _ _ _ (by simp; omega), cmin]
  · intro hbad
    simp only [List.mem_cons, List.mem_singleton, List.not_mem_nil, or_false, not_or] at hbad
    apply rejected_of_eq K U s hsec
    rw [led_mode_set_eq K U.logged (s, []) a0 rest hread2, if_neg hbad.1, if_neg hbad.2.1,
      if_neg hbad.2.2.1, if_neg hbad.2.2.2]

/-- Witness of C7 on the sample device: after `led_mode standard` the brightness reads
10, the sample maximum; after `led_mode neon` the speed reads 0, the sample minimum;
`led_mode blink` is rejected. -/
theorem led_mode_set_get_witness :
    led_brightness demo (Dev.usb demo) []
        (after (led_mode demo (Dev.usb demo) ["standard".toList] Dev.blank))
      = some ⟨0, fmt_d demo.LED_BRIGHT_MAX ++ "\n", (loaded demo (Dev.usb demo)
          (after (led_mode demo (Dev.usb demo) ["standard".toList] Dev.blank))).2.2.2⟩
    ∧ led_speed demo (Dev.usb demo) []
        (after (led_mode demo (Dev.usb demo) ["neon".toList] Dev.blank))
      = some ⟨0, fmt_d demo.LED_SPEED_MIN ++ "\n", (loaded demo (Dev.usb demo)
          (after (led_mode demo (Dev.usb demo) ["neon".toList] Dev.blank))).2.2.2⟩
    ∧ rejected demo (Dev.usb demo) Dev.blank
        (led_mode demo (Dev.usb demo).logged ["blink".toList] (Dev.blank, [])) :=
  ⟨((led_mode_set_get demo (Dev.usb demo) Dev.blank (Dev.usb demo)
      (after (led_mode demo (Dev.usb demo) ["standard".toList] Dev.blank))
      "standard".toList [] (by decide) (by decide) (by decide) (by decide) (by decide)
      (by decide) (by decide) (by decide) (by decide) (by decide)).1 rfl _ rfl).2
      (by decide) (by decide),
   ((led_mode_set_get demo (Dev.usb demo) Dev.blank (Dev.usb demo)
      (after (led_mode demo (Dev.usb demo) ["neon".toList] Dev.blank))
      "neon".toList [] (by decide) (by decide) (by decide) (by decide) (by decide)
      (by decide) (by decide) (by decide) (by decide) (by decide)).2.1 _
      (Or.inr ⟨rfl, rfl⟩) _ rfl).2 (by decide) (by decide),
   (led_mode_set_get demo (Dev.usb demo) Dev.blank (Dev.usb demo) Dev.blank
      "blink".toList [] (by decide) (by decide) (by decide) (by decide) (by decide)
      (by decide) (by decide) (by decide) (by decide) (by decide)).2.2 (by decide)⟩

/-- A run that ended in `write_settings` is no rejection. -/
theorem not_rejected_write {σ : Type} (K : Consts) (U : Usb σ) (s : σ) (cfg btn : List Nat)
    (st : σ × List Call) :
    ¬ rejected K U s (some ⟨(write_settings K U.logged cfg btn st).1, "",
        (write_settings K U.logged cfg btn st).2⟩) := by
  rintro ⟨r, hr, _, _, hnw, _⟩
  cases hr
  exact not_no_write_write_settings K U _ _ _ hnw

/-- C8. After a successful read of the settings: if the LED mode byte is not
`LED_MODE_STD`, `led_brightness` is rejected with -2 and writes nothing whatever its
arguments; if it is neither `LED_MODE_BREATHE` nor `LED_MODE_NEON`, so is `led_speed`;
when the mode test passes, a set with value `v` is rejected exactly when `v` lies outside
[MIN,MAX] of the setting, and otherwise goes on to `write_settings` with `v` stored in
the LED configuration byte. -/
theorem led_mode_guard {σ : Type} (K : Consts) (U : Usb σ) (s : σ) (argv : List CStr)
    (a0 : CStr) (rest : List CStr) (v : Int)
    (hsec : K.SECTION_LEN % 256 ≠ 0)
    (hv : atoi a0 = some v) (hread : (loaded K U s).1 = 0) :
    ((loaded K U s).2.1.getD K.LED_MODE_ADDR 0 ≠ K.LED_MODE_STD →
      rejected K U s (led_brightness K U.logged argv (s, [])))
    ∧ ((loaded K U s).2.1.getD K.LED_MODE_ADDR 0 ≠ K.LED_MODE_BREATHE
        ∧ (loaded K U s).2.1.getD K.LED_MODE_ADDR 0 ≠ K.LED_MODE_NEON →
      rejected K U s (led_speed K U.logged argv (s, [])))
    ∧ ((loaded K U s).2.1.getD K.LED_MODE_ADDR 0 = K.LED_MODE_STD →
      (rejected K U s (led_brightness K U.logged (a0 :: rest) (s, []))
        ↔ (v < K.LED_BRIGHT_MIN ∨ K.LED_BRIGHT_MAX < v))
      ∧ (K.LED_BRIGHT_MIN ≤ v ∧ v ≤ K.LED_BRIGHT_MAX →
        led_brightness K U (a0 :: rest) s
          = some ⟨(write_settings K U ((loaded K U s).2.1.set K.LED_CFG_ADDR (u8 v))
                    (loaded K U s).2.2.1 (loaded K U s).2.2.2).1, "",
                  (write_settings K U ((loaded K U s).2.1.set K.LED_CFG_ADDR (u8 v))
                    (loaded K U s).2.2.1 (loaded K U s).2.2.2).2⟩))
    ∧ ((loaded K U s).2.1.getD K.LED_MODE_ADDR 0 = K.LED_MODE_BREATHE
        ∨ (loaded K U s).2.1.getD K.LED_MODE_ADDR 0 = K.LED_MODE_NEON →
      (rejected K U s (led_speed K U.logged (a0 :: rest) (s, []))
        ↔ (v < K.LED_SPEED_MIN ∨ K.LED_SPEED_MAX < v))
      ∧ (K.LED_SPEED_MIN ≤ v ∧ v ≤ K.LED_SPEED_MAX →
        led_speed K U (a0 :: rest) s
          = some ⟨(write_settings K U ((loaded K U s).2.1.set K.LED_CFG_ADDR (u8 v))
                    (loaded K U s).2.2.1 (loaded K U s).2.2.2).1, "",
                  (write_settings K U ((loaded K U s).2.1.set K.LED_CFG_ADDR (u8 v))
                    (loaded K U s).2.2.1 (loaded K U s).2.2.2).2⟩)) := by
  obtain ⟨l1, l2, _, _, _⟩ := loaded_logged K U s
  have hread2 : (loaded K U.logged (s, [])).1 = 0 := by rw [l1, hread]
  refine ⟨?_, ?_, ?_, ?_⟩
  · intro hm
    apply rejected_of_eq K U s hsec
    rw [led_brightness_eq K U.logged (s, []) argv hread2, l2, if_pos hm]
  · intro hm
    apply rejected_of_eq K U s hsec
    rw [led_speed_eq K U.logged (s, []) argv hread2, l2, if_pos ⟨hm.2, hm.1⟩]
  · intro hm
    constructor
    · rw [led_brightness_eq K U.logged (s, []) (a0 :: rest) hread2, l2,
        if_neg (not_not.mpr hm)]
      simp only [hv]
      by_cases hbad : v < K.LED_BRIGHT_MIN ∨ v > K.LED_BRIGHT_MAX
      · rw [if_pos hbad]
        exact ⟨fun _ => hbad, fun _ => rejected_of_eq K U s hsec _ rfl⟩
      · rw [if_neg hbad]
        exact ⟨fun h => absurd h (not_rejected_write K U s _ _ _), fun h => absurd h hbad⟩
    · intro hin
      rw [led_brightness_eq K U s (a0 :: rest) hread, if_neg (not_not.mpr hm)]
      simp only [hv]
      rw [if_neg (by omega)]
  · intro hm
    have hmode : ¬ ((loaded K U s).2.1.getD K.LED_MODE_ADDR 0 ≠ K.LED_MODE_NEON
        ∧ (loaded K U s).2.1.getD K.LED_MODE_ADDR 0 ≠ K.LED_MODE_BREATHE) := by tauto
    constructor
    · rw [led_speed_eq K U.logged (s, []) (a0 :: rest) hread2, l2, if_neg hmode]
      simp only [hv]
      by_cases hbad : v < K.LED_SPEED_MIN ∨ v > K.LED_SPEED_MAX
      · rw [if_pos hbad]
        exact ⟨fun _ => hbad, fun _ => rejected_of_eq K U s hsec _ rfl⟩
      · rw [if_neg hbad]
        exact ⟨fun h => absurd h (not_rejected_write K U s _ _ _), fun h => absurd h hbad⟩
    · intro hin
      rw [led_speed_eq K U s (a0 :: rest) hread, if_neg hmode]
      simp only [hv]
      rw [if_neg (by omega)]

/-- Witness of C8 on the sample device: with mode byte 0 (off) `led_brightness 5` and
`led_speed` are rejected. -/
theorem led_mode_guard_witness :
    rejected demo (Dev.usb demo) Dev.blank
      (led_brightness demo (Dev.usb demo).logged ["5".toList] (Dev.blank, []))
    ∧ rejected demo (Dev.usb demo) Dev.blank
      (led_speed demo (Dev.usb demo).logged ["5".toList] (Dev.blank, [])) :=
  ⟨(led_mode_guard demo (Dev.usb demo) Dev.blank ["5".toList] "5".toList [] 5 (by decide)
      (by decide) (by decide)).1 (by decide),
   (led_mode_guard demo (Dev.usb demo) Dev.blank ["5".toList] "5".toList [] 5 (by decide)
      (by decide) (by decide)).2.1 (by decide)⟩

/-! ## `sensitivity` (C9) -/

/-- The get form of `sensitivity` after a successful read, for an argument naming an
axis and a non-zero step. -/
theorem sensitivity_get_eq {σ : Type} (K : Consts) (W : Usb σ) (t : σ) (a0 : CStr)
    (addr : Nat) (hread : (loaded K W t).1 = 0)
    (haddr : sensitivity_addr K a0 = some addr) (hstep : K.SENSITIVITY_STEP ≠ 0) :
    sensitivity K W [a0] t =
      some ⟨0, fmt_d (Int.tdiv ((loaded K W t).2.1.getD addr 0) K.SENSITIVITY_STEP) ++ "\n",
        (loaded K W t).2.2.2⟩ := by
  unfold sensitivity
  have hr : (read_settings K W (uninit K.SECTION_LEN) (uninit K.SECTION_LEN) t) = loaded K W t := rfl
  simp only [hr, hread, haddr, hstep, ne_eq, not_true_eq_false, ↓reduceIte]

/-- The set form of `sensitivity` after a successful read, for an argument naming an
axis: the range check, then `write_settings` with the scaled value stored. -/
theorem sensitivity_set_eq {σ : Type} (K : Consts) (W : Usb σ) (t : σ) (a0 a1 : CStr)
    (rest : List CStr) (addr : Nat) (v : Int) (hread : (loaded K W t).1 = 0)
    (haddr : sensitivity_addr K a0 = some addr) (hv : atoi a1 = some v) :
    sensitivity K W (a0 :: a1 :: rest) t =
      if v < K.SENSITIVITY_MIN ∨ v > K.SENSITIVITY_MAX then
        some ⟨-2, "", (loaded K W t).2.2.2⟩
      else
        some ⟨(write_settings K W ((loaded K W t).2.1.set addr (u8 (v * K.SENSITIVITY_STEP)))
                (loaded K W t).2.2.1 (loaded K W t).2.2.2).1, "",
              (write_settings K W ((loaded K W t).2.1.set addr (u8 (v * K.SENSITIVITY_STEP)))
                (loaded K W t).2.2.1 (loaded K W t).2.2.2).2⟩ := by
  unfold sensitivity
  have hr : (read_settings K W (uninit K.SECTION_LEN) (uninit K.SECTION_LEN) t) = loaded K W t := rfl
  simp only [hr, hread, haddr, hv, ne_eq, not_true_eq_false, ↓reduceIte]

theorem fmt_d_small_ne_800 :
    ∀ m < 256, fmt_d (m : Nat) ++ "\n" ≠ "800\n" ∧ fmt_d (-(m : Nat)) ++ "\n" ≠ "800\n" := by
  set_option maxRecDepth 100000 in decide

/-- What `sensitivity` prints is never 800: the get form prints a byte divided by the
step, at most 255 in absolute value, and the other exits print nothing. -/
theorem sensitivity_out_ne_800 {σ : Type} (K : Consts) (U : Usb σ) (s : σ) (a0 : CStr)
    (r : Ret σ) (h : sensitivity K U [a0] s = some r) : r.out ≠ "800\n" := by
  have hr : (read_settings K U (uninit K.SECTION_LEN) (uninit K.SECTION_LEN) s) = loaded K U s := rfl
  by_cases hread : (loaded K U s).1 = 0
  · cases haddr : sensitivity_addr K a0 with
    | none =>
      unfold sensitivity at h
      simp only [hr, hread, haddr, ne_eq, not_true_eq_false, ↓reduceIte, Option.some.injEq] at h
      subst h
      show "" ≠ "800\n"
      decide
    | some addr =>
      by_cases hstep : K.SENSITIVITY_STEP = 0
      · unfold sensitivity at h
        simp [hr, hread, haddr, hstep] at h
      · rw [sensitivity_get_eq K U s a0 addr hread haddr hstep, Option.some.injEq] at h
        subst h
        have hb := loaded_settings_lt K U s addr
        generalize (loaded K U s).2.1.getD addr 0 = b at hb
        have habs : (Int.tdiv (b : Int) K.SENSITIVITY_STEP).natAbs < 256 := by
          rw [Int.natAbs_tdiv]
          exact lt_of_le_of_lt (Nat.div_le_self _ _) (by simpa using hb)
        rcases Int.natAbs_eq (Int.tdiv (b : Int) K.SENSITIVITY_STEP) with e | e
        · show fmt_d _ ++ "\n" ≠ "800\n"
          rw [e]; exact (fmt_d_small_ne_800 _ habs).1
        · show fmt_d _ ++ "\n" ≠ "800\n"
          rw [e]; exact (fmt_d_small_ne_800 _ habs).2
  · unfold sensitivity at h
    simp only [hr, ne_eq, hread, not_false_eq_true, ↓reduceIte, Option.some.injEq] at h
    subst h
    show "" ≠ "800\n"
    decide

/-- C9 as stated fails: whatever the header `K` and the state of the device, the
scenario `sensitivity x 800` followed by `sensitivity x` does not print 800. -/
theorem sensitivity_800_counterexample :
    ¬ ∃ (K : Consts) (d : Dev) (r1 r2 : Ret Dev),
        sensitivity K (Dev.usb K) ["x".toList, "800".toList] d = some r1
        ∧ sensitivity K (Dev.usb K) ["x".toList] r1.dev = some r2
        ∧ r2.out = "800\n" := by
  rintro ⟨K, d, r1, r2, _, h2, h3⟩
  exact sensitivity_out_ne_800 K (Dev.usb K) r1.dev _ r2 h2 h3

/-- C9 (amended). After a successful read of the settings, for the axis named by
`x`/`X` or `y`/`Y` and an integer `v` in [SENSITIVITY_MIN, SENSITIVITY_MAX]:
`sensitivity` set hands `write_settings` the settings with the byte
`(v*SENSITIVITY_STEP) mod 256` stored at the offset of that axis, the byte of the other
axis unchanged; `sensitivity` get for the axis on a device returning that section prints
the stored byte divided by `SENSITIVITY_STEP`, which is `v` whenever
`0 ≤ v*SENSITIVITY_STEP ≤ 255`. -/
theorem sensitivity_set_get {σ τ : Type} (K : Consts) (U : Usb σ) (s : σ) (V : Usb τ) (t : τ)
    (a0 a1 : CStr) (rest : List CStr) (v : Int) (addr other : Nat) (cfg : List Nat)
    (hx : K.SENSITIVITY_X_ADDR < K.SECTION_LEN) (hy : K.SENSITIVITY_Y_ADDR < K.SECTION_LEN)
    (hxy : K.SENSITIVITY_X_ADDR ≠ K.SENSITIVITY_Y_ADDR)
    (hstep : K.SENSITIVITY_STEP ≠ 0)
    (haxis : (a0 ∈ ["x".toList, "X".toList] ∧ addr = K.SENSITIVITY_X_ADDR
          ∧ other = K.SENSITIVITY_Y_ADDR)
        ∨ (a0 ∈ ["y".toList, "Y".toList] ∧ addr = K.SENSITIVITY_Y_ADDR
          ∧ other = K.SENSITIVITY_X_ADDR))
    (hv : atoi a1 = some v) (hmin : K.SENSITIVITY_MIN ≤ v) (hmax : v ≤ K.SENSITIVITY_MAX)
    (hread : (loaded K U s).1 = 0)
    (hcfg : cfg = (loaded K U s).2.1.set addr ((v * K.SENSITIVITY_STEP) % 256).toNat) :
    sensitivity K U (a0 :: a1 :: rest) s
        = some ⟨(write_settings K U cfg (loaded K U s).2.2.1 (loaded K U s).2.2.2).1, "",
                (write_settings K U cfg (loaded K U s).2.2.1 (loaded K U s).2.2.2).2⟩
    ∧ cfg.getD other 0 = (loaded K U s).2.1.getD other 0
    ∧ ((loaded K V t).1 = 0 → (loaded K V t).2.1 = cfg →
        sensitivity K V [a0] t
          = some ⟨0, fmt_d (Int.tdiv (((v * K.SENSITIVITY_STEP) % 256).toNat : Int)
              K.SENSITIVITY_STEP) ++ "\n", (loaded K V t).2.2.2⟩
        ∧ (0 ≤ v * K.SENSITIVITY_STEP ∧ v * K.SENSITIVITY_STEP ≤ 255 →
            sensitivity K V [a0] t = some ⟨0, fmt_d v ++ "\n", (loaded K V t).2.2.2⟩)) := by
  have hlen := loaded_settings_length K U s
  have haddr : sensitivity_addr K a0 = some addr ∧ addr < K.SECTION_LEN ∧ addr ≠ other := by
    rcases haxis with ⟨ha, h1, h2⟩ | ⟨ha, h1, h2⟩ <;>
      simp only [List.mem_cons, List.mem_singleton, List.not_mem_nil, or_false] at ha <;>
      rcases ha with ha | ha <;> subst ha <;> subst h1 <;> subst h2
    · exact ⟨by unfold sensitivity_addr; rw [if_pos (by decide)], hx, hxy⟩
    · exact ⟨by unfold sensitivity_addr; rw [if_pos (by decide)], hx, hxy⟩
    · exact ⟨by unfold sensitivity_addr; rw [if_neg (by decide), if_pos (by decide)], hy,
        Ne.symm hxy⟩
    · exact ⟨by unfold sensitivity_addr; rw [if_neg (by decide), if_pos (by decide)], hy,
        Ne.symm hxy⟩
  obtain ⟨ha, hlt, hne⟩ := haddr
  refine ⟨?_, ?_, ?_⟩
  · rw [sensitivity_set_eq K U s a0 a1 rest addr v hread ha hv, if_neg (by omega), hcfg]
    rfl
  · rw [hcfg, getD_set_ne _ _ _ _ hne]
  · intro hV hVcfg
    have hget : sensitivity K V [a0] t
        = some ⟨0, fmt_d (Int.tdiv (((v * K.SENSITIVITY_STEP) % 256).toNat : Int)
            K.SENSITIVITY_STEP) ++ "\n", (loaded K V t).2.2.2⟩ := by
      rw [sensitivity_get_eq K V t a0 addr hV ha hstep, hVcfg, hcfg,
        getD_set_self _ _ _ (by omega)]
    refine ⟨hget, ?_⟩
    rintro ⟨h0, h255⟩
    have e : (((v * K.SENSITIVITY_STEP) % 256).toNat : Int) = v * K.SENSITIVITY_STEP := by
      omega
    rw [hget, e, Int.mul_tdiv_cancel _ hstep]

/-- Witness of C9 (amended) on the sample device, whose step is 25: `sensitivity x 8`
stores 200 and `sensitivity x` then prints 8. -/
theorem sensitivity_set_get_witness :
    sensitivity demo (Dev.usb demo) ["x".toList]
        (after (sensitivity demo (Dev.usb demo) ["x".toList, "8".toList] Dev.blank))
      = some ⟨0, fmt_d 8 ++ "\n", (loaded demo (Dev.usb demo)
          (after (sensitivity demo (Dev.usb demo) ["x".toList, "8".toList] Dev.blank))).2.2.2⟩ :=
  ((sensitivity_set_get demo (Dev.usb demo) Dev.blank (Dev.usb demo)
      (after (sensitivity demo (Dev.usb demo) ["x".toList, "8".toList] Dev.blank))
      "x".toList "8".toList [] 8 demo.SENSITIVITY_X_ADDR demo.SENSITIVITY_Y_ADDR _
      (by decide) (by decide) (by decide) (by decide) (Or.inl ⟨by decide, rfl, rfl⟩)
      (by decide) (by decide) (by decide) (by decide) rfl).2.2 (by decide) (by decide)).2
    (by decide)

/-! ## Rejected setters write nothing (C10) -/

/-- A rejection of the profile number by `dpi_color`. -/
theorem dpi_color_profile_eq {σ : Type} (K : Consts) (W : Usb σ) (t : σ) (a0 : CStr)
    (more : List CStr) (p : Int) (hread : (loaded K W t).1 = 0) (hp : atoi a0 = some p)
    (hbad : p < K.DPI_PROFILE_MIN ∨ p > K.DPI_PROFILE_MAX) :
    dpi_color K W (a0 :: more) t = some ⟨-2, "", (loaded K W t).2.2.2⟩ := by
  unfold dpi_color
  have hr : (read_settings K W (uninit K.SECTION_LEN) (uninit K.SECTION_LEN) t) = loaded K W t := rfl
  simp only [hr, hread, hp, hbad]
  simp

/-- A rejection of the profile number by `dpi_value`. -/
theorem dpi_value_profile_eq {σ : Type} (K : Consts) (W : Usb σ) (t : σ) (a0 : CStr)
    (more : List CStr) (p : Int) (hread : (loaded K W t).1 = 0) (hp : atoi a0 = some p)
    (hbad : p < K.DPI_PROFILE_MIN ∨ p > K.DPI_PROFILE_MAX) :
    dpi_value K W (a0 :: more) t = some ⟨-2, "", (loaded K W t).2.2.2⟩ := by
  unfold dpi_value
  have hr : (read_settings K W (uninit K.SECTION_LEN) (uninit K.SECTION_LEN) t) = loaded K W t := rfl
  simp only [hr, hread, hp, hbad]
  simp

/-- `sensitivity` without an argument, or with a first argument that names no axis,
returns -2 after the read. -/
theorem sensitivity_axis_eq {σ : Type} (K : Consts) (W : Usb σ) (t : σ) (argv : List CStr)
    (hread : (loaded K W t).1 = 0)
    (hbad : argv = [] ∨ ∃ a0 rest, argv = a0 :: rest ∧ sensitivity_addr K a0 = none) :
    sensitivity K W argv t = some ⟨-2, "", (loaded K W t).2.2.2⟩ := by
  unfold sensitivity
  have hr : (read_settings K W (uninit K.SECTION_LEN) (uninit K.SECTION_LEN) t) = loaded K W t := rfl
  rcases hbad with e | ⟨a0, rest, e, ha⟩ <;> subst e
  · simp only [hr, hread]; simp
  · simp only [hr, hread, ha]; simp

/-- `sensitivity` with a value outside the range returns -2 after the read, whatever
the first argument. -/
theorem sensitivity_range_eq {σ : Type} (K : Consts) (W : Usb σ) (t : σ) (a0 a1 : CStr)
    (rest : List CStr) (v : Int) (hread : (loaded K W t).1 = 0) (hv : atoi a1 = some v)
    (hbad : v < K.SENSITIVITY_MIN ∨ v > K.SENSITIVITY_MAX) :
    sensitivity K W (a0 :: a1 :: rest) t = some ⟨-2, "", (loaded K W t).2.2.2⟩ := by
  cases ha : sensitivity_addr K a0 with
  | none => exact sensitivity_axis_eq K W t _ hread (Or.inr ⟨a0, _, rfl, ha⟩)
  | some addr => rw [sensitivity_set_eq K W t a0 a1 rest addr v hread ha hv, if_pos hbad]

/-- C10. After a successful read of the settings, every rejection by a setter's
validation is a return of -2 with no write frame and no data-send transfer among the
calls made and the device left as `read_settings` left it: `angle_snap` with an argument
`is_on_off` refuses; `angle_correct` outside [-2,2]; `led_mode` with an unknown name;
`led_brightness` and `led_speed` with a mode byte that fails their mode test or a value
outside their range; `sensitivity` without argument, with no axis name, or with a value
outside its range; `dpi_enable`, `dpi_color`, `dpi_value` with a profile outside the
profile range; `dpi_color` with a string `valid_hex` refuses; `dpi_value` with a value
outside its range or no multiple of 100. -/
theorem rejected_setter_writes_nothing {σ : Type} (K : Consts) (U : Usb σ) (s : σ)
    (hsec : K.SECTION_LEN % 256 ≠ 0) (hread : (loaded K U s).1 = 0) :
    (∀ a0 rest, is_on_off a0 = false →
      rejected K U s (angle_snap K U.logged (a0 :: rest) (s, [])))
    ∧ (∀ a0 rest v, atoi a0 = some v → v < -2 ∨ 2 < v →
      rejected K U s (angle_correct K U.logged (a0 :: rest) (s, [])))
    ∧ (∀ a0 rest, a0 ∉ ["off".toList, "standard".toList, "breathe".toList, "neon".toList] →
      rejected K U s (led_mode K U.logged (a0 :: rest) (s, [])))
    ∧ (∀ argv, (loaded K U s).2.1.getD K.LED_MODE_ADDR 0 ≠ K.LED_MODE_STD →
      rejected K U s (led_brightness K U.logged argv (s, [])))
    ∧ (∀ a0 rest v, atoi a0 = some v → v < K.LED_BRIGHT_MIN ∨ K.LED_BRIGHT_MAX < v →
      rejected K U s (led_brightness K U.logged (a0 :: rest) (s, [])))
    ∧ (∀ argv, (loaded K U s).2.1.getD K.LED_MODE_ADDR 0 ≠ K.LED_MODE_NEON
        ∧ (loaded K U s).2.1.getD K.LED_MODE_ADDR 0 ≠ K.LED_MODE_BREATHE →
      rejected K U s (led_speed K U.logged argv (s, [])))
    ∧ (∀ a0 rest v, atoi a0 = some v → v < K.LED_SPEED_MIN ∨ K.LED_SPEED_MAX < v →
      rejected K U s (led_speed K U.logged (a0 :: rest) (s, [])))
    ∧ rejected K U s (sensitivity K U.logged [] (s, []))
    ∧ (∀ a0 rest, sensitivity_addr K a0 = none →
      rejected K U s (sensitivity K U.logged (a0 :: rest) (s, [])))
    ∧ (∀ a0 a1 rest v, atoi a1 = some v → v < K.SENSITIVITY_MIN ∨ K.SENSITIVITY_MAX < v →
      rejected K U s (sensitivity K U.logged (a0 :: a1 :: rest) (s, [])))
    ∧ (∀ a0 rest p, atoi a0 = some p → p < K.DPI_PROFILE_MIN ∨ K.DPI_PROFILE_MAX < p →
      rejected K U s (dpi_enable K U.logged (a0 :: rest) (s, []))
      ∧ rejected K U s (dpi_color K U.logged (a0 :: rest) (s, []))
      ∧ rejected K U s (dpi_value K U.logged (a0 :: rest) (s, [])))
    ∧ (∀ a0 a1 a2 rest p, atoi a0 = some p → K.DPI_PROFILE_MIN ≤ p ∧ p ≤ K.DPI_PROFILE_MAX →
      valid_hex a2 = false →
      rejected K U s (dpi_color K U.logged (a0 :: a1 :: a2 :: rest) (s, [])))
    ∧ (∀ a0 a1 a2 rest p v, atoi a0 = some p → K.DPI_PROFILE_MIN ≤ p ∧ p ≤ K.DPI_PROFILE_MAX →
      atoi a2 = some v → v < K.DPI_VALUE_MIN ∨ K.DPI_VALUE_MAX < v ∨ Int.tmod v 100 ≠ 0 →
      rejected K U s (dpi_value K U.logged (a0 :: a1 :: a2 :: rest) (s, []))) := by
  obtain ⟨l1, l2, _, _, _⟩ := loaded_logged K U s
  have hread2 : (loaded K U.logged (s, [])).1 = 0 := by rw [l1, hread]
  have rej := rejected_of_eq K U s hsec
  refine ⟨?_, ?_, ?_, ?_, ?_, ?_, ?_, ?_, ?_, ?_, ?_, ?_, ?_⟩
  · intro a0 rest h
    apply rej
    rw [angle_snap_set_eq K U.logged (s, []) a0 rest hread2, if_pos h]
  · intro a0 rest v hv h
    apply rej
    rw [angle_correct_set_eq K U.logged (s, []) a0 rest v hread2 hv, if_pos h]
  · intro a0 rest h
    simp only [List.mem_cons, List.mem_singleton, List.not_mem_nil, or_false, not_or] at h
    apply rej
    rw [led_mode_set_eq K U.logged (s, []) a0 rest hread2, if_neg h.1, if_neg h.2.1,
      if_neg h.2.2.1, if_neg h.2.2.2]
  · intro argv h
    apply rej
    rw [led_brightness_eq K U.logged (s, []) argv hread2, l2, if_pos h]
  · intro a0 rest v hv h
    apply rej
    rw [led_brightness_eq K U.logged (s, []) (a0 :: rest) hread2]
    simp only [hv]
    split_ifs <;> rfl
  · intro argv h
    apply rej
    rw [led_speed_eq K U.logged (s, []) argv hread2, l2, if_pos h]
  · intro a0 rest v hv h
    apply rej
    rw [led_speed_eq K U.logged (s, []) (a0 :: rest) hread2]
    simp only [hv]
    split_ifs <;> rfl
  · exact rej _ (sensitivity_axis_eq K U.logged (s, []) [] hread2 (Or.inl rfl))
  · intro a0 rest h
    exact rej _ (sensitivity_axis_eq K U.logged (s, []) _ hread2 (Or.inr ⟨a0, rest, rfl, h⟩))
  · intro a0 a1 rest v hv h
    exact rej _ (sensitivity_range_eq K U.logged (s, []) a0 a1 rest v hread2 hv (by omega))
  · intro a0 rest p hp h
    exact ⟨rej _ (dpi_enable_profile_eq K U.logged (s, []) a0 rest p hread2 hp (by omega)),
      rej _ (dpi_color_profile_eq K U.logged (s, []) a0 rest p hread2 hp (by omega)),
      rej _ (dpi_value_profile_eq K U.logged (s, []) a0 rest p hread2 hp (by omega))⟩
  · intro a0 a1 a2 rest p hp hpr h
    apply rej
    rw [dpi_color_set_eq K U.logged (s, []) a0 a1 a2 rest p hread2 hp hpr, if_pos (Or.inl h)]
  · intro a0 a1 a2 rest p v hp hpr hv h
    apply rej
    rw [dpi_value_set_eq K U.logged (s, []) a0 a1 a2 rest p v hread2 hp hpr hv,
      if_pos (by omega)]

/-- Witness of C10 on the sample device: `angle_snap maybe` and `sensitivity z 5` are
rejected without a write. -/
theorem rejected_setter_writes_nothing_witness :
    rejected demo (Dev.usb demo) Dev.blank
      (angle_snap demo (Dev.usb demo).logged ["maybe".toList] (Dev.blank, []))
    ∧ rejected demo (Dev.usb demo) Dev.blank
      (sensitivity demo (Dev.usb demo).logged ["z".toList, "5".toList] (Dev.blank, [])) :=
  ⟨(rejected_setter_writes_nothing demo (Dev.usb demo) Dev.blank (by decide) (by decide)).1
      _ _ (by decide),
   (rejected_setter_writes_nothing demo (Dev.usb demo) Dev.blank (by decide)
      (by decide)).2.2.2.2.2.2.2.2.1 _ _ (by decide)⟩

/-! ## `read_section` and `write_section` (C13, C14, C18, C19) -/

/-- C13 (the code departs from the claim). When the control send and the control read
succeed, `read_section` returns the status of the second data read, whatever the first
data read reported: a failed first data read followed by a successful second one is
returned as 0. -/
theorem read_section_drops_first_data_status {σ : Type} (K : Consts) (U : Usb σ) (addr : Nat)
    (buf : List Nat) (off : Nat) (s : σ)
    (h1 : (U.send_ctl (read_cmd K addr) s).1 = 0)
    (h2 : (U.read_ctl (U.send_ctl (read_cmd K addr) s).2).1 = 0) :
    (read_section K U addr buf off s).1
      = (U.read_data
          (U.read_data (U.read_ctl (U.send_ctl (read_cmd K addr) s).2).2.2).2.2).1 := by
  unfold read_section
  simp only [h1, h2, ne_eq, not_true_eq_false, ↓reduceIte]

/-- Witness of C13: on the transport whose first data transfer fails with -1,
`read_section` returns 0. -/
theorem read_section_drops_first_data_status_witness :
    (flaky.read_data 0).1 = -1
    ∧ (read_section demo flaky (demo.CONFIGS_ADDR % 256) (uninit 64) 0 0).1 = 0 :=
  ⟨rfl, read_section_drops_first_data_status demo flaky _ _ _ 0 rfl rfl⟩

/-- C14 (the code departs from the claim). When the command frame is sent, `write_section`
sends the first half and then the second half whatever the first data send reported, and
returns the status of the second data send: the calls it makes are the frame, the first
half, the second half. -/
theorem write_section_sends_both_halves {σ : Type} (K : Consts) (U : Usb σ) (addr : Nat)
    (buf : List Nat) (off : Nat) (s : σ) (tr : List Call)
    (h1 : (U.send_ctl (write_cmd K addr) s).1 = 0) :
    (write_section K U.logged addr buf off (s, tr)).2.2
      = tr ++ [Call.send_ctl (write_cmd K addr),
          Call.send_data (get_bytes buf off K.DATA_LINE_LEN),
          Call.send_data (get_bytes buf (off + K.DATA_LINE_LEN) K.DATA_LINE_LEN)]
    ∧ (write_section K U addr buf off s).1
      = (U.send_data (get_bytes buf (off + K.DATA_LINE_LEN) K.DATA_LINE_LEN)
          (U.send_data (get_bytes buf off K.DATA_LINE_LEN)
            (U.send_ctl (write_cmd K addr) s).2).2).1 := by
  unfold write_section
  simp only [Usb.logged, h1, ne_eq, not_true_eq_false, ↓reduceIte, List.append_assoc,
    and_true]
  rfl

/-- Witness of C14: on the transport whose first data transfer fails, `write_section`
still sends the second half and returns 0. -/
theorem write_section_sends_both_halves_witness :
    (flaky.send_data (get_bytes (uninit 64) 0 32) 0).1 = -1
    ∧ (write_section demo flaky.logged (demo.CONFIGS_ADDR % 256) (uninit 64) 0 (0, [])).2.2
      = [Call.send_ctl (write_cmd demo (demo.CONFIGS_ADDR % 256)),
          Call.send_data (get_bytes (uninit 64) 0 32),
          Call.send_data (get_bytes (uninit 64) 32 32)]
    ∧ (write_section demo flaky (demo.CONFIGS_ADDR % 256) (uninit 64) 0 0).1 = 0 :=
  ⟨rfl, (write_section_sends_both_halves demo flaky _ (uninit 64) 0 0 [] rfl).1, by decide⟩

/-- Reading the array after `put_bytes`: inside the window the supplied byte (reduced to
a byte), elsewhere the old contents. -/
theorem put_bytes_getD (buf : List Nat) (off n : Nat) (d : List Nat) (i : Nat)
    (hi : i < buf.length) :
    (put_bytes buf off n d).getD i 0
      = if off ≤ i ∧ i < off + n then d.getD (i - off) (buf.getD i 0) % 256
        else buf.getD i 0 := by
  unfold put_bytes
  rw [List.getD_eq_getElem _ _ (by simpa using hi)]
  simp only [List.getElem_map, List.getElem_range]

/-- C18. For an address `a` (an `unsigned char`) and one-byte `SECTION_LEN`, `ADDR_READ`
and `MACRO_MEM_FLAG`: the frames of `read_section` and `write_section` agree on bytes 1
and 3..7, byte 7 is `a`, bytes 3..6 are 0, byte 2 is `SECTION_LEN` in the write frame and
0 in the read frame, and byte 0 of the read frame is byte 0 of the write frame OR'd with
`ADDR_READ`; in the write frame, byte 0 is `SETTINGS_ADDR_MAX - a + SETTINGS_ADDR_PARITY`
(as a byte) and byte 1 is 0 when `a` is `CONFIGS_ADDR` or `BUTTONS_ADDR`, and otherwise
byte 0 is `MACRO_MEM_FLAG` and byte 1 is `MACRO_ADDR_PARITY - a` modulo 256. -/
theorem cmd_frames (K : Consts) (a : Nat) (ha : a < 256) (hlen : K.SECTION_LEN < 256)
    (hrd : K.ADDR_READ < 256) (hflag : K.MACRO_MEM_FLAG < 256) :
    (∀ i ∈ [1, 3, 4, 5, 6, 7], (read_cmd K a).getD i 0 = (write_cmd K a).getD i 0)
    ∧ (write_cmd K a).getD 7 0 = a
    ∧ (∀ i ∈ [3, 4, 5, 6], (write_cmd K a).getD i 0 = 0)
    ∧ (write_cmd K a).getD 2 0 = K.SECTION_LEN
    ∧ (read_cmd K a).getD 2 0 = 0
    ∧ (read_cmd K a).getD 0 0 = (write_cmd K a).getD 0 0 ||| K.ADDR_READ
    ∧ (a = K.CONFIGS_ADDR ∨ a = K.BUTTONS_ADDR →
        (((write_cmd K a).getD 0 0 : Nat) : Int)
          = ((K.SETTINGS_ADDR_MAX : Int) - a + K.SETTINGS_ADDR_PARITY) % 256
        ∧ (0 ≤ (K.SETTINGS_ADDR_MAX : Int) - a + K.SETTINGS_ADDR_PARITY
            ∧ (K.SETTINGS_ADDR_MAX : Int) - a + K.SETTINGS_ADDR_PARITY < 256 →
          (((write_cmd K a).getD 0 0 : Nat) : Int)
            = (K.SETTINGS_ADDR_MAX : Int) - a + K.SETTINGS_ADDR_PARITY)
        ∧ (write_cmd K a).getD 1 0 = 0)
    ∧ (¬ (a = K.CONFIGS_ADDR ∨ a = K.BUTTONS_ADDR) →
        (write_cmd K a).getD 0 0 = K.MACRO_MEM_FLAG
        ∧ (((write_cmd K a).getD 1 0 : Nat) : Int) = ((K.MACRO_ADDR_PARITY : Int) - a) % 256) := by
  have e1 : a % 256 = a := Nat.mod_eq_of_lt ha
  have e2 : K.SECTION_LEN % 256 = K.SECTION_LEN := Nat.mod_eq_of_lt hlen
  have e3 : K.ADDR_READ % 256 = K.ADDR_READ := Nat.mod_eq_of_lt hrd
  have e4 : K.MACRO_MEM_FLAG % 256 = K.MACRO_MEM_FLAG := Nat.mod_eq_of_lt hflag
  have u : ∀ x : Int, ((u8 x : Nat) : Int) = x % 256 := by
    intro x; unfold u8; omega
  by_cases hs : a = K.CONFIGS_ADDR ∨ a = K.BUTTONS_ADDR
  · simp only [read_cmd, write_cmd, cmd_init, hs, ↓reduceIte, List.mem_cons, List.mem_singleton,
      List.not_mem_nil, or_false, forall_eq_or_imp, forall_eq, not_true_eq_false,
      false_implies, and_true, true_implies]
    simp [e1, e2, e3, u, Nat.lor_comm]
    intro h0 h1
    omega
  · simp only [read_cmd, write_cmd, cmd_init, hs, ↓reduceIte, List.mem_cons, List.mem_singleton,
      List.not_mem_nil, or_false, forall_eq_or_imp, forall_eq, not_false_eq_true,
      false_implies, true_and, true_implies]
    simp [e1, e2, e3, e4, u, Nat.lor_comm]

/-- Witness of C18 on the sample header, for the configs address. -/
theorem cmd_frames_witness :
    (read_cmd demo 0x72).getD 0 0 = (write_cmd demo 0x72).getD 0 0 ||| demo.ADDR_READ
    ∧ (write_cmd demo 0x72).getD 2 0 = demo.SECTION_LEN
    ∧ (read_cmd demo 0x72).getD 2 0 = 0 :=
  ⟨(cmd_frames demo 0x72 (by decide) (by decide) (by decide) (by decide)).2.2.2.2.2.1,
   (cmd_frames demo 0x72 (by decide) (by decide) (by decide) (by decide)).2.2.2.1,
   (cmd_frames demo 0x72 (by decide) (by decide) (by decide) (by decide)).2.2.2.2.1⟩

/-- C19. Two transports that differ only in the acknowledgement bytes their control
read returns give `read_section` the same status, the same output array and the same
device state; when the frame and the acknowledgement go through, the first data read
fills the first `DATA_LINE_LEN` bytes of the output and the second data read the next
`DATA_LINE_LEN` bytes. -/
theorem read_section_ack_independent {σ : Type} (K : Consts) (U W : Usb σ) (addr : Nat)
    (buf : List Nat) (off : Nat) (s : σ)
    (hs : W.send_ctl = U.send_ctl) (hd : W.read_data = U.read_data)
    (hc : ∀ t, (W.read_ctl t).1 = (U.read_ctl t).1 ∧ (W.read_ctl t).2.2 = (U.read_ctl t).2.2) :
    read_section K W addr buf off s = read_section K U addr buf off s
    ∧ ((U.send_ctl (read_cmd K addr) s).1 = 0 →
        (U.read_ctl (U.send_ctl (read_cmd K addr) s).2).1 = 0 →
        off + K.DATA_LINE_LEN + K.DATA_LINE_LEN ≤ buf.length →
        ∀ i < K.DATA_LINE_LEN,
          (read_section K U addr buf off s).2.1.getD (off + i) 0
            = (U.read_data (U.read_ctl (U.send_ctl (read_cmd K addr) s).2).2.2).2.1.getD i
                (buf.getD (off + i) 0) % 256
          ∧ (read_section K U addr buf off s).2.1.getD (off + K.DATA_LINE_LEN + i) 0
            = (U.read_data (U.read_data
                (U.read_ctl (U.send_ctl (read_cmd K addr) s).2).2.2).2.2).2.1.getD i
                (buf.getD (off + K.DATA_LINE_LEN + i) 0) % 256) := by
  constructor
  · unfold read_section
    simp only [hs, hd, (hc _).1, (hc _).2]
  · intro h1 h2 hlen i hi
    unfold read_section
    simp only [h1, h2, ne_eq, not_true_eq_false, ↓reduceIte]
    rw [put_bytes_getD _ _ _ _ _ (by rw [put_bytes_length]; omega),
      put_bytes_getD _ _ _ _ _ (by omega),
      put_bytes_getD _ _ _ _ _ (by rw [put_bytes_length]; omega),
      put_bytes_getD _ _ _ _ _ (by omega)]
    rw [if_neg (by omega), if_pos (by omega), if_pos (by omega), if_neg (by omega)]
    simp

/-- Witness of C19 on the sample device: with an echoed acknowledgement and with an
all-zero one, `read_section` returns the same, though only the second run prints the
diagnostic. -/
theorem read_section_ack_independent_witness :
    read_section demo (Dev.mute demo) 0x72 (uninit 64) 0 Dev.blank
      = read_section demo (Dev.usb demo) 0x72 (uninit 64) 0 Dev.blank
    ∧ read_section_warns demo (Dev.usb demo) 0x72 Dev.blank = false
    ∧ read_section_warns demo (Dev.mute demo) 0x72 Dev.blank = true :=
  ⟨(read_section_ack_independent demo (Dev.usb demo) (Dev.mute demo) 0x72 (uninit 64) 0
      Dev.blank rfl rfl (fun _ => ⟨rfl, rfl⟩)).1, by decide, by decide⟩

/-! ## The ways a settings command ends -/

/-- `read_settings` returns 0 or -2. -/
theorem loaded_status {σ : Type} (K : Consts) (W : Usb σ) (t : σ)
    (h : (loaded K W t).1 ≠ 0) : (loaded K W t).1 = -2 := by
  unfold loaded read_settings at h ⊢
  simp only [] at h ⊢
  split_ifs at h ⊢ <;> first | rfl | exact absurd rfl h

theorem angle_snap_ends {σ : Type} (K : Consts) (W : Usb σ) (t : σ) (argv : List CStr) :
    Setting.ends K W t .angle_snap argv := by
  have hr : (read_settings K W (uninit K.SECTION_LEN) (uninit K.SECTION_LEN) t) = loaded K W t := rfl
  have hlen := loaded_settings_length K W t
  refine ⟨?_, ?_, ?_⟩
  · intro h
    simp only [Setting.run, angle_snap, hr]
    rw [if_pos h, loaded_status K W t h]
  · intro h hinv
    cases argv with
    | nil => exact absurd hinv (by simp [Setting.invalid])
    | cons a0 rest =>
      simp only [Setting.invalid] at hinv
      simp only [Setting.run]
      rw [angle_snap_set_eq K W t a0 rest h, if_pos hinv]
  · intro h hinv r hrun
    cases argv with
    | nil =>
      left
      simp only [Setting.run, angle_snap, hr, h, ne_eq, not_true_eq_false, ↓reduceIte] at hrun
      split_ifs at hrun <;> cases hrun <;> exact ⟨rfl, rfl, rfl⟩
    | cons a0 rest =>
      right
      simp only [Setting.invalid] at hinv
      simp only [Setting.run] at hrun
      rw [angle_snap_set_eq K W t a0 rest h, if_neg hinv] at hrun
      cases hrun
      exact ⟨rfl, _, by rw [List.length_set, hlen], rfl⟩

theorem angle_correct_ends {σ : Type} (K : Consts) (W : Usb σ) (t : σ) (argv : List CStr) :
    Setting.ends K W t .angle_correct argv := by
  have hr : (read_settings K W (uninit K.SECTION_LEN) (uninit K.SECTION_LEN) t) = loaded K W t := rfl
  have hlen := loaded_settings_length K W t
  refine ⟨?_, ?_, ?_⟩
  · intro h
    simp only [Setting.run, angle_correct, hr]
    rw [if_pos h, loaded_status K W t h]
  · intro h hinv
    cases argv with
    | nil => exact absurd hinv (by simp [Setting.invalid])
    | cons a0 rest =>
      obtain ⟨v, hv, hbad⟩ := hinv
      simp only [Setting.run]
      rw [angle_correct_set_eq K W t a0 rest v h hv, if_pos hbad]
  · intro h hinv r hrun
    cases argv with
    | nil =>
      left
      simp only [Setting.run] at hrun
      rw [angle_correct_get_eq K W t h] at hrun
      cases hrun
      exact ⟨rfl, rfl, rfl⟩
    | cons a0 rest =>
      right
      simp only [Setting.run] at hrun
      cases hv : atoi a0 with
      | none =>
        simp only [angle_correct, hr, h, hv, ne_eq, not_true_eq_false, ↓reduceIte] at hrun
        cases hrun
      | some v =>
        have hok : ¬ (v < -2 ∨ 2 < v) := fun hb => hinv ⟨v, hv, hb⟩
        rw [angle_correct_set_eq K W t a0 rest v h hv, if_neg hok] at hrun
        cases hrun
        exact ⟨rfl, _, by rw [List.length_set, hlen], rfl⟩

theorem led_mode_ends {σ : Type} (K : Consts) (W : Usb σ) (t : σ) (argv : List CStr) :
    Setting.ends K W t .led_mode argv := by
  have hr : (read_settings K W (uninit K.SECTION_LEN) (uninit K.SECTION_LEN) t) = loaded K W t := rfl
  have hlen := loaded_settings_length K W t
  refine ⟨?_, ?_, ?_⟩
  · intro h
    simp only [Setting.run, led_mode, hr]
    rw [if_pos h, loaded_status K W t h]
  · intro h hinv
    cases argv with
    | nil => exact absurd hinv (by simp [Setting.invalid])
    | cons a0 rest =>
      simp only [Setting.invalid, List.mem_cons, List.mem_singleton, List.not_mem_nil,
        or_false, not_or] at hinv
      simp only [Setting.run]
      rw [led_mode_set_eq K W t a0 rest h, if_neg hinv.1, if_neg hinv.2.1, if_neg hinv.2.2.1,
        if_neg hinv.2.2.2]
  · intro h hinv r hrun
    cases argv with
    | nil =>
      left
      simp only [Setting.run, led_mode, hr, h, ne_eq, not_true_eq_false, ↓reduceIte] at hrun
      cases hrun
      exact ⟨rfl, rfl, rfl⟩
    | cons a0 rest =>
      right
      simp only [Setting.invalid, List.mem_cons, List.mem_singleton, List.not_mem_nil,
        or_false] at hinv
      simp only [Setting.run] at hrun
      rw [led_mode_set_eq K W t a0 rest h] at hrun
      split_ifs at hrun with c1 c2 c3 c4
      · cases hrun; exact ⟨rfl, _, by rw [List.length_set, hlen], rfl⟩
      · cases hrun; exact ⟨rfl, _, by rw [List.length_set, List.length_set, hlen], rfl⟩
      · cases hrun; exact ⟨rfl, _, by rw [List.length_set, List.length_set, hlen], rfl⟩
      · cases hrun; exact ⟨rfl, _, by rw [List.length_set, List.length_set, hlen], rfl⟩
      · exact absurd (by tauto) hinv

theorem led_brightness_ends {σ : Type} (K : Consts) (W : Usb σ) (t : σ) (argv : List CStr) :
    Setting.ends K W t .led_brightness argv := by
  have hr : (read_settings K W (uninit K.SECTION_LEN) (uninit K.SECTION_LEN) t) = loaded K W t := rfl
  have hlen := loaded_settings_length K W t
  refine ⟨?_, ?_, ?_⟩
  · intro h
    simp only [Setting.run, led_brightness, hr]
    rw [if_pos h, loaded_status K W t h]
  · intro h hinv
    simp only [Setting.run]
    rw [led_brightness_eq K W t argv h]
    rcases hinv with hm | ⟨a0, rest, v, e, hv, hbad⟩
    · rw [if_pos hm]
    · subst e
      simp only [hv]
      split_ifs <;> rfl
  · intro h hinv r hrun
    simp only [Setting.invalid, not_or, not_not] at hinv
    simp only [Setting.run] at hrun
    rw [led_brightness_eq K W t argv h, if_neg (not_not.mpr hinv.1)] at hrun
    cases argv with
    | nil =>
      left
      cases hrun
      exact ⟨rfl, rfl, rfl⟩
    | cons a0 rest =>
      right
      cases hv : atoi a0 with
      | none => simp only [hv] at hrun; cases hrun
      | some v =>
        simp only [hv] at hrun
        have hok : ¬ (v < K.LED_BRIGHT_MIN ∨ v > K.LED_BRIGHT_MAX) := fun hb =>
          hinv.2 ⟨a0, rest, v, rfl, hv, by omega⟩
        rw [if_neg hok] at hrun
        cases hrun
        exact ⟨rfl, _, by rw [List.length_set, hlen], rfl⟩

theorem led_speed_ends {σ : Type} (K : Consts) (W : Usb σ) (t : σ) (argv : List CStr) :
    Setting.ends K W t .led_speed argv := by
  have hr : (read_settings K W (uninit K.SECTION_LEN) (uninit K.SECTION_LEN) t) = loaded K W t := rfl
  have hlen := loaded_settings_length K W t
  refine ⟨?_, ?_, ?_⟩
  · intro h
    simp only [Setting.run, led_speed, hr]
    rw [if_pos h, loaded_status K W t h]
  · intro h hinv
    simp only [Setting.run]
    rw [led_speed_eq K W t argv h]
    rcases hinv with hm | ⟨a0, rest, v, e, hv, hbad⟩
    · rw [if_pos hm]
    · subst e
      simp only [hv]
      split_ifs <;> rfl
  · intro h hinv r hrun
    simp only [Setting.invalid, not_or] at hinv
    simp only [Setting.run] at hrun
    rw [led_speed_eq K W t argv h, if_neg hinv.1] at hrun
    cases argv with
    | nil =>
      left
      cases hrun
      exact ⟨rfl, rfl, rfl⟩
    | cons a0 rest =>
      right
      cases hv : atoi a0 with
      | none => simp only [hv] at hrun; cases hrun
      | some v =>
        simp only [hv] at hrun
        have hok : ¬ (v < K.LED_SPEED_MIN ∨ v > K.LED_SPEED_MAX) := fun hb =>
          hinv.2 ⟨a0, rest, v, rfl, hv, by omega⟩
        rw [if_neg hok] at hrun
        cases hrun
        exact ⟨rfl, _, by rw [List.length_set, hlen], rfl⟩

theorem sensitivity_ends {σ : Type} (K : Consts) (W : Usb σ) (t : σ) (argv : List CStr) :
    Setting.ends K W t .sensitivity argv := by
  have hr : (read_settings K W (uninit K.SECTION_LEN) (uninit K.SECTION_LEN) t) = loaded K W t := rfl
  have hlen := loaded_settings_length K W t
  refine ⟨?_, ?_, ?_⟩
  · intro h
    simp only [Setting.run, sensitivity, hr]
    rw [if_pos h, loaded_status K W t h]
  · intro h hinv
    simp only [Setting.run]
    cases argv with
    | nil => exact sensitivity_axis_eq K W t [] h (Or.inl rfl)
    | cons a0 rest =>
      rcases hinv with ha | ⟨a1, more, v, e, hv, hbad⟩
      · exact sensitivity_axis_eq K W t _ h (Or.inr ⟨a0, rest, rfl, ha⟩)
      · subst e
        exact sensitivity_range_eq K W t a0 a1 more v h hv (by omega)
  · intro h hinv r hrun
    cases argv with
    | nil => exact absurd trivial hinv
    | cons a0 rest =>
      simp only [Setting.invalid, not_or] at hinv
      simp only [Setting.run] at hrun
      cases ha : sensitivity_addr K a0 with
      | none => exact absurd ha hinv.1
      | some addr =>
        cases rest with
        | nil =>
          left
          by_cases hstep : K.SENSITIVITY_STEP = 0
          · simp only [sensitivity, hr, h, ha, hstep, ne_eq, not_true_eq_false, ↓reduceIte]
              at hrun
            cases hrun
          · rw [sensitivity_get_eq K W t a0 addr h ha hstep] at hrun
            cases hrun
            exact ⟨rfl, rfl, rfl⟩
        | cons a1 more =>
          right
          cases hv : atoi a1 with
          | none =>
            simp only [sensitivity, hr, h, ha, hv, ne_eq, not_true_eq_false, ↓reduceIte] at hrun
            cases hrun
          | some v =>
            have hok : ¬ (v < K.SENSITIVITY_MIN ∨ v > K.SENSITIVITY_MAX) := fun hb =>
              hinv.2 ⟨a1, more, v, rfl, hv, by omega⟩
            rw [sensitivity_set_eq K W t a0 a1 more addr v h ha hv, if_neg hok] at hrun
            cases hrun
            exact ⟨rfl, _, by rw [List.length_set, hlen], rfl⟩

theorem dpi_enable_ends {σ : Type} (K : Consts) (W : Usb σ) (t : σ) (argv : List CStr) :
    Setting.ends K W t .dpi_enable argv := by
  have hr : (read_settings K W (uninit K.SECTION_LEN) (uninit K.SECTION_LEN) t) = loaded K W t := rfl
  have hlen := loaded_settings_length K W t
  refine ⟨?_, ?_, ?_⟩
  · intro h
    simp only [Setting.run, dpi_enable, hr]
    rw [if_pos h, loaded_status K W t h]
  · intro h hinv
    cases argv with
    | nil => exact absurd hinv (by simp [Setting.invalid])
    | cons a0 rest =>
      obtain ⟨p, hp, hbad⟩ := hinv
      exact dpi_enable_profile_eq K W t a0 rest p h hp (by omega)
  · intro h hinv r hrun
    simp only [Setting.run] at hrun
    cases argv with
    | nil =>
      simp only [dpi_enable, hr, h, ne_eq, not_true_eq_false, ↓reduceIte] at hrun
      cases hrun
    | cons a0 rest =>
      cases hp : atoi a0 with
      | none =>
        simp only [dpi_enable, hr, h, hp, ne_eq, not_true_eq_false, ↓reduceIte] at hrun
        cases hrun
      | some p =>
        have hok : ¬ (p < K.DPI_PROFILE_MIN ∨ p > K.DPI_PROFILE_MAX) := fun hb =>
          hinv ⟨p, hp, by omega⟩
        cases hb : shl1 (p - 1) with
        | none =>
          simp only [dpi_enable, hr, h, hp, hok, hb, ne_eq, not_true_eq_false, ↓reduceIte]
            at hrun
          cases hrun
        | some bit =>
          cases rest with
          | nil =>
            left
            simp only [dpi_enable, hr, h, hp, hok, hb, ne_eq, not_true_eq_false, ↓reduceIte]
              at hrun
            split_ifs at hrun <;> cases hrun <;> exact ⟨rfl, rfl, rfl⟩
          | cons a1 more =>
            right
            simp only [dpi_enable, hr, h, hp, hok, hb, ne_eq, not_true_eq_false, ↓reduceIte]
              at hrun
            split_ifs at hrun <;> cases hrun <;>
              exact ⟨rfl, _, by rw [List.length_set, hlen], rfl⟩

/-- A string `valid_hex` accepts is read to its end by `strtoul`: the test of `*end` in
`dpi_color` (mx.c:314) never fires. -/
theorem strtoul16_end_of_valid_hex (a : CStr) (h : valid_hex a = true) :
    cget (strtoul16 a).2 0 = NUL := by
  obtain ⟨hlen, hhex⟩ := (valid_hex_iff a).mp h
  match a, hlen, hhex with
  | [c0, c1, c2, c3, c4, c5], _, hhex =>
    rw [(color_of_hex6 c0 c1 c2 c3 c4 c5 hhex).1]
    rfl

theorem dpi_color_ends {σ : Type} (K : Consts) (W : Usb σ) (t : σ) (argv : List CStr) :
    Setting.ends K W t .dpi_color argv := by
  have hr : (read_settings K W (uninit K.SECTION_LEN) (uninit K.SECTION_LEN) t) = loaded K W t := rfl
  have hlen := loaded_settings_length K W t
  refine ⟨?_, ?_, ?_⟩
  · intro h
    simp only [Setting.run, dpi_color, hr]
    rw [if_pos h, loaded_status K W t h]
  · intro h hinv
    cases argv with
    | nil => exact absurd hinv (by simp [Setting.invalid])
    | cons a0 rest =>
      obtain ⟨p, hp, hbad | ⟨a1, a2, more, e, hx⟩⟩ := hinv
      · exact dpi_color_profile_eq K W t a0 rest p h hp (by omega)
      · subst e
        by_cases hpr : p < K.DPI_PROFILE_MIN ∨ p > K.DPI_PROFILE_MAX
        · exact dpi_color_profile_eq K W t a0 (a1 :: a2 :: more) p h hp hpr
        · simp only [Setting.run]
          rw [dpi_color_set_eq K W t a0 a1 a2 more p h hp (by omega), if_pos (Or.inl hx)]
  · intro h hinv r hrun
    simp only [Setting.run] at hrun
    cases argv with
    | nil =>
      simp only [dpi_color, hr, h, ne_eq, not_true_eq_false, ↓reduceIte] at hrun
      cases hrun
    | cons a0 rest =>
      cases hp : atoi a0 with
      | none =>
        simp only [dpi_color, hr, h, hp, ne_eq, not_true_eq_false, ↓reduceIte] at hrun
        cases hrun
      | some p =>
        have hok : ¬ (p < K.DPI_PROFILE_MIN ∨ p > K.DPI_PROFILE_MAX) := fun hb =>
          hinv ⟨p, hp, Or.inl (by omega)⟩
        match rest with
        | [] =>
          simp only [dpi_color, hr, h, hp, hok, ne_eq, not_true_eq_false, ↓reduceIte] at hrun
          cases hrun
        | [a1] =>
          left
          rw [dpi_color_get_eq K W t a0 a1 p h hp (by omega)] at hrun
          cases hrun
          exact ⟨rfl, rfl, rfl⟩
        | a1 :: a2 :: more =>
          right
          have hx : valid_hex a2 = true := by
            cases hx : valid_hex a2 with
            | true => rfl
            | false => exact absurd ⟨p, hp, Or.inr ⟨a1, a2, more, rfl, hx⟩⟩ hinv
          rw [dpi_color_set_eq K W t a0 a1 a2 more p h hp (by omega), if_neg] at hrun
          · cases hrun
            exact ⟨rfl, _, by rw [List.length_set, List.length_set, List.length_set, hlen], rfl⟩
          · rw [hx, strtoul16_end_of_valid_hex a2 hx]
            simp

theorem dpi_value_ends {σ : Type} (K : Consts) (W : Usb σ) (t : σ) (argv : List CStr) :
    Setting.ends K W t .dpi_value argv := by
  have hr : (read_settings K W (uninit K.SECTION_LEN) (uninit K.SECTION_LEN) t) = loaded K W t := rfl
  have hlen := loaded_settings_length K W t
  refine ⟨?_, ?_, ?_⟩
  · intro h
    simp only [Setting.run, dpi_value, hr]
    rw [if_pos h, loaded_status K W t h]
  · intro h hinv
    cases argv with
    | nil => exact absurd hinv (by simp [Setting.invalid])
    | cons a0 rest =>
      obtain ⟨p, hp, hbad | ⟨a1, a2, more, v, e, hv, hx⟩⟩ := hinv
      · exact dpi_value_profile_eq K W t a0 rest p h hp (by omega)
      · subst e
        by_cases hpr : p < K.DPI_PROFILE_MIN ∨ p > K.DPI_PROFILE_MAX
        · exact dpi_value_profile_eq K W t a0 (a1 :: a2 :: more) p h hp hpr
        · simp only [Setting.run]
          rw [dpi_value_set_eq K W t a0 a1 a2 more p v h hp (by omega) hv, if_pos (by omega)]
  · intro h hinv r hrun
    simp only [Setting.run] at hrun
    cases argv with
    | nil =>
      simp only [dpi_value, hr, h, ne_eq, not_true_eq_false, ↓reduceIte] at hrun
      cases hrun
    | cons a0 rest =>
      cases hp : atoi a0 with
      | none =>
        simp only [dpi_value, hr, h, hp, ne_eq, not_true_eq_false, ↓reduceIte] at hrun
        cases hrun
      | some p =>
        have hok : ¬ (p < K.DPI_PROFILE_MIN ∨ p > K.DPI_PROFILE_MAX) := fun hb =>
          hinv ⟨p, hp, Or.inl (by omega)⟩
        match rest with
        | [] =>
          simp only [dpi_value, hr, h, hp, hok, ne_eq, not_true_eq_false, ↓reduceIte] at hrun
          cases hrun
        | [a1] =>
          left
          rw [dpi_value_get_eq K W t a0 a1 p h hp (by omega)] at hrun
          cases hrun
          exact ⟨rfl, rfl, rfl⟩
        | a1 :: a2 :: more =>
          right
          cases hv : atoi a2 with
          | none =>
            simp only [dpi_value, hr, h, hp, hok, hv, ne_eq, not_true_eq_false, ↓reduceIte]
              at hrun
            cases hrun
          | some v =>
            have hvok : ¬ (v < K.DPI_VALUE_MIN ∨ v > K.DPI_VALUE_MAX ∨ Int.tmod v 100 ≠ 0) :=
              fun hb => hinv ⟨p, hp, Or.inr ⟨a1, a2, more, v, rfl, hv, by omega⟩⟩
            rw [dpi_value_set_eq K W t a0 a1 a2 more p v h hp (by omega) hv, if_neg hvok]
              at hrun
            cases hrun
            exact ⟨rfl, _, by rw [List.length_set, List.length_set, hlen], rfl⟩

/-- Every settings command ends in one of the ways of `Setting.ends`. -/
theorem Setting.run_ends {σ : Type} (K : Consts) (W : Usb σ) (t : σ) (c : Setting)
    (argv : List CStr) : c.ends K W t argv := by
  cases c
  · exact angle_snap_ends K W t argv
  · exact angle_correct_ends K W t argv
  · exact led_mode_ends K W t argv
  · exact led_brightness_ends K W t argv
  · exact led_speed_ends K W t argv
  · exact sensitivity_ends K W t argv
  · exact dpi_enable_ends K W t argv
  · exact dpi_color_ends K W t argv
  · exact dpi_value_ends K W t argv

/-! ## Validation comes after the read (C11, C12) -/

/-- On a transport whose transfers all succeed `read_section` returns 0. -/
theorem read_section_succeeds {σ : Type} (K : Consts) (U : Usb σ) (hU : U.succeeds)
    (addr : Nat) (buf : List Nat) (off : Nat) (s : σ) :
    (read_section K U addr buf off s).1 = 0 := by
  unfold read_section
  simp only [hU.1, hU.2.1, hU.2.2.2, ne_eq, not_true_eq_false, ↓reduceIte]

/-- On a transport whose transfers all succeed `write_section` returns 0. -/
theorem write_section_succeeds {σ : Type} (K : Consts) (U : Usb σ) (hU : U.succeeds)
    (addr : Nat) (buf : List Nat) (off : Nat) (s : σ) :
    (write_section K U addr buf off s).1 = 0 := by
  unfold write_section
  simp only [hU.1, hU.2.2.1, ne_eq, not_true_eq_false, ↓reduceIte]

/-- On a transport whose transfers all succeed `read_settings` returns 0. -/
theorem loaded_succeeds {σ : Type} (K : Consts) (U : Usb σ) (hU : U.succeeds) (s : σ) :
    (loaded K U s).1 = 0 := by
  unfold loaded read_settings
  simp only [read_section_succeeds K U hU, ne_eq, not_true_eq_false, ↓reduceIte]

/-- On a transport whose transfers all succeed `write_settings` returns 0. -/
theorem write_settings_succeeds {σ : Type} (K : Consts) (U : Usb σ) (hU : U.succeeds)
    (cfg btn : List Nat) (s : σ) : (write_settings K U cfg btn s).1 = 0 := by
  unfold write_settings
  simp only [write_section_succeeds K U hU, ne_eq, not_true_eq_false, ↓reduceIte]

/-- The status of `read_section` and the device state it leaves do not depend on the
array it is given. -/
theorem read_section_status_buf {σ : Type} (K : Consts) (U : Usb σ) (addr : Nat)
    (buf buf2 : List Nat) (off off2 : Nat) (s : σ) :
    (read_section K U addr buf off s).1 = (read_section K U addr buf2 off2 s).1
    ∧ (read_section K U addr buf off s).2.2 = (read_section K U addr buf2 off2 s).2.2 := by
  unfold read_section
  simp only []
  split_ifs <;> exact ⟨rfl, rfl⟩

/-- C12 (the code departs from the claim). When a `read_section` of the opening
`read_settings` reports a transport error, whatever its value, every settings command
returns -2, the status of refused input, whatever its arguments (so also for valid ones
and for none); on the same failure the memory dump `save_info` returns the transport's
status itself. -/
theorem read_failure_returns_refusal_status {σ : Type} (K : Consts) (U : Usb σ) (s : σ)
    (hfail : (read_section K U (K.CONFIGS_ADDR % 256) (uninit K.SECTION_LEN) 0 s).1 ≠ 0
      ∨ (read_section K U (K.BUTTONS_ADDR % 256) (uninit K.SECTION_LEN) 0
          (read_section K U (K.CONFIGS_ADDR % 256) (uninit K.SECTION_LEN) 0 s).2.2).1 ≠ 0) :
    (∀ (c : Setting) (argv : List CStr),
      c.run K U argv s = some ⟨-2, "", (loaded K U s).2.2.2⟩)
    ∧ ∀ argv : List CStr,
        (save_info K U true argv s).status
          = (if (read_section K U (K.CONFIGS_ADDR % 256) (uninit K.SECTION_LEN) 0 s).1 ≠ 0
              then (read_section K U (K.CONFIGS_ADDR % 256) (uninit K.SECTION_LEN) 0 s).1
              else (read_section K U (K.BUTTONS_ADDR % 256) (uninit K.SECTION_LEN) 0
                (read_section K U (K.CONFIGS_ADDR % 256) (uninit K.SECTION_LEN) 0 s).2.2).1)
        ∧ (save_info K U true argv s).status ≠ 0 := by
  have hload : (loaded K U s).1 ≠ 0 := by
    unfold loaded read_settings
    simp only []
    by_cases h1 : (read_section K U (K.CONFIGS_ADDR % 256) (uninit K.SECTION_LEN) 0 s).1 = 0
    · rcases hfail with h | h
      · exact absurd h1 h
      · obtain ⟨e1, e2⟩ := read_section_status_buf K U (K.BUTTONS_ADDR % 256)
          (uninit K.SECTION_LEN) (uninit K.SECTION_LEN) 0 0
          (read_section K U (K.CONFIGS_ADDR % 256) (uninit K.SECTION_LEN) 0 s).2.2
        rw [if_neg (not_not.mpr h1), if_pos h]
        exact fun h0 => absurd (show (-2 : Int) = 0 from h0) (by decide)
    · rw [if_pos h1]
      exact fun h0 => absurd (show (-2 : Int) = 0 from h0) (by decide)
  refine ⟨fun c argv => (Setting.run_ends K U s c argv).1 hload, fun argv => ?_⟩
  obtain ⟨a1, a2⟩ := read_section_status_buf K U (K.CONFIGS_ADDR % 256)
    (uninit K.FULL_BUF) (uninit K.SECTION_LEN) 0 0 s
  have key : (save_info K U true argv s).status
      = (if (read_section K U (K.CONFIGS_ADDR % 256) (uninit K.SECTION_LEN) 0 s).1 ≠ 0
          then (read_section K U (K.CONFIGS_ADDR % 256) (uninit K.SECTION_LEN) 0 s).1
          else (read_section K U (K.BUTTONS_ADDR % 256) (uninit K.SECTION_LEN) 0
            (read_section K U (K.CONFIGS_ADDR % 256) (uninit K.SECTION_LEN) 0 s).2.2).1) := by
    unfold save_info
    simp only []
    rw [if_neg (by simp)]
    by_cases h1 : (read_section K U (K.CONFIGS_ADDR % 256) (uninit K.SECTION_LEN) 0 s).1 = 0
    · have h2 : (read_section K U (K.BUTTONS_ADDR % 256) (uninit K.SECTION_LEN) 0
          (read_section K U (K.CONFIGS_ADDR % 256) (uninit K.SECTION_LEN) 0 s).2.2).1 ≠ 0 := by
        rcases hfail with h | h
        · exact absurd h1 h
        · exact h
      obtain ⟨b1, _⟩ := read_section_status_buf K U (K.BUTTONS_ADDR % 256)
        (read_section K U (K.CONFIGS_ADDR % 256) (uninit K.FULL_BUF) 0 s).2.1
        (uninit K.SECTION_LEN) K.SECTION_LEN 0
        (read_section K U (K.CONFIGS_ADDR % 256) (uninit K.FULL_BUF) 0 s).2.2
      rw [a2] at b1
      rw [if_neg (by rw [a1]; exact not_not.mpr h1), a2, if_pos (by rw [b1]; exact h2),
        if_neg (not_not.mpr h1)]
      exact b1
    · rw [if_pos (by rw [a1]; exact h1), if_pos h1]
      exact a1
  refine ⟨key, ?_⟩
  rw [key]
  split_ifs with h1
  · exact h1
  · rcases hfail with h | h
    · exact absurd h h1
    · exact h

/-- Witness of C12: on the transport whose transfers all fail with -1, `angle_snap`
returns -2 without argument and with the valid argument `on`, while the memory dump and
`factory_reset` return -1. -/
theorem read_failure_returns_refusal_status_witness :
    (unplugged.send_ctl (read_cmd demo (demo.CONFIGS_ADDR % 256)) ()).1 = -1
    ∧ Setting.run demo unplugged .angle_snap [] () = some ⟨-2, "", ()⟩
    ∧ Setting.run demo unplugged .angle_snap ["on".toList] () = some ⟨-2, "", ()⟩
    ∧ (save_info demo unplugged true [] ()).status = -1
    ∧ (factory_reset demo unplugged [] ()).map (fun r => r.status) = some (-1) :=
  ⟨rfl,
   (read_failure_returns_refusal_status demo unplugged () (Or.inl (by decide))).1
     .angle_snap [],
   (read_failure_returns_refusal_status demo unplugged () (Or.inl (by decide))).1
     .angle_snap ["on".toList],
   by decide, by decide⟩

/-! ## Getters never write (C17) -/

/-- A get form leaves the device as `read_settings` left it. -/
theorem get_form_dev {σ : Type} (K : Consts) (W : Usb σ) (t : σ) (c : Setting)
    (argv : List CStr) (r : Ret σ) (hget : c.is_get argv = true)
    (hrun : c.run K W argv t = some r) : r.dev = (loaded K W t).2.2.2 := by
  obtain ⟨e1, e2, e3⟩ := Setting.run_ends K W t c argv
  by_cases h : (loaded K W t).1 = 0
  · by_cases hinv : c.invalid K (loaded K W t).2.1 argv
    · have := e2 h hinv
      rw [hrun] at this
      cases this
      rfl
    · rcases e3 h hinv r hrun with ⟨_, _, hd⟩ | ⟨g, _⟩
      · exact hd
      · rw [hget] at g
        cases g
  · have := e1 h
    rw [hrun] at this
    cases this
    rfl

/-- The loop of `save_info` adds only read calls to the record. -/
theorem read_macros_logged {σ : Type} (K : Consts) (U : Usb σ) (n : Nat) :
    ∀ (i : Nat) (buf : List Nat) (off : Nat) (err : Int) (s : σ) (tr : List Call),
      (∀ c ∈ tr, is_read_call K c) →
      ∀ c ∈ (read_macros K U.logged n i buf off err (s, tr)).2.2.1.2, is_read_call K c := by
  induction n with
  | zero => intro i buf off err s tr h; simpa [read_macros] using h
  | succ n ih =>
    intro i buf off err s tr h
    have hs := (read_section_logged K U (u8 ((K.MACRO_ADDR_START : Int) - i)) buf off s tr).2.2.2 h
    unfold read_macros
    simp only []
    split_ifs
    · exact hs
    · exact ih _ _ _ _ _ _ hs

/-- The calls of `save_info` are read calls. -/
theorem save_info_logged {σ : Type} (K : Consts) (U : Usb σ) (ok : Bool) (argv : List CStr)
    (s : σ) : ∀ c ∈ (save_info K U.logged ok argv (s, [])).dev.2, is_read_call K c := by
  have h1 := (read_section_logged K U (K.CONFIGS_ADDR % 256) (uninit K.FULL_BUF) 0 s []).2.2.2
    (by simp)
  unfold save_info
  simp only []
  split_ifs
  · simp
  · exact h1
  · exact (read_section_logged K U _ _ _ _ _).2.2.2 h1
  · exact read_macros_logged K U _ _ _ _ _ _ _ ((read_section_logged K U _ _ _ _ _).2.2.2 h1)
  · exact read_macros_logged K U _ _ _ _ _ _ _ ((read_section_logged K U _ _ _ _ _).2.2.2 h1)

/-- On the device `Dev` a `read_section` changes no stored section. -/
theorem read_section_dev_mem (K : Consts) (addr : Nat) (buf : List Nat) (off : Nat) (d : Dev) :
    (read_section K (Dev.usb K) addr buf off d).2.2.mem = d.mem := by
  unfold read_section
  simp [Dev.usb]

/-- On the device `Dev` a `read_settings` changes no stored section. -/
theorem loaded_dev_mem (K : Consts) (d : Dev) : (loaded K (Dev.usb K) d).2.2.2.mem = d.mem := by
  unfold loaded read_settings
  simp only []
  split_ifs <;> simp only [read_section_dev_mem]

/-- On the device `Dev` the loop of `save_info` changes no stored section. -/
theorem read_macros_dev_mem (K : Consts) (n : Nat) :
    ∀ (i : Nat) (buf : List Nat) (off : Nat) (err : Int) (d : Dev),
      (read_macros K (Dev.usb K) n i buf off err d).2.2.1.mem = d.mem := by
  induction n with
  | zero => intro i buf off err d; rfl
  | succ n ih =>
    intro i buf off err d
    unfold read_macros
    simp only []
    split_ifs
    · exact read_section_dev_mem K _ buf off d
    · rw [ih, read_section_dev_mem]

/-- On the device `Dev` `save_info` changes no stored section. -/
theorem save_info_dev_mem (K : Consts) (ok : Bool) (argv : List CStr) (d : Dev) :
    (save_info K (Dev.usb K) ok argv d).dev.mem = d.mem := by
  unfold save_info
  simp only []
  split_ifs <;>
    simp only [read_macros_dev_mem, read_section_dev_mem]

/-- C17. Getters never write: a settings command in its get form, run on the recording
transport, makes no data-send and sends no write frame, and leaves the device as
`read_settings` left it; the same holds for the calls of the memory dump `save_info`; on
the device `Dev` the stored sections are the same before and after. -/
theorem getters_never_write {σ : Type} (K : Consts) (U : Usb σ) (s : σ)
    (hsec : K.SECTION_LEN % 256 ≠ 0) :
    (∀ (c : Setting) (argv : List CStr) (r : Ret (σ × List Call)), c.is_get argv = true →
      c.run K U.logged argv (s, []) = some r →
      no_write K r.dev.2 ∧ r.dev.1 = (loaded K U s).2.2.2)
    ∧ (∀ (ok : Bool) (argv : List CStr), no_write K (save_info K U.logged ok argv (s, [])).dev.2)
    ∧ (∀ (c : Setting) (argv : List CStr) (d : Dev) (r : Ret Dev), c.is_get argv = true →
      c.run K (Dev.usb K) argv d = some r → r.dev.mem = d.mem)
    ∧ (∀ (ok : Bool) (argv : List CStr) (d : Dev),
      (save_info K (Dev.usb K) ok argv d).dev.mem = d.mem) := by
  refine ⟨?_, ?_, ?_, ?_⟩
  · intro c argv r hget hrun
    rw [get_form_dev K U.logged (s, []) c argv r hget hrun]
    obtain ⟨_, _, _, h4, h5⟩ := loaded_logged K U s
    exact ⟨no_write_of_read_calls K hsec _ h5, h4⟩
  · intro ok argv
    exact no_write_of_read_calls K hsec _ (save_info_logged K U ok argv s)
  · intro c argv d r hget hrun
    rw [get_form_dev K (Dev.usb K) d c argv r hget hrun, loaded_dev_mem]
  · intro ok argv d
    exact save_info_dev_mem K ok argv d

/-- Witness of C17 on the sample device, after profile 3 was set to 800: `dpi_value 3
value` prints and the dump runs, and the stored sections stay as they were. -/
theorem getters_never_write_witness :
    (∀ r, Setting.run demo (Dev.usb demo) .dpi_value ["3".toList, "value".toList]
        (after (dpi_value demo (Dev.usb demo) ["3".toList, "value".toList, "800".toList]
          Dev.blank)) = some r →
      r.dev.mem = (after (dpi_value demo (Dev.usb demo)
        ["3".toList, "value".toList, "800".toList] Dev.blank)).mem)
    ∧ no_write demo (save_info demo (Dev.usb demo).logged true [] (Dev.blank, [])).dev.2 :=
  ⟨fun r => (getters_never_write demo (Dev.usb demo) Dev.blank (by decide)).2.2.1
      .dpi_value _ _ r rfl,
   (getters_never_write demo (Dev.usb demo) Dev.blank (by decide)).2.1 true []⟩

/-! ## Setters write configs, then buttons (C20) -/

theorem ext_getD (l1 l2 : List Nat) (hl : l1.length = l2.length)
    (h : ∀ i, i < l1.length → l1.getD i 0 = l2.getD i 0) : l1 = l2 := by
  refine List.ext_getElem hl (fun i h1 h2 => ?_)
  have := h i h1
  rwa [List.getD_eq_getElem _ _ h1, List.getD_eq_getElem _ _ h2] at this

theorem get_bytes_length (buf : List Nat) (off n : Nat) (h : off + n ≤ buf.length) :
    (get_bytes buf off n).length = n := by
  simp only [get_bytes, List.length_take, List.length_drop]
  omega

theorem get_bytes_getD (buf : List Nat) (off n i x : Nat) (hi : i < n) :
    (get_bytes buf off n).getD i x = buf.getD (off + i) x := by
  simp only [get_bytes, List.getD_eq_getElem?_getD, List.getElem?_take, hi, ↓reduceIte,
    List.getElem?_drop]

theorem getD_lt_of_mem (l : List Nat) (h : ∀ b ∈ l, b < 256) (i : Nat) : l.getD i 0 < 256 := by
  by_cases hi : i < l.length
  · rw [List.getD_eq_getElem _ _ hi]
    exact h _ (List.getElem_mem hi)
  · rw [List.getD_eq_default _ _ (by omega)]
    decide

theorem getD_default (l : List Nat) (i x y : Nat) (h : i < l.length) :
    l.getD i x = l.getD i y := by
  rw [List.getD_eq_getElem _ _ h, List.getD_eq_getElem _ _ h]

theorem u8_lt (x : Int) : u8 x < 256 := by
  unfold u8
  omega

theorem read_cmd_getD7 (K : Consts) (a : Nat) : (read_cmd K a).getD 7 0 = a % 256 := by
  unfold read_cmd cmd_init
  split_ifs <;> simp

theorem write_cmd_getD7 (K : Consts) (a : Nat) : (write_cmd K a).getD 7 0 = a % 256 := by
  unfold write_cmd cmd_init
  split_ifs <;> simp

/-- Storing a full section into a window of an array and reading the window back. -/
theorem put_bytes_window (buf : List Nat) (off n : Nat) (sec : List Nat)
    (hs : sec.length = n) (hlt : ∀ i, sec.getD i 0 < 256) (hoff : off + n ≤ buf.length) :
    get_bytes (put_bytes buf off n sec) off n = sec := by
  refine ext_getD _ _ ?_ (fun i hi => ?_)
  · rw [get_bytes_length _ _ _ (by rw [put_bytes_length]; exact hoff), hs]
  · rw [get_bytes_length _ _ _ (by rw [put_bytes_length]; exact hoff)] at hi
    rw [get_bytes_getD _ _ _ _ _ hi, put_bytes_getD _ _ _ _ _ (by omega), if_pos (by omega),
      Nat.add_sub_cancel_left, List.getD_eq_getElem _ _ (by omega),
      ← List.getD_eq_getElem _ 0 (by omega)]
    exact Nat.mod_eq_of_lt (hlt i)

/-- Storing into a window of an array leaves the windows beside it alone. -/
theorem put_bytes_other (buf : List Nat) (off n : Nat) (sec : List Nat) (o m : Nat)
    (h : o + m ≤ off ∨ off + n ≤ o) :
    get_bytes (put_bytes buf off n sec) o m = get_bytes buf o m := by
  refine ext_getD _ _ ?_ (fun i hi => ?_)
  · simp only [get_bytes, List.length_take, List.length_drop, put_bytes_length]
  · simp only [get_bytes, List.length_take, List.length_drop, put_bytes_length] at hi
    rw [get_bytes_getD _ _ _ _ _ (by omega), get_bytes_getD _ _ _ _ _ (by omega),
      put_bytes_getD _ _ _ _ _ (by omega), if_neg (by omega)]

/-- Two data lines stored one after the other are one section stored at once. -/
theorem put_bytes_halves (buf : List Nat) (off h : Nat) (sec : List Nat) :
    put_bytes (put_bytes buf off h (get_bytes sec (0 * h) h)) (off + h) h
        (get_bytes sec (1 * h) h)
      = put_bytes buf off (2 * h) sec := by
  refine ext_getD _ _ (by simp only [put_bytes_length]) (fun i hi => ?_)
  simp only [put_bytes_length] at hi
  rw [put_bytes_getD _ _ _ _ _ (by rw [put_bytes_length]; exact hi),
    put_bytes_getD _ _ _ _ _ hi, put_bytes_getD _ _ _ _ _ hi]
  by_cases c1 : off ≤ i ∧ i < off + h
  · rw [if_neg (by omega), if_pos c1, if_pos (by omega), get_bytes_getD _ _ _ _ _ (by omega)]
    simp
  · by_cases c2 : off + h ≤ i ∧ i < off + h + h
    · rw [if_pos c2, if_neg c1, if_pos (by omega), get_bytes_getD _ _ _ _ _ (by omega)]
      congr 2
      omega
    · rw [if_neg c2, if_neg c1, if_neg (by omega)]

theorem Dev.sect_mem (K : Consts) (d e : Dev) (h : e.mem = d.mem) (a : Nat) :
    e.sect K a = d.sect K a := by
  unfold Dev.sect
  rw [h]

theorem Dev.wf_mem (K : Consts) (d e : Dev) (h : e.mem = d.mem) (hd : d.wf K) : e.wf K := by
  intro a
  rw [Dev.sect_mem K d e h]
  exact hd a

theorem lookup_mem (l : List (Nat × List Nat)) (a : Nat) (sec : List Nat)
    (hl : l.lookup a = some sec) : (a, sec) ∈ l := by
  induction l with
  | nil => simp at hl
  | cons p t ih =>
    obtain ⟨k, v⟩ := p
    rw [List.lookup_cons] at hl
    by_cases hk : a == k
    · simp only [hk, Option.some.injEq] at hl
      simp only [beq_iff_eq] at hk
      rw [hl, hk]
      exact List.mem_cons_self _ _
    · simp only [hk] at hl
      exact List.mem_cons_of_mem _ (ih hl)

/-- A device whose stored entries all have `SECTION_LEN` bytes satisfies the invariant. -/
theorem Dev.wf_of_mem (K : Consts) (d : Dev)
    (h : ∀ p ∈ d.mem, p.2.length = K.SECTION_LEN ∧ ∀ b ∈ p.2, b < 256) : d.wf K := by
  intro a
  unfold Dev.sect
  cases hl : d.mem.lookup a with
  | none =>
    refine ⟨by simp, fun i => ?_⟩
    exact getD_lt_of_mem _ (by simp) i
  | some sec =>
    have hm : (a, sec) ∈ d.mem := lookup_mem _ _ _ hl
    exact ⟨(h _ hm).1, getD_lt_of_mem _ (h _ hm).2⟩

/-- On the device `Dev`, with sections of two data lines, `read_section` returns 0 and
stores the section at the address into the caller's array. -/
theorem read_section_dev (K : Consts) (a : Nat) (buf : List Nat) (off : Nat) (d : Dev)
    (hSL : K.SECTION_LEN = 2 * K.DATA_LINE_LEN) :
    (read_section K (Dev.usb K) a buf off d).1 = 0
    ∧ (read_section K (Dev.usb K) a buf off d).2.1
        = put_bytes buf off K.SECTION_LEN (d.sect K (a % 256)) := by
  rw [hSL, ← put_bytes_halves]
  unfold read_section
  simp only [Dev.usb, ne_eq, not_true_eq_false, ↓reduceIte, read_cmd_getD7, true_and]
  rfl

/-- On the device `Dev`, with sections of two data lines, `write_section` returns 0 and
replaces the section at the address by the bytes of the caller's array; the other
sections stay. -/
theorem write_section_dev (K : Consts) (a : Nat) (buf : List Nat) (off : Nat) (d : Dev)
    (hSL : K.SECTION_LEN = 2 * K.DATA_LINE_LEN) (hd : d.wf K)
    (hb : ∀ i, buf.getD i 0 < 256) (hoff : off + K.SECTION_LEN ≤ buf.length) :
    (write_section K (Dev.usb K) a buf off d).1 = 0
    ∧ ∀ x, (write_section K (Dev.usb K) a buf off d).2.sect K x
        = if x = a % 256 then get_bytes buf off K.SECTION_LEN else d.sect K x := by
  refine ⟨rfl, fun x => ?_⟩
  unfold write_section
  simp only [Dev.usb, ne_eq, not_true_eq_false, ↓reduceIte, write_cmd_getD7]
  by_cases hx : x = a % 256
  · rw [if_pos hx, hx]
    simp only [Dev.sect, List.lookup_cons, beq_self_eq_true]
    have hlen := (hd (a % 256)).1
    unfold Dev.sect at hlen
    refine ext_getD _ _ ?_ (fun i hi => ?_)
    · rw [put_bytes_length, put_bytes_length, hlen, get_bytes_length _ _ _ hoff]
    · rw [put_bytes_length, put_bytes_length, hlen] at hi
      rw [put_bytes_getD _ _ _ _ _ (by rw [put_bytes_length, hlen]; exact hi),
        put_bytes_getD _ _ _ _ _ (by rw [hlen]; exact hi),
        get_bytes_getD _ _ _ _ _ hi]
      by_cases c : i < K.DATA_LINE_LEN
      · rw [if_neg (by omega), if_pos (by omega), get_bytes_getD _ _ _ _ _ (by omega)]
        rw [show off + (i - 0 * K.DATA_LINE_LEN) = off + i by omega,
          getD_default _ _ _ 0 (by omega)]
        exact Nat.mod_eq_of_lt (hb _)
      · rw [if_pos (by omega), get_bytes_getD _ _ _ _ _ (by omega)]
        rw [show off + K.DATA_LINE_LEN + (i - 1 * K.DATA_LINE_LEN) = off + i by omega,
          getD_default _ _ _ 0 (by omega)]
        exact Nat.mod_eq_of_lt (hb _)
  · rw [if_neg hx]
    have hne : (x == a % 256) = false := by simpa using hx
    simp only [Dev.sect, List.lookup_cons, hne]

/-- On the device `Dev` a `write_section` keeps the invariant. -/
theorem write_section_dev_wf (K : Consts) (a : Nat) (buf : List Nat) (off : Nat) (d : Dev)
    (hSL : K.SECTION_LEN = 2 * K.DATA_LINE_LEN) (hd : d.wf K)
    (hb : ∀ i, buf.getD i 0 < 256) (hoff : off + K.SECTION_LEN ≤ buf.length) :
    (write_section K (Dev.usb K) a buf off d).2.wf K := by
  intro x
  rw [(write_section_dev K a buf off d hSL hd hb hoff).2 x]
  split_ifs
  · refine ⟨get_bytes_length _ _ _ hoff, fun i => ?_⟩
    by_cases hi : i < K.SECTION_LEN
    · rw [get_bytes_getD _ _ _ _ _ hi]
      exact hb _
    · rw [List.getD_eq_default _ _ (by rw [get_bytes_length _ _ _ hoff]; omega)]
      decide
  · exact hd x

/-- On the device `Dev` the loop of `save_info` runs to its end with status 0 and fills
one window of the array per macro section, leaving the windows before them alone. -/
theorem read_macros_dev (K : Consts) (hSL : K.SECTION_LEN = 2 * K.DATA_LINE_LEN) (n : Nat) :
    ∀ (i : Nat) (buf : List Nat) (off : Nat) (err : Int) (d : Dev), err = 0 →
      off + n * K.SECTION_LEN ≤ buf.length → d.wf K →
      (read_macros K (Dev.usb K) n i buf off err d).1 = 0
      ∧ (read_macros K (Dev.usb K) n i buf off err d).2.2.2 = true
      ∧ (read_macros K (Dev.usb K) n i buf off err d).2.1.length = buf.length
      ∧ (∀ j, j < n →
          get_bytes (read_macros K (Dev.usb K) n i buf off err d).2.1
              (off + j * K.SECTION_LEN) K.SECTION_LEN
            = d.sect K (u8 ((K.MACRO_ADDR_START : Int) - ((i + j : Nat) : Int))))
      ∧ ∀ o m, o + m ≤ off →
          get_bytes (read_macros K (Dev.usb K) n i buf off err d).2.1 o m
            = get_bytes buf o m := by
  induction n with
  | zero =>
    intro i buf off err d herr _ _
    exact ⟨herr, rfl, rfl, fun j hj => absurd hj (Nat.not_lt_zero j), fun _ _ _ => rfl⟩
  | succ n ih =>
    intro i buf off err d _ hlen hd
    obtain ⟨h1, h2⟩ := read_section_dev K (u8 ((K.MACRO_ADDR_START : Int) - i)) buf off d hSL
    have hmem := read_section_dev_mem K (u8 ((K.MACRO_ADDR_START : Int) - i)) buf off d
    rw [Nat.mod_eq_of_lt (u8_lt _)] at h2
    rw [Nat.succ_mul] at hlen
    obtain ⟨g1, g2, g3, g4, g5⟩ := ih (i + 1)
      (read_section K (Dev.usb K) (u8 ((K.MACRO_ADDR_START : Int) - i)) buf off d).2.1
      (off + K.SECTION_LEN) 0
      (read_section K (Dev.usb K) (u8 ((K.MACRO_ADDR_START : Int) - i)) buf off d).2.2 rfl
      (by rw [read_section_length]; omega) (Dev.wf_mem K d _ hmem hd)
    unfold read_macros
    simp only [h1, ne_eq, not_true_eq_false, ↓reduceIte]
    refine ⟨g1, g2, by rw [g3, read_section_length], fun j hj => ?_, fun o m hom => ?_⟩
    · cases j with
      | zero =>
        simp only [Nat.zero_mul, Nat.add_zero]
        rw [g5 off K.SECTION_LEN (le_refl _), h2]
        exact put_bytes_window _ _ _ _ (hd _).1 (hd _).2 (by omega)
      | succ j =>
        have := g4 j (by omega)
        rw [Dev.sect_mem K d _ hmem] at this
        rw [show off + (j + 1) * K.SECTION_LEN = off + K.SECTION_LEN + j * K.SECTION_LEN by
          rw [Nat.succ_mul]; omega, this, show i + 1 + j = i + (j + 1) by omega]
    · rw [g5 o m (by omega), h2]
      exact put_bytes_other _ _ _ _ _ _ (Or.inl hom)

/-- On the device `Dev` the loop of `write_full_memory` returns 0, keeps the invariant,
and leaves at every macro address it visits the window of the array destined for it
(`T` names the content every window holds for its address); the other sections stay. -/
theorem write_macros_dev (K : Consts) (hSL : K.SECTION_LEN = 2 * K.DATA_LINE_LEN)
    (buf : List Nat) (hb : ∀ i, buf.getD i 0 < 256) (T : Nat → List Nat) (n : Nat) :
    ∀ (i : Nat) (off : Nat) (err : Int) (d : Dev), err = 0 →
      off + n * K.SECTION_LEN ≤ buf.length → d.wf K →
      (∀ j, j < n → get_bytes buf (off + j * K.SECTION_LEN) K.SECTION_LEN
          = T (u8 ((K.MACRO_ADDR_START : Int) - ((i + j : Nat) : Int)))) →
      (write_macros K (Dev.usb K) buf n i off err d).1 = 0
      ∧ (write_macros K (Dev.usb K) buf n i off err d).2.wf K
      ∧ ∀ x, ((∃ j, j < n ∧ x = u8 ((K.MACRO_ADDR_START : Int) - ((i + j : Nat) : Int))) →
              (write_macros K (Dev.usb K) buf n i off err d).2.sect K x = T x)
          ∧ ((¬ ∃ j, j < n ∧ x = u8 ((K.MACRO_ADDR_START : Int) - ((i + j : Nat) : Int))) →
              (write_macros K (Dev.usb K) buf n i off err d).2.sect K x = d.sect K x) := by
  induction n with
  | zero =>
    intro i off err d herr _ hd _
    refine ⟨herr, hd, fun x => ⟨?_, fun _ => rfl⟩⟩
    rintro ⟨j, hj, _⟩
    exact absurd hj (Nat.not_lt_zero j)
  | succ n ih =>
    intro i off err d _ hlen hd hT
    rw [Nat.succ_mul] at hlen
    obtain ⟨h1, h2⟩ := write_section_dev K (u8 ((K.MACRO_ADDR_START : Int) - i)) buf off d hSL hd
      hb (by omega)
    have hwf := write_section_dev_wf K (u8 ((K.MACRO_ADDR_START : Int) - i)) buf off d hSL hd
      hb (by omega)
    rw [Nat.mod_eq_of_lt (u8_lt _)] at h2
    obtain ⟨g1, g2, g3⟩ := ih (i + 1) (off + K.SECTION_LEN) 0
      (write_section K (Dev.usb K) (u8 ((K.MACRO_ADDR_START : Int) - i)) buf off d).2 rfl
      (by omega) hwf (fun j hj => by
        have := hT (j + 1) (by omega)
        rw [show off + (j + 1) * K.SECTION_LEN = off + K.SECTION_LEN + j * K.SECTION_LEN by
          rw [Nat.succ_mul]; omega, show i + (j + 1) = i + 1 + j by omega] at this
        exact this)
    have hT0 := hT 0 (by omega)
    simp only [Nat.zero_mul, Nat.add_zero] at hT0
    unfold write_macros
    simp only [h1, ne_eq, not_true_eq_false, ↓reduceIte]
    refine ⟨g1, g2, fun x => ⟨?_, ?_⟩⟩
    · rintro ⟨j, hj, hx⟩
      by_cases hin : ∃ j, j < n ∧ x = u8 ((K.MACRO_ADDR_START : Int) - ((i + 1 + j : Nat) : Int))
      · exact (g3 x).1 hin
      · rw [(g3 x).2 hin, h2 x]
        cases j with
        | zero =>
          simp only [Nat.add_zero] at hx
          rw [if_pos hx, hT0, hx]
        | succ j =>
          exact absurd ⟨j, by omega, by rw [hx, show i + (j + 1) = i + 1 + j by omega]⟩ hin
    · intro hout
      have hin : ¬ ∃ j, j < n ∧ x = u8 ((K.MACRO_ADDR_START : Int) - ((i + 1 + j : Nat) : Int)) := by
        rintro ⟨j, hj, hx⟩
        exact hout ⟨j + 1, by omega, by rw [hx, show i + (j + 1) = i + 1 + j by omega]⟩
      rw [(g3 x).2 hin, h2 x, if_neg]
      intro hx
      exact hout ⟨0, by omega, by simpa only [Nat.add_zero] using hx⟩

theorem get_bytes_all (buf : List Nat) (n : Nat) (h : buf.length = n) :
    get_bytes buf 0 n = buf := by
  simp only [get_bytes, List.drop_zero]
  exact List.take_of_length_le (by omega)

theorem read_macros_lt {σ : Type} (K : Consts) (U : Usb σ) (n : Nat) :
    ∀ (i : Nat) (buf : List Nat) (off : Nat) (err : Int) (s : σ),
      (∀ x, buf.getD x 0 < 256) →
      ∀ x, (read_macros K U n i buf off err s).2.1.getD x 0 < 256 := by
  induction n with
  | zero => intro i buf off err s h x; exact h x
  | succ n ih =>
    intro i buf off err s h x
    unfold read_macros
    simp only []
    split_ifs
    · exact read_section_lt K U _ _ _ _ h x
    · exact ih _ _ _ _ _ (read_section_lt K U _ _ _ _ h) x

/-- The memory dump on the device `Dev`: `save_info` returns 0 and hands over an array of
`FULL_BUF` bytes whose window `k` is the section the device holds at `section_addr k`. -/
theorem save_info_dev (K : Consts) (hSL : K.SECTION_LEN = 2 * K.DATA_LINE_LEN)
    (hFB : K.FULL_BUF = (2 + K.NUM_MACROS) * K.SECTION_LEN) (argv : List CStr) (d : Dev)
    (hd : d.wf K) :
    ∃ b, (save_info K (Dev.usb K) true argv d).status = 0
      ∧ (save_info K (Dev.usb K) true argv d).dump = some b
      ∧ b.length = K.FULL_BUF
      ∧ (∀ i, b.getD i 0 < 256)
      ∧ ∀ k, k < 2 + K.NUM_MACROS →
          get_bytes b (k * K.SECTION_LEN) K.SECTION_LEN = d.sect K (section_addr K k) := by
  have hFB2 : K.FULL_BUF = K.SECTION_LEN + K.SECTION_LEN + K.NUM_MACROS * K.SECTION_LEN := by
    rw [hFB, Nat.add_mul]; omega
  unfold save_info
  simp only []
  rw [if_neg (by simp)]
  obtain ⟨a1, a2⟩ := read_section_dev K (K.CONFIGS_ADDR % 256) (uninit K.FULL_BUF) 0 d hSL
  have a3 := read_section_dev_mem K (K.CONFIGS_ADDR % 256) (uninit K.FULL_BUF) 0 d
  have a4 := read_section_length K (Dev.usb K) (K.CONFIGS_ADDR % 256) (uninit K.FULL_BUF) 0 d
  have a5 := read_section_lt K (Dev.usb K) (K.CONFIGS_ADDR % 256) (uninit K.FULL_BUF) 0 d
    (uninit_lt _)
  rw [Nat.mod_mod] at a2
  generalize read_section K (Dev.usb K) (K.CONFIGS_ADDR % 256) (uninit K.FULL_BUF) 0 d = r1
    at a1 a2 a3 a4 a5 ⊢
  obtain ⟨b1, b2⟩ := read_section_dev K (K.BUTTONS_ADDR % 256) r1.2.1 K.SECTION_LEN r1.2.2 hSL
  have b3 := read_section_dev_mem K (K.BUTTONS_ADDR % 256) r1.2.1 K.SECTION_LEN r1.2.2
  have b4 := read_section_length K (Dev.usb K) (K.BUTTONS_ADDR % 256) r1.2.1 K.SECTION_LEN r1.2.2
  have b5 := read_section_lt K (Dev.usb K) (K.BUTTONS_ADDR % 256) r1.2.1 K.SECTION_LEN r1.2.2 a5
  rw [Nat.mod_mod, Dev.sect_mem K d _ a3] at b2
  rw [a3] at b3
  rw [a4] at b4
  have hlen0 : (uninit K.FULL_BUF).length = K.FULL_BUF := by simp [uninit]
  rw [hlen0] at a4 b4
  generalize read_section K (Dev.usb K) (K.BUTTONS_ADDR % 256) r1.2.1 K.SECTION_LEN r1.2.2 = r2
    at b1 b2 b3 b4 b5 ⊢
  obtain ⟨c1, c2, c3, c4, c5⟩ := read_macros_dev K hSL K.NUM_MACROS 0 r2.2.1
    (K.SECTION_LEN + K.SECTION_LEN) r2.1 r2.2.2 b1 (by omega) (Dev.wf_mem K d _ b3 hd)
  have c6 := read_macros_lt K (Dev.usb K) K.NUM_MACROS 0 r2.2.1
    (K.SECTION_LEN + K.SECTION_LEN) r2.1 r2.2.2 b5
  rw [b4] at c3
  generalize read_macros K (Dev.usb K) K.NUM_MACROS 0 r2.2.1
    (K.SECTION_LEN + K.SECTION_LEN) r2.1 r2.2.2 = r3 at c1 c2 c3 c4 c5 c6 ⊢
  rw [if_neg (by rw [a1]; decide), if_neg (by rw [b1]; decide), if_neg (by rw [c2]; decide)]
  refine ⟨r3.2.1, c1, ?_, c3, c6, fun k hk => ?_⟩
  · simp only [get_bytes_all _ _ c3]
  · match k, hk with
    | 0, _ =>
      rw [Nat.zero_mul, c5 0 K.SECTION_LEN (by omega), b2,
        put_bytes_other _ _ _ _ _ _ (Or.inl (by omega)), a2]
      exact put_bytes_window _ _ _ _ (hd _).1 (hd _).2 (by rw [hlen0]; omega)
    | 1, _ =>
      rw [Nat.one_mul, c5 K.SECTION_LEN K.SECTION_LEN (by omega), b2]
      exact put_bytes_window _ _ _ _ (hd _).1 (hd _).2 (by omega)
    | j + 2, hj =>
      have := c4 j (by omega)
      rw [Dev.sect_mem K d _ b3, Nat.zero_add] at this
      rw [show (j + 2) * K.SECTION_LEN = K.SECTION_LEN + K.SECTION_LEN + j * K.SECTION_LEN by
        rw [Nat.add_mul]; omega, this]
      rfl

/-- Restoring on the device `Dev`: `write_full_memory` returns 0 and leaves at every
address `section_addr k` the window of the array destined for it (`T` names the content
every window holds for its address); the other sections stay. -/
theorem write_full_memory_dev (K : Consts) (hSL : K.SECTION_LEN = 2 * K.DATA_LINE_LEN)
    (buf : List Nat) (hb : ∀ i, buf.getD i 0 < 256)
    (hlen : buf.length = (2 + K.NUM_MACROS) * K.SECTION_LEN) (T : Nat → List Nat)
    (hT : ∀ k, k < 2 + K.NUM_MACROS →
      get_bytes buf (k * K.SECTION_LEN) K.SECTION_LEN = T (section_addr K k))
    (d : Dev) (hd : d.wf K) :
    (write_full_memory K (Dev.usb K) buf d).1 = 0
    ∧ (write_full_memory K (Dev.usb K) buf d).2.wf K
    ∧ ∀ x, ((∃ k, k < 2 + K.NUM_MACROS ∧ x = section_addr K k) →
            (write_full_memory K (Dev.usb K) buf d).2.sect K x = T x)
        ∧ ((¬ ∃ k, k < 2 + K.NUM_MACROS ∧ x = section_addr K k) →
            (write_full_memory K (Dev.usb K) buf d).2.sect K x = d.sect K x) := by
  have hlen2 : buf.length = K.SECTION_LEN + K.SECTION_LEN + K.NUM_MACROS * K.SECTION_LEN := by
    rw [hlen, Nat.add_mul]; omega
  unfold write_full_memory
  simp only []
  have a3 := read_section_dev_mem K (K.CONFIGS_ADDR % 256) (uninit K.SECTION_LEN) 0 d
  generalize read_section K (Dev.usb K) (K.CONFIGS_ADDR % 256) (uninit K.SECTION_LEN) 0 d = r0
    at a3 ⊢
  have hd0 : r0.2.2.wf K := Dev.wf_mem K d _ a3 hd
  obtain ⟨b1, b2⟩ := write_section_dev K (K.CONFIGS_ADDR % 256) buf 0 r0.2.2 hSL hd0 hb (by omega)
  have b3 := write_section_dev_wf K (K.CONFIGS_ADDR % 256) buf 0 r0.2.2 hSL hd0 hb (by omega)
  rw [Nat.mod_mod] at b2
  generalize write_section K (Dev.usb K) (K.CONFIGS_ADDR % 256) buf 0 r0.2.2 = w1
    at b1 b2 b3 ⊢
  obtain ⟨c1, c2⟩ := write_section_dev K (K.BUTTONS_ADDR % 256) buf K.SECTION_LEN w1.2 hSL b3 hb
    (by omega)
  have c3 := write_section_dev_wf K (K.BUTTONS_ADDR % 256) buf K.SECTION_LEN w1.2 hSL b3 hb
    (by omega)
  rw [Nat.mod_mod] at c2
  generalize write_section K (Dev.usb K) (K.BUTTONS_ADDR % 256) buf K.SECTION_LEN w1.2 = w2
    at c1 c2 c3 ⊢
  rw [if_neg (by rw [b1]; decide), if_neg (by rw [c1]; decide)]
  obtain ⟨e1, e2, e3⟩ := write_macros_dev K hSL buf hb T K.NUM_MACROS 0
    (K.SECTION_LEN + K.SECTION_LEN) w2.1 w2.2 c1 (by omega) c3 (fun j hj => by
      have := hT (j + 2) (by omega)
      rw [show (j + 2) * K.SECTION_LEN = K.SECTION_LEN + K.SECTION_LEN + j * K.SECTION_LEN by
        rw [Nat.add_mul]; omega] at this
      rw [this, Nat.zero_add]
      rfl)
  have hT0 := hT 0 (by omega)
  have hT1 := hT 1 (by omega)
  rw [Nat.zero_mul] at hT0
  rw [Nat.one_mul] at hT1
  refine ⟨e1, e2, fun x => ⟨?_, fun hout => ?_⟩⟩
  · rintro ⟨k, hk, hx⟩
    by_cases hm : ∃ j, j < K.NUM_MACROS ∧ x = u8 ((K.MACRO_ADDR_START : Int) - ((0 + j : Nat) : Int))
    · exact (e3 x).1 hm
    rw [(e3 x).2 hm, c2 x]
    by_cases hB : x = K.BUTTONS_ADDR % 256
    · rw [if_pos hB, hT1, hB]
      rfl
    rw [if_neg hB, b2 x]
    by_cases hC : x = K.CONFIGS_ADDR % 256
    · rw [if_pos hC, hT0, hC]
      rfl
    exfalso
    match k, hk, hx with
    | 0, _, hx => exact hC hx
    | 1, _, hx => exact hB hx
    | j + 2, hj, hx => exact hm ⟨j, by omega, by rw [hx, Nat.zero_add]; rfl⟩
  · have hm : ¬ ∃ j, j < K.NUM_MACROS
        ∧ x = u8 ((K.MACRO_ADDR_START : Int) - ((0 + j : Nat) : Int)) := by
      rintro ⟨j, hj, hx⟩
      exact hout ⟨j + 2, by omega, by rw [hx, Nat.zero_add]; rfl⟩
    have hB : x ≠ K.BUTTONS_ADDR % 256 := fun h => hout ⟨1, by omega, h⟩
    have hC : x ≠ K.CONFIGS_ADDR % 256 := fun h => hout ⟨0, by omega, h⟩
    rw [(e3 x).2 hm, c2 x, if_neg hB, b2 x, if_neg hC, Dev.sect_mem K d _ a3]

theorem get_bytes_append (buf : List Nat) (off m n : Nat) :
    get_bytes buf off (m + n) = get_bytes buf off m ++ get_bytes buf (off + m) n := by
  simp only [get_bytes, List.take_add, List.drop_drop]

/-- Windows of zeros one after the other are one run of zeros. -/
theorem zero_windows (buf : List Nat) (w n : Nat) :
    ∀ off, (∀ j, j < n → get_bytes buf (off + j * w) w = List.replicate w 0) →
      get_bytes buf off (n * w) = List.replicate (n * w) 0 := by
  induction n with
  | zero => intro off _; simp [get_bytes]
  | succ n ih =>
    intro off h
    have h0 := h 0 (by omega)
    simp only [Nat.zero_mul, Nat.add_zero] at h0
    rw [Nat.succ_mul, Nat.add_comm (n * w) w, get_bytes_append, h0,
      ih (off + w) (fun j hj => by
        have := h (j + 1) (by omega)
        rw [show off + (j + 1) * w = off + w + j * w by rw [Nat.succ_mul]; omega] at this
        exact this),
      List.replicate_add]

theorem factory_settings_length (K : Consts) : (factory_settings K).length = K.FULL_BUF := by
  simp [factory_settings, put_bytes_length]

theorem factory_settings_lt (K : Consts) (i : Nat) : (factory_settings K).getD i 0 < 256 :=
  put_bytes_lt _ _ _ _ (put_bytes_lt _ _ _ _ (uninit_lt K.FULL_BUF)) i

/-- C15. On the device `Dev` (one section of `SECTION_LEN` bytes per address, every
transfer succeeding), with sections of two data lines and `FULL_BUF` of
`(2 + NUM_MACROS)` sections: the memory dump `save_info` returns 0 and delivers an array
whose window `k` is the section at `section_addr k` (configs, buttons, then the macro
sections at `MACRO_ADDR_START - i`); `write_full_memory` with that array, on whatever such
device `e`, returns 0 and leaves at each `section_addr k` the section dumped from there
and every other section of `e` as it was; run on the dumped device itself, it leaves
every section byte-for-byte as it was. -/
theorem dump_restore_roundtrip (K : Consts) (hSL : K.SECTION_LEN = 2 * K.DATA_LINE_LEN)
    (hFB : K.FULL_BUF = (2 + K.NUM_MACROS) * K.SECTION_LEN) (argv : List CStr) (d : Dev)
    (hd : d.wf K) :
    ∃ b, (save_info K (Dev.usb K) true argv d).status = 0
      ∧ (save_info K (Dev.usb K) true argv d).dump = some b
      ∧ b.length = (2 + K.NUM_MACROS) * K.SECTION_LEN
      ∧ (∀ k, k < 2 + K.NUM_MACROS →
          get_bytes b (k * K.SECTION_LEN) K.SECTION_LEN = d.sect K (section_addr K k))
      ∧ (∀ e : Dev, e.wf K →
          (write_full_memory K (Dev.usb K) b e).1 = 0
          ∧ (∀ k, k < 2 + K.NUM_MACROS →
              (write_full_memory K (Dev.usb K) b e).2.sect K (section_addr K k)
                = d.sect K (section_addr K k))
          ∧ ∀ x, (¬ ∃ k, k < 2 + K.NUM_MACROS ∧ x = section_addr K k) →
              (write_full_memory K (Dev.usb K) b e).2.sect K x = e.sect K x)
      ∧ (write_full_memory K (Dev.usb K) b (save_info K (Dev.usb K) true argv d).dev).1 = 0
      ∧ ∀ x, (write_full_memory K (Dev.usb K) b
                (save_info K (Dev.usb K) true argv d).dev).2.sect K x = d.sect K x := by
  obtain ⟨b, h1, h2, h3, h4, h5⟩ := save_info_dev K hSL hFB argv d hd
  have hmem := save_info_dev_mem K true argv d
  have hw := fun e he =>
    write_full_memory_dev K hSL b h4 (by rw [h3, hFB]) (d.sect K) h5 e he
  refine ⟨b, h1, h2, by rw [h3, hFB], h5, fun e he => ⟨(hw e he).1, fun k hk => ?_, fun x hx => ?_⟩,
    (hw _ (Dev.wf_mem K d _ hmem hd)).1, fun x => ?_⟩
  · exact ((hw e he).2.2 _).1 ⟨k, hk, rfl⟩
  · exact ((hw e he).2.2 x).2 hx
  · by_cases hx : ∃ k, k < 2 + K.NUM_MACROS ∧ x = section_addr K k
    · exact ((hw _ (Dev.wf_mem K d _ hmem hd)).2.2 x).1 hx
    · rw [((hw _ (Dev.wf_mem K d _ hmem hd)).2.2 x).2 hx, Dev.sect_mem K d _ hmem]

/-- Witness of C15 on the sample header: dumping the device `Dev.sample` and restoring
the dump leaves every section as it was. -/
theorem dump_restore_roundtrip_witness :
    ∃ b, (save_info demo (Dev.usb demo) true [] Dev.sample).dump = some b
      ∧ get_bytes b 0 64 = List.range 64
      ∧ ∀ x, (write_full_memory demo (Dev.usb demo) b
                (save_info demo (Dev.usb demo) true [] Dev.sample).dev).2.sect demo x
              = Dev.sample.sect demo x := by
  obtain ⟨b, _, h2, _, h4, _, _, h7⟩ :=
    dump_restore_roundtrip demo (by decide) (by decide) [] Dev.sample
      (Dev.wf_of_mem demo Dev.sample (by decide))
  exact ⟨b, h2, h4 0 (by decide), h7⟩

/-- C16. On the device `Dev` (one section of `SECTION_LEN` bytes per address, every
transfer succeeding), with sections of two data lines, `FULL_BUF` of `(2 + NUM_MACROS)`
sections, factory tables of `SECTION_LEN` bytes, and the configs, buttons and macro
addresses apart from each other: `factory_reset` returns 0 and the memory dump that
follows returns 0 and delivers an array whose first `SECTION_LEN` bytes are
`factory_config`, whose next `SECTION_LEN` bytes are `factory_buttons`, and whose
remaining `NUM_MACROS * SECTION_LEN` bytes are zero, whatever the device held. -/
theorem factory_reset_then_dump (K : Consts) (hSL : K.SECTION_LEN = 2 * K.DATA_LINE_LEN)
    (hFB : K.FULL_BUF = (2 + K.NUM_MACROS) * K.SECTION_LEN)
    (hfc : K.factory_config.length = K.SECTION_LEN) (hfc8 : ∀ b ∈ K.factory_config, b < 256)
    (hfb : K.factory_buttons.length = K.SECTION_LEN) (hfb8 : ∀ b ∈ K.factory_buttons, b < 256)
    (hCB : K.CONFIGS_ADDR % 256 ≠ K.BUTTONS_ADDR % 256)
    (hM : ∀ j, j < K.NUM_MACROS →
      u8 ((K.MACRO_ADDR_START : Int) - j) ≠ K.CONFIGS_ADDR % 256
      ∧ u8 ((K.MACRO_ADDR_START : Int) - j) ≠ K.BUTTONS_ADDR % 256)
    (argv argv2 : List CStr) (d : Dev) (hd : d.wf K) :
    ∃ r b, factory_reset K (Dev.usb K) argv d = some r
      ∧ r.status = 0
      ∧ (save_info K (Dev.usb K) true argv2 r.dev).status = 0
      ∧ (save_info K (Dev.usb K) true argv2 r.dev).dump = some b
      ∧ b.length = (2 + K.NUM_MACROS) * K.SECTION_LEN
      ∧ get_bytes b 0 K.SECTION_LEN = K.factory_config
      ∧ get_bytes b K.SECTION_LEN K.SECTION_LEN = K.factory_buttons
      ∧ get_bytes b (K.SECTION_LEN + K.SECTION_LEN) (K.NUM_MACROS * K.SECTION_LEN)
          = List.replicate (K.NUM_MACROS * K.SECTION_LEN) 0 := by
  have hFB2 : K.FULL_BUF = K.SECTION_LEN + K.SECTION_LEN + K.NUM_MACROS * K.SECTION_LEN := by
    rw [hFB, Nat.add_mul]; omega
  have hT : ∀ k, k < 2 + K.NUM_MACROS →
      get_bytes (factory_settings K) (k * K.SECTION_LEN) K.SECTION_LEN
        = factory_sect K (section_addr K k) := by
    intro k hk
    unfold factory_settings factory_sect
    match k, hk with
    | 0, _ =>
      simp only [section_addr, ↓reduceIte]
      rw [Nat.zero_mul, put_bytes_other _ _ _ _ _ _ (Or.inl (by omega))]
      exact put_bytes_window _ _ _ _ hfc (getD_lt_of_mem _ hfc8) (by simp; omega)
    | 1, _ =>
      simp only [section_addr, if_neg (Ne.symm hCB), ↓reduceIte]
      rw [Nat.one_mul]
      exact put_bytes_window _ _ _ _ hfb (getD_lt_of_mem _ hfb8)
        (by rw [put_bytes_length]; simp; omega)
    | j + 2, hj =>
      simp only [section_addr, if_neg (hM j (by omega)).1, if_neg (hM j (by omega)).2]
      have e : (j + 2) * K.SECTION_LEN = K.SECTION_LEN + K.SECTION_LEN + j * K.SECTION_LEN := by
        rw [Nat.add_mul]; omega
      have hj2 : j * K.SECTION_LEN + K.SECTION_LEN ≤ K.NUM_MACROS * K.SECTION_LEN := by
        rw [← Nat.succ_mul]
        exact Nat.mul_le_mul_right _ (by omega)
      rw [e, put_bytes_other _ _ _ _ _ _ (Or.inr (by omega)),
        put_bytes_other _ _ _ _ _ _ (Or.inr (by omega))]
      simp only [get_bytes, List.drop_replicate, List.take_replicate]
      congr 1
      omega
  obtain ⟨w1, w2, w3⟩ := write_full_memory_dev K hSL (factory_settings K)
    (factory_settings_lt K) (by rw [factory_settings_length, hFB]) (factory_sect K) hT d hd
  obtain ⟨b, s1, s2, s3, _, s5⟩ := save_info_dev K hSL hFB argv2
    (write_full_memory K (Dev.usb K) (factory_settings K) d).2 w2
  have hwin : ∀ k, k < 2 + K.NUM_MACROS →
      get_bytes b (k * K.SECTION_LEN) K.SECTION_LEN
        = get_bytes (factory_settings K) (k * K.SECTION_LEN) K.SECTION_LEN := by
    intro k hk
    rw [s5 k hk, (w3 _).1 ⟨k, hk, rfl⟩, hT k hk]
  refine ⟨⟨(write_full_memory K (Dev.usb K) (factory_settings K) d).1, "",
    (write_full_memory K (Dev.usb K) (factory_settings K) d).2⟩, b, rfl, w1, s1, s2,
    by rw [s3, hFB], ?_, ?_, ?_⟩
  · have := hwin 0 (by omega)
    rw [hT 0 (by omega), Nat.zero_mul] at this
    simpa only [factory_sect, section_addr, ↓reduceIte] using this
  · have := hwin 1 (by omega)
    rw [hT 1 (by omega), Nat.one_mul] at this
    simpa only [factory_sect, section_addr, if_neg (Ne.symm hCB), ↓reduceIte] using this
  · refine zero_windows b K.SECTION_LEN K.NUM_MACROS _ (fun j hj => ?_)
    have := hwin (j + 2) (by omega)
    rw [hT (j + 2) (by omega), show (j + 2) * K.SECTION_LEN
      = K.SECTION_LEN + K.SECTION_LEN + j * K.SECTION_LEN by rw [Nat.add_mul]; omega] at this
    simpa only [factory_sect, section_addr, if_neg (hM j (by omega)).1,
      if_neg (hM j (by omega)).2] using this

/-- Witness of C16 on the sample header, from the device `Dev.sample`. -/
theorem factory_reset_then_dump_witness :
    ∃ r b, factory_reset demo (Dev.usb demo) [] Dev.sample = some r
      ∧ (save_info demo (Dev.usb demo) true [] r.dev).dump = some b
      ∧ get_bytes b 0 64 = List.replicate 64 1
      ∧ get_bytes b 64 64 = List.replicate 64 2
      ∧ get_bytes b 128 128 = List.replicate 128 0 := by
  obtain ⟨r, b, h1, _, _, h4, _, h6, h7, h8⟩ :=
    factory_reset_then_dump demo (by decide) (by decide) (by decide) (by decide) (by decide)
      (by decide) (by decide) (by decide) [] [] Dev.sample
      (Dev.wf_of_mem demo Dev.sample (by decide))
  exact ⟨r, b, h1, h4, h6, h7, h8⟩

end MX
